import Mathlib

/-!
# Verification of the rustest fixture-resolution and execution engine

Shallow embedding of the core of `src/execution.rs` and `src/cache.rs` of the
`rustest` test runner, together with proofs about the claims on its
specification.

Conventions of the embedding:
* Host-runtime (Python) values are abstract: a fixture callable invocation
  produces a fresh symbolic value `Val.fx key id`; test bodies and generator
  teardowns are oracles supplied as parameters.
* Machine side effects (event-loop creation, teardown execution, result
  emission, cache writing) are recorded in an event trace.
* The `IndexMap`s of the source are association lists preserving insertion
  order; lookup finds the first binding.
* Recursive walks (fixture resolution and loop-scope inference) take explicit
  fuel and recurse structurally on it; fuel-sufficiency is proved where a
  claim needs totality.
-/

namespace Rustest

/-! ## Scopes -/

/-- Fixture/loop scopes, mirroring `FixtureScope` referenced throughout
`src/execution.rs` (variants `Function`, `Class`, `Module`, `Package`,
`Session`). -/
inductive Scope where
  | function
  | cls
  | module
  | pkg
  | session
deriving DecidableEq, Repr

/-- Numeric rank of a scope, as hard-coded in `is_scope_wider`
(`src/execution.rs:1136`): function 0, class 1, module 2, package 3,
session 4. -/
def scopeOrder : Scope → Nat
  | .function => 0
  | .cls => 1
  | .module => 2
  | .pkg => 3
  | .session => 4

/-- `is_scope_wider` from `src/execution.rs:1136`: `scope_a` strictly wider
than `scope_b`. -/
def is_scope_wider (a b : Scope) : Bool :=
  scopeOrder a > scopeOrder b

/-- Modelled from the spec: `model.rs` (declared in `lib.rs` but not present
under `src/`) derives `Ord` for `FixtureScope`; the spec fixes the total
order `function < class < module < package < session`, which agrees with the
numeric ranks hard-coded in `is_scope_wider` in `src/execution.rs`.  This is
the comparison used by `fixture.scope > dependency.scope` in
`FixtureResolver::validate_scope_dependency`. -/
def scopeGt (a b : Scope) : Bool :=
  scopeOrder a > scopeOrder b

/-- `scope_to_string` from `src/execution.rs:1148`. -/
def scope_to_string : Scope → String
  | .function => "function"
  | .cls => "class"
  | .module => "module"
  | .pkg => "package"
  | .session => "session"

/-- The `{:?}` (derived `Debug`) rendering of `FixtureScope`, used by the
`ScopeMismatch` message: the variant name. -/
def scopeDebug : Scope → String
  | .function => "Function"
  | .cls => "Class"
  | .module => "Module"
  | .pkg => "Package"
  | .session => "Session"

/-! ## String helpers mirroring the Rust `str` operations used -/

/-- Is `n` a contiguous infix of `h` (char-list form of Rust
`str::contains`). -/
def hasInfix (n : List Char) : List Char → Bool
  | [] => n.isEmpty
  | c :: t => n.isPrefixOf (c :: t) || hasInfix n t

/-- Rust `str::contains(needle)`. -/
def strContains (hay needle : String) : Bool :=
  hasInfix needle.toList hay.toList

/-- Suffix of `h` after the first occurrence of `n`
(Rust `str::find` + slicing past the needle), if `n` occurs. -/
def findSplit (n : List Char) : List Char → Option (List Char)
  | [] => if n.isEmpty then some [] else none
  | c :: t => if n.isPrefixOf (c :: t) then some ((c :: t).drop n.length) else findSplit n t

/-- Split a character list at every occurrence of `sep` (the splitter
underlying `str::lines` and path handling). -/
def splitOnChar (sep : Char) : List Char → List Char → List (List Char)
  | [], cur => [cur.reverse]
  | c :: t, cur =>
    if c = sep then cur.reverse :: splitOnChar sep t []
    else splitOnChar sep t (c :: cur)

/-- Rust `str::starts_with` on strings. -/
def rustStartsWith (s p : String) : Bool :=
  p.toList.isPrefixOf s.toList

/-- Rust `str::ends_with` on strings. -/
def rustEndsWith (s p : String) : Bool :=
  p.toList.reverse.isPrefixOf s.toList.reverse

/-- Rust `str::trim`: strip whitespace from both ends. -/
def rustTrim (s : String) : String :=
  let l := s.toList.dropWhile Char.isWhitespace
  String.mk ((l.reverse.dropWhile Char.isWhitespace).reverse)

/-- Rust `str::lines()`: split on `'\n'`, drop a final empty segment produced
by a trailing newline, strip a trailing `'\r'` from each line. -/
def rustLines (s : String) : List String :=
  if s.toList.isEmpty then []
  else
    let parts := splitOnChar '\n' s.toList []
    let parts := if parts.getLast? = some [] then parts.dropLast else parts
    parts.map (fun l =>
      String.mk (if l.getLast? = some '\r' then l.dropLast else l))

/-- `reason.lines().next().unwrap_or(reason)`. -/
def firstLineOr (s : String) : String :=
  (rustLines s).headD s

/-! ## Skip-signal classification (`src/execution.rs:953` and `:967`) -/

/-- `is_skip_exception` from `src/execution.rs:953`: does this (formatted)
error message indicate a skipped test? -/
def is_skip_exception (message : String) : Bool :=
  strContains message "rustest.decorators.Skipped"
    || strContains message "pytest.skip.Exception"
    || (rustLines message).any (fun line =>
          let trimmed := rustTrim line
          rustStartsWith trimmed "Skipped:" || rustEndsWith trimmed ".Skipped")

/-- `extract_skip_reason` from `src/execution.rs:967`. -/
def extract_skip_reason (message : String) : String :=
  match findSplit "Skipped: ".toList message.toList with
  | some rest => firstLineOr (String.mk rest)
  | none =>
    match findSplit "skip.Exception: ".toList message.toList with
    | some rest => firstLineOr (String.mk rest)
    | none => firstLineOr message

/-! ## Host values, fixtures and test cases -/

/-- An opaque host-runtime (Python) object as it appears in collected
metadata: either a string (the only case the engine ever extracts) or some
other object identified by a tag. -/
inductive PVal where
  | str (s : String)
  | obj (tag : Nat)
deriving DecidableEq, Repr

/-- A value flowing through fixture resolution: a literal parameter value, a
value produced by invoking a fixture callable (fresh `id` per invocation,
under its cache key), or a `request` pseudo-fixture object carrying the
current parametrisation value. -/
inductive Val where
  | lit (p : PVal)
  | fx (key : String) (id : Nat)
  | request (param : Option PVal)
deriving DecidableEq, Repr

/-- A fixture record (the fields of `model::Fixture` that
`src/execution.rs` reads).  `raisesOn` models the behaviour of the host
callable per invocation id: executing the fixture body (the direct call, or
the generator's advance to its first yield, or awaiting the coroutine on
the scoped loop) either raises with this message or succeeds
(`src/execution.rs:1604`-`1701`, the `?` operators). -/
structure Fixture where
  name : String
  parameters : List String
  scope : Scope
  is_generator : Bool := false
  is_async : Bool := false
  is_async_generator : Bool := false
  autouse : Bool := false
  class_name : Option String := none
  params : Option (List PVal) := none
  raisesOn : Nat → Option String := fun _ => none

/-- A mark (`model::Mark`): a name, positional arguments and keyword
arguments. -/
structure Mark where
  name : String
  args : List PVal := []
  kwargs : List (String × PVal) := []
deriving Repr

/-- Behaviour of one test-callable execution: the exception it raises (if
any, already formatted as the engine would see it) and what it writes to the
standard streams. -/
structure BodyRun where
  raises : Option String := none
  out : String := ""
  errOut : String := ""

/-- A collected test case (the fields of `model::TestCase` that
`src/execution.rs` reads).  `is_async_fn` models
`inspect.iscoroutinefunction` on the callable and `body` models calling the
callable (for an async test, running its coroutine to completion). -/
structure TestCase where
  name : String
  display_name : String
  path : String
  class_name : Option String := none
  parameters : List String := []
  parameter_values : List (String × PVal) := []
  fixture_param_indices : List (String × Nat) := []
  indirect_params : List String := []
  marks : List Mark := []
  skip_reason : Option String := none
  is_async_fn : Bool := false
  body : List Val → BodyRun := fun _ => {}

/-- A collected module: path, ordered fixture registry, ordered tests. -/
structure TestModule where
  path : String
  fixtures : List (String × Fixture) := []
  tests : List TestCase := []

/-- Association-list lookup (first binding wins), the `IndexMap::get` of the
source. -/
def alGet {α : Type} (l : List (String × α)) (k : String) : Option α :=
  match l with
  | [] => none
  | (k', v) :: t => if k' = k then some v else alGet t k

/-- `IndexMap::insert`: replace in place if the key is present, else append
(insertion order preserved). -/
def alInsert {α : Type} (l : List (String × α)) (k : String) (v : α) :
    List (String × α) :=
  match l with
  | [] => [(k, v)]
  | (k', v') :: t => if k' = k then (k, v) :: t else (k', v') :: alInsert t k v

/-- Mark names of a test (`TestCase::mark_names`).
Modelled from the spec: `model.rs` is not under `src/`; the result record's
`marks[]` lists the names of the test's marks. -/
def mark_names (tc : TestCase) : List String :=
  tc.marks.map (·.name)

/-! ## Loop-scope inference (`src/execution.rs:1017`-`1272`) -/

/-- The `loop_scope` string → `FixtureScope` conversion inside
`get_explicit_loop_scope_from_marks` (unknown strings map to function). -/
def loopScopeOfString (s : String) : Scope :=
  if s = "session" then .session
  else if s = "package" then .pkg
  else if s = "module" then .module
  else if s = "class" then .cls
  else .function

/-- `get_explicit_loop_scope_from_marks` from `src/execution.rs:1019`: the
first `asyncio` mark decides; a missing or non-string `loop_scope` kwarg
yields `none`. -/
def get_explicit_loop_scope_from_marks (tc : TestCase) : Option Scope :=
  go tc.marks
where
  go : List Mark → Option Scope
    | [] => none
    | m :: rest =>
      if m.name = "asyncio" then
        match alGet m.kwargs "loop_scope" with
        | some (.str s) => some (loopScopeOfString s)
        | _ => none
      else go rest

/-- The fixture names passed (as string positional arguments) to
`usefixtures` marks, in order; non-string arguments are skipped
(`if let Ok(fixture_name) = arg.extract::<String>()`). -/
def usefixturesNames (tc : TestCase) : List String :=
  tc.marks.foldl
    (fun acc m =>
      if m.name = "usefixtures" then
        acc ++ m.args.foldl
          (fun acc2 a => match a with | .str s => acc2 ++ [s] | _ => acc2) []
      else acc) []

/-- Does an autouse fixture apply to a test, per the class matching in
`detect_required_loop_scope_from_fixtures` (`src/execution.rs:1090`) and
`resolve_autouse_fixtures` (`src/execution.rs:1767`)? -/
def autouseApplies (fixtureClass testClass : Option String) : Bool :=
  match fixtureClass, testClass with
  | some fc, some tcl => fc = tcl
  | none, _ => true
  | some _, none => false

/-- Autouse fixtures of the registry applicable to the test, in registry
order. -/
def applicableAutouse (fixtures : List (String × Fixture))
    (testClass : Option String) : List String :=
  fixtures.foldl
    (fun acc p =>
      if p.2.autouse && autouseApplies p.2.class_name testClass then acc ++ [p.1]
      else acc) []

/-- Call shape of the mutually recursive fixture-graph walks: a single name
or a list of names (a fixture's `parameters`). -/
inductive ACall where
  | one (n : String)
  | many (l : List String)

/-- `analyze_fixture_scope` from `src/execution.rs:1108`, with explicit fuel:
walks a fixture and its dependencies, widening `widest` at async /
async-generator fixtures, guarded by a visited set. -/
def analyzeGo (R : List (String × Fixture)) :
    Nat → ACall → Scope × List String → Option (Scope × List String)
  | 0, _, _ => none
  | fuel + 1, .one n, (w, vis) =>
    if vis.contains n then some (w, vis)
    else
      let vis := n :: vis
      match alGet R n with
      | none => some (w, vis)
      | some f =>
        let w := if (f.is_async || f.is_async_generator)
                    && is_scope_wider f.scope w then f.scope else w
        analyzeGo R fuel (.many f.parameters) (w, vis)
  | _ + 1, .many [], acc => some acc
  | fuel + 1, .many (p :: ps), acc =>
    match analyzeGo R fuel (.one p) acc with
    | none => none
    | some acc' => analyzeGo R fuel (.many ps) acc'

/-- Names the fixture-graph walks can ever descend into: registry names and
all declared dependency names. -/
def walkCandidates (R : List (String × Fixture)) : List String :=
  R.map (·.1) ++ (R.map (fun p => p.2.parameters)).flatten

/-- Fuel that provably suffices for the fixture-graph walks (see
`analyzeGo_fuel_sufficient`). -/
def walkFuel (R : List (String × Fixture)) (roots : List String) : Nat :=
  ((walkCandidates R).length + roots.length + 2)
    * ((walkCandidates R).length + roots.length + 2)

/-- The roots seeded by `detect_required_loop_scope_from_fixtures`
(`src/execution.rs:1055`): the test's fixture parameters, then the
`usefixtures` mark names, then applicable autouse fixtures — all walked
against one shared visited set. -/
def detectRoots (fixtures : List (String × Fixture)) (test_params : List String)
    (tc : TestCase) : List String :=
  test_params ++ usefixturesNames tc ++ applicableAutouse fixtures tc.class_name

/-- `detect_required_loop_scope_from_fixtures` from `src/execution.rs:1055`:
the widest scope of any async fixture reachable from the test, defaulting to
function. -/
def detect_required_loop_scope (fixtures : List (String × Fixture))
    (test_params : List String) (tc : TestCase) : Scope :=
  let roots := detectRoots fixtures test_params tc
  match analyzeGo fixtures (walkFuel fixtures roots) (.many roots)
      (.function, []) with
  | some (w, _) => w
  | none => .function

/-- `find_async_fixtures_with_scope` from `src/execution.rs:1226`, with
fuel: collects names of async fixtures having exactly the target scope.
On fuel exhaustion (unreachable for the fuel used) the names found so far
are kept. -/
def findAsyncGo (R : List (String × Fixture)) (target : Scope) :
    Nat → ACall → List String × List String → List String × List String
  | 0, _, acc => acc
  | fuel + 1, .one n, (found, vis) =>
    if vis.contains n then (found, vis)
    else
      let vis := n :: vis
      match alGet R n with
      | none => (found, vis)
      | some f =>
        let found := if (f.is_async || f.is_async_generator)
                        && f.scope = target then found ++ [n] else found
        findAsyncGo R target fuel (.many f.parameters) (found, vis)
  | _ + 1, .many [], acc => acc
  | fuel + 1, .many (p :: ps), acc =>
    findAsyncGo R target fuel (.many ps) (findAsyncGo R target fuel (.one p) acc)

/-- Rust `Vec::join` on strings (`String::intercalate` semantics). -/
def strIntercalate (sep : String) : List String → String
  | [] => ""
  | [x] => x
  | x :: rest => x ++ sep ++ strIntercalate sep rest

/-- The diagnostic built by `validate_loop_scope_compatibility`
(`src/execution.rs:1203`).  Rust's backslash-newline continuations in the
format string strip the next line's leading whitespace, so the numbered
suggestions are unindented. -/
def loopScopeMismatchMsg (test_name explicit_str required_str fixture_list :
    String) : String :=
  "Loop scope mismatch: Test '" ++ test_name ++ "' uses @mark.asyncio(loop_scope=\""
    ++ explicit_str ++ "\") but depends on " ++ required_str
    ++ "-scoped async fixture(s): " ++ fixture_list
    ++ ".\n\nThis will cause 'attached to a different loop' errors because the test creates a new event loop for each "
    ++ explicit_str ++ " while the fixture expects to reuse the " ++ required_str
    ++ " loop.\n\nTo fix this, either:\n1. Remove the explicit loop_scope to let rustest auto-detect it: @mark.asyncio\n2. Use a wider loop_scope: @mark.asyncio(loop_scope=\""
    ++ required_str ++ "\")\n3. Change the fixture scope to match your loop_scope"

/-- `validate_loop_scope_compatibility` from `src/execution.rs:1162`:
`some message` when the explicit loop scope is narrower than what the
fixtures require. -/
def validate_loop_scope_compatibility (tc : TestCase)
    (fixtures : List (String × Fixture)) : Option String :=
  match get_explicit_loop_scope_from_marks tc with
  | none => none
  | some explicit =>
    let required := detect_required_loop_scope fixtures tc.parameters tc
    if is_scope_wider required explicit then
      let problematic :=
        (findAsyncGo fixtures required (walkFuel fixtures tc.parameters)
          (.many tc.parameters) ([], [])).1
      let fixture_list :=
        if problematic.isEmpty then "async fixtures"
        else strIntercalate ", " (problematic.map (fun s => "'" ++ s ++ "'"))
      some (loopScopeMismatchMsg tc.name (scope_to_string explicit)
        (scope_to_string required) fixture_list)
    else none

/-- `determine_test_loop_scope` from `src/execution.rs:1260`: explicit mark
first, else the inferred widest async-fixture scope. -/
def determine_test_loop_scope (tc : TestCase)
    (fixtures : List (String × Fixture)) : Scope :=
  match get_explicit_loop_scope_from_marks tc with
  | some explicit => explicit
  | none => detect_required_loop_scope fixtures tc.parameters tc

/-- `can_async_test_be_gathered` from `src/execution.rs:62`. -/
def can_async_test_be_gathered (fixtures : List (String × Fixture))
    (tc : TestCase) : Bool :=
  let explicitOk :=
    match get_explicit_loop_scope_from_marks tc with
    | some explicit =>
      match explicit with
      | .module | .cls => true
      | _ => false
    | none => true
  if explicitOk then
    let required := detect_required_loop_scope fixtures tc.parameters tc
    match required with
    | .function | .module | .cls => true
    | _ => false
  else false

/-! ## Resolver and execution state -/

/-- A teardown handle: a generator (or async generator) enqueued for later
finalisation, identified by the cache key and invocation id of the fixture
that produced it. -/
structure Handle where
  key : String
  id : Nat
  isAsyncGen : Bool
deriving DecidableEq, Repr

/-- Observable events of a run, recorded in order. -/
inductive Ev where
  /-- A fixture callable was invoked (fixture name, cache key). -/
  | invoke (fixtureName cacheKey : String)
  /-- A new event loop was created for a scope. -/
  | loopNew (sc : Scope) (id : Nat)
  /-- A teardown handle was advanced past its yield. -/
  | td (key : String) (id : Nat)
  /-- A teardown raised; the error was logged as a warning. -/
  | tdWarn (key : String) (id : Nat) (msg : String)
  /-- A teardown layer drain started (`finalize_generators` call site). -/
  | drainMark (sc : Scope)
  /-- An event loop was closed. -/
  | closeLoop (sc : Scope)
  /-- A test result was emitted (unique id, status). -/
  | testDone (uid status : String)
  /-- The suite summary was rendered. -/
  | suiteDone
  /-- The last-failed cache was written with these ids. -/
  | wroteCache (ids : List String)
deriving DecidableEq, Repr

/-- Outcome of advancing a generator teardown once past its yield. -/
inductive TdRes where
  /-- `StopIteration` / `StopAsyncIteration`: normal completion. -/
  | stopIter
  /-- The generator yielded again (no error). -/
  | yielded
  /-- The teardown raised an error with this message. -/
  | raised (msg : String)

/-- Oracle giving each teardown handle's behaviour. -/
def TdEnv : Type := String → Nat → TdRes

/-- The run-wide `FixtureContext` (`src/execution.rs:111`): the four shared
cache layers, teardown layers, package cursor and per-scope event loops. -/
structure Ctx where
  session_cache : List (String × Val) := []
  package_cache : List (String × Val) := []
  module_cache : List (String × Val) := []
  class_cache : List (String × Val) := []
  td_session : List Handle := []
  td_package : List Handle := []
  td_module : List Handle := []
  td_class : List Handle := []
  current_package : Option String := none
  session_loop : Option Nat := none
  package_loop : Option Nat := none
  module_loop : Option Nat := none
  class_loop : Option Nat := none

/-- Global mutable state threaded through the run: the context plus fresh-id
counters and the event trace. -/
structure S where
  ctx : Ctx := {}
  nextId : Nat := 0
  nextLoop : Nat := 0
  trace : List Ev := []

/-- Per-test resolver state (`FixtureResolver`): global state plus the
function-scoped cache, teardowns, cycle stack, current parametrisation value
and function event loop. -/
structure RSt where
  g : S
  function_cache : List (String × Val) := []
  function_teardowns : List Handle := []
  stack : List String := []
  current_param : Option PVal := none
  function_loop : Option Nat := none

/-- Per-test resolver configuration: the registry and the test-derived
fields the resolver reads. -/
structure RCfg where
  fixtures : List (String × Fixture)
  parameters : List (String × PVal)
  fixture_param_indices : List (String × Nat)
  indirect_params : List String
  test_class_name : Option String
  test_loop_scope : Scope

/-- Build the resolver configuration for a test, as `FixtureResolver::new`
is called. -/
def mkRCfg (fixtures : List (String × Fixture)) (tc : TestCase)
    (loopScope : Scope) : RCfg :=
  { fixtures := fixtures
    parameters := tc.parameter_values
    fixture_param_indices := tc.fixture_param_indices
    indirect_params := tc.indirect_params
    test_class_name := tc.class_name
    test_loop_scope := loopScope }

/-- Step 3 of `resolve_argument` (`src/execution.rs:1530`): the cache key
(adding `[idx]` for a parametrised fixture with a selected index) and the
parameter value.  An out-of-bounds index is a Rust `params[param_idx]`
panic, which would abort the whole run through the pyo3 boundary; it is
rendered here as an error value only so the function totalises — the case
is unreachable for the well-formed collections the engine builds, and no
theorem relies on it. -/
def computeCacheKey (cfg : RCfg) (name : String) :
    Except String (String × Option PVal) :=
  match alGet cfg.fixture_param_indices name with
  | some idx =>
    match alGet cfg.fixtures name with
    | some fx =>
      match fx.params with
      | some ps =>
        match ps.get? idx with
        | some p => .ok (name ++ "[" ++ toString idx ++ "]", some p)
        | none => .error ("panic: fixture param index " ++ toString idx
            ++ " out of bounds")
      | none => .ok (name, none)
    | none => .ok (name, none)
  | none => .ok (name, none)

/-- Probe the five cache layers in order
function → class → module → package → session
(`src/execution.rs:1548`). -/
def probeCaches (st : RSt) (key : String) : Option Val :=
  match alGet st.function_cache key with
  | some v => some v
  | none =>
    match alGet st.g.ctx.class_cache key with
    | some v => some v
    | none =>
      match alGet st.g.ctx.module_cache key with
      | some v => some v
      | none =>
        match alGet st.g.ctx.package_cache key with
        | some v => some v
        | none => alGet st.g.ctx.session_cache key

/-- Is this cache key present in any layer (used by the by-name skip checks
of `resolve_autouse_fixtures` and `resolve_usefixtures_marks`)? -/
def cachedAnywhere (st : RSt) (key : String) : Bool :=
  (probeCaches st key).isSome

/-- `validate_scope_dependency`'s error message
(`src/execution.rs:1746`). -/
def scopeMismatchMsg (fx dep : Fixture) : String :=
  "ScopeMismatch: Fixture '" ++ fx.name ++ "' (scope: " ++ scopeDebug fx.scope
    ++ ") cannot depend on '" ++ dep.name ++ "' (scope: " ++ scopeDebug dep.scope
    ++ "). A fixture can only depend on fixtures with equal or broader scope."

/-- `validate_scope_dependency` from `src/execution.rs:1743`: error iff the
fixture's scope is strictly wider than the dependency's. -/
def validate_scope_dependency (fx dep : Fixture) : Except String Unit :=
  if scopeGt fx.scope dep.scope then .error (scopeMismatchMsg fx dep)
  else .ok ()

/-- The per-dependency scope validation loop of `resolve_argument`
(`src/execution.rs:1586`): `request` is skipped, unknown names are skipped. -/
def validateScopes (cfg : RCfg) (fx : Fixture) : Except String Unit :=
  go fx.parameters
where
  go : List String → Except String Unit
    | [] => .ok ()
    | p :: ps =>
      if p = "request" then go ps
      else
        match alGet cfg.fixtures p with
        | some dep =>
          match validate_scope_dependency fx dep with
          | .error e => .error e
          | .ok _ => go ps
        | none => go ps

/-- `get_or_create_event_loop` from `src/execution.rs:1833`: reuse the open
loop of the slot for this scope, else create a fresh loop and store it.
(Closed loops are always removed from their slot by `close_event_loop`, so a
filled slot is open.) -/
def getOrCreateLoop (sc : Scope) (st : RSt) : RSt × Nat :=
  let slot :=
    match sc with
    | .session => st.g.ctx.session_loop
    | .pkg => st.g.ctx.package_loop
    | .module => st.g.ctx.module_loop
    | .cls => st.g.ctx.class_loop
    | .function => st.function_loop
  match slot with
  | some l => (st, l)
  | none =>
    let l := st.g.nextLoop
    let g := { st.g with nextLoop := l + 1, trace := st.g.trace ++ [.loopNew sc l] }
    let st := { st with g := g }
    let st :=
      match sc with
      | .session => { st with g := { st.g with ctx := { st.g.ctx with session_loop := some l } } }
      | .pkg => { st with g := { st.g with ctx := { st.g.ctx with package_loop := some l } } }
      | .module => { st with g := { st.g with ctx := { st.g.ctx with module_loop := some l } } }
      | .cls => { st with g := { st.g with ctx := { st.g.ctx with class_loop := some l } } }
      | .function => { st with function_loop := some l }
    (st, l)

/-- Record a fixture-callable invocation: fresh value id + trace event. -/
def invokeFixture (fxName key : String) (st : RSt) : RSt × Nat :=
  let id := st.g.nextId
  let g := { st.g with nextId := id + 1, trace := st.g.trace ++ [.invoke fxName key] }
  ({ st with g := g }, id)

/-- Push a teardown handle onto the list for the fixture's scope
(`src/execution.rs:1627` / `:1658`). -/
def pushTeardown (sc : Scope) (h : Handle) (st : RSt) : RSt :=
  match sc with
  | .session => { st with g := { st.g with ctx := { st.g.ctx with td_session := st.g.ctx.td_session ++ [h] } } }
  | .pkg => { st with g := { st.g with ctx := { st.g.ctx with td_package := st.g.ctx.td_package ++ [h] } } }
  | .module => { st with g := { st.g with ctx := { st.g.ctx with td_module := st.g.ctx.td_module ++ [h] } } }
  | .cls => { st with g := { st.g with ctx := { st.g.ctx with td_class := st.g.ctx.td_class ++ [h] } } }
  | .function => { st with function_teardowns := st.function_teardowns ++ [h] }

/-- Store a freshly constructed value in the cache layer matching the
fixture's scope (`src/execution.rs:1710`). -/
def storeCache (sc : Scope) (key : String) (v : Val) (st : RSt) : RSt :=
  match sc with
  | .session => { st with g := { st.g with ctx := { st.g.ctx with session_cache := alInsert st.g.ctx.session_cache key v } } }
  | .pkg => { st with g := { st.g with ctx := { st.g.ctx with package_cache := alInsert st.g.ctx.package_cache key v } } }
  | .module => { st with g := { st.g with ctx := { st.g.ctx with module_cache := alInsert st.g.ctx.module_cache key v } } }
  | .cls => { st with g := { st.g with ctx := { st.g.ctx with class_cache := alInsert st.g.ctx.class_cache key v } } }
  | .function => { st with function_cache := alInsert st.function_cache key v }

/-- Execute a fixture callable and dispatch on flavour
(`src/execution.rs:1604`-`1701`): async generators and generators enqueue a
teardown handle (only after a successful first advance); async flavours
acquire the event loop of the test's loop scope before running the body.
Running the body can raise (`raisesOn`, the `?` operators of the source):
the error propagates, nothing is enqueued and nothing will be cached. -/
def executeFixture (cfg : RCfg) (fx : Fixture) (key : String) (st : RSt) :
    RSt × Except String Val :=
  let id := st.g.nextId
  let st1 := (invokeFixture fx.name key st).1
  if fx.is_async_generator then
    let st2 := (getOrCreateLoop cfg.test_loop_scope st1).1
    match fx.raisesOn id with
    | some e => (st2, .error e)
    | none =>
      let st3 := pushTeardown fx.scope { key := key, id := id, isAsyncGen := true } st2
      (st3, .ok (.fx key id))
  else if fx.is_generator then
    match fx.raisesOn id with
    | some e => (st1, .error e)
    | none =>
      let st2 := pushTeardown fx.scope { key := key, id := id, isAsyncGen := false } st1
      (st2, .ok (.fx key id))
  else if fx.is_async then
    let st2 := (getOrCreateLoop cfg.test_loop_scope st1).1
    match fx.raisesOn id with
    | some e => (st2, .error e)
    | none => (st2, .ok (.fx key id))
  else
    match fx.raisesOn id with
    | some e => (st1, .error e)
    | none => (st1, .ok (.fx key id))

/-- Call shape of the mutually recursive resolution: one argument name, or a
fixture's list of dependency names. -/
inductive RCall where
  | one (n : String)
  | many (l : List String)

/-- Result of a resolution call. -/
inductive RRes where
  | val (v : Val)
  | vals (vs : List Val)

/-- `FixtureResolver::resolve_argument` from `src/execution.rs:1510`
(together with its dependency loop), as one structurally recursive function
on fuel.  Mutations performed before an error persist, as they do through
`&mut self` in the source. -/
def resolveGo (cfg : RCfg) : Nat → RCall → RSt → RSt × Except String RRes
  | 0, _, st => (st, .error "resolver fuel exhausted")
  | fuel + 1, .one name, st =>
    -- 1. parametrised value (indirect values re-resolve as fixture names)
    match alGet cfg.parameters name with
    | some v =>
      if cfg.indirect_params.contains name then
        match v with
        | .str fxName =>
          match resolveGo cfg fuel (.one fxName) st with
          | (st, .ok r) => (st, .ok r)
          | (st, .error e) => (st, .error e)
        | _ => (st, .error "TypeError: indirect parameter value is not a string")
      else (st, .ok (.val (.lit v)))
    | none =>
    -- 2. the `request` pseudo-fixture: fresh, never cached
    if name = "request" then (st, .ok (.val (.request st.current_param)))
    else
      -- 3. cache key (+ param value) for parametrised fixtures
      match computeCacheKey cfg name with
      | .error e => (st, .error e)
      | .ok (key, paramVal) =>
        -- 4. probe the five layers
        match probeCaches st key with
        | some v => (st, .ok (.val v))
        | none =>
          -- 5. look up the fixture definition
          match alGet cfg.fixtures name with
          | none => (st, .error ("Unknown fixture '" ++ name ++ "'."))
          | some fx =>
            let prev := st.current_param
            let st := { st with current_param := paramVal }
            -- 6. cycle guard
            if st.stack.contains fx.name then
              (st, .error ("Detected recursive fixture dependency involving '"
                ++ fx.name ++ "'."))
            else
              let st := { st with stack := fx.name :: st.stack }
              -- 7. scope validation of every dependency edge
              match validateScopes cfg fx with
              | .error e => (st, .error e)
              | .ok _ =>
                -- 8. resolve dependencies recursively
                match resolveGo cfg fuel (.many fx.parameters) st with
                | (st, .error e) => (st, .error e)
                | (st, .ok _) =>
                  -- 9. invoke the callable (flavour dispatch); a raising
                  -- body propagates without popping, restoring or caching
                  match executeFixture cfg fx key st with
                  | (st, .error e) => (st, .error e)
                  | (st, .ok v) =>
                    -- 10. pop the stack, restore param, store in cache
                    let st := { st with stack := st.stack.erase fx.name }
                    let st := { st with current_param := prev }
                    let st := storeCache fx.scope key v st
                    (st, .ok (.val v))
  | _ + 1, .many [], st => (st, .ok (.vals []))
  | fuel + 1, .many (p :: ps), st =>
    match resolveGo cfg fuel (.one p) st with
    | (st, .error e) => (st, .error e)
    | (st, .ok r) =>
      match resolveGo cfg fuel (.many ps) st with
      | (st, .error e) => (st, .error e)
      | (st, .ok r') =>
        match r, r' with
        | .val v, .vals vs => (st, .ok (.vals (v :: vs)))
        | _, _ => (st, .error "internal: resolver result shape")

/-- Fuel used by one test's resolution. -/
def resolverFuel (cfg : RCfg) : Nat :=
  ((walkCandidates cfg.fixtures).length + cfg.parameters.length + 2)
    * ((walkCandidates cfg.fixtures).length + cfg.parameters.length + 2) + 2

/-- `resolve_argument` entry point for a single name. -/
def resolveArgument (cfg : RCfg) (fuel : Nat) (name : String) (st : RSt) :
    RSt × Except String Val :=
  match resolveGo cfg fuel (.one name) st with
  | (st, .ok (.val v)) => (st, .ok v)
  | (st, .ok (.vals _)) => (st, .error "internal: resolver result shape")
  | (st, .error e) => (st, .error e)

/-- `FixtureResolver::resolve_autouse_fixtures`
(`src/execution.rs:1757`): each applicable autouse fixture, skipped
if its plain name is already cached in any layer. -/
def resolveAutouse (cfg : RCfg) (fuel : Nat) (st : RSt) :
    RSt × Except String Unit :=
  go (applicableAutouse cfg.fixtures cfg.test_class_name) st
where
  go : List String → RSt → RSt × Except String Unit
    | [], st => (st, .ok ())
    | n :: ns, st =>
      if cachedAnywhere st n then go ns st
      else
        match resolveArgument cfg fuel n st with
        | (st, .ok _) => go ns st
        | (st, .error e) => (st, .error e)

/-- `FixtureResolver::resolve_usefixtures_marks`
(`src/execution.rs:1797`): resolve each string argument of every
`usefixtures` mark, skipped if its plain name is already cached. -/
def resolveUsefixtures (cfg : RCfg) (fuel : Nat) (marks : List Mark)
    (st : RSt) : RSt × Except String Unit :=
  go (usefixturesOf marks) st
where
  /-- String positional args of all `usefixtures` marks, in order. -/
  usefixturesOf (marks : List Mark) : List String :=
    marks.foldl
      (fun acc m =>
        if m.name = "usefixtures" then
          acc ++ m.args.foldl
            (fun acc2 a => match a with | .str s => acc2 ++ [s] | _ => acc2) []
        else acc) []
  go : List String → RSt → RSt × Except String Unit
    | [], st => (st, .ok ())
    | n :: ns, st =>
      if cachedAnywhere st n then go ns st
      else
        match resolveArgument cfg fuel n st with
        | (st, .ok _) => go ns st
        | (st, .error e) => (st, .error e)

/-! ## Teardown finalisation (`finalize_generators`, `src/execution.rs:2081`) -/

/-- The events produced by advancing one teardown handle: it is always
executed; a non-`StopIteration` error is additionally logged as a warning
and never stops the drain. -/
def runTeardown (env : TdEnv) (h : Handle) : List Ev :=
  match env h.key h.id with
  | .stopIter => [.td h.key h.id]
  | .yielded => [.td h.key h.id]
  | .raised msg => [.td h.key h.id, .tdWarn h.key h.id msg]

/-- `finalize_generators`: process the handles in reverse (LIFO) order,
each exactly once; errors are logged and do not abort the remaining
teardowns.  The caller's list is drained (emptied). -/
def finalize_generators (env : TdEnv) (gens : List Handle) : List Ev :=
  go gens.reverse
where
  go : List Handle → List Ev
    | [] => []
    | h :: t => runTeardown env h ++ go t

/-- The handles a `finalize_generators` event list says were advanced, in
execution order. -/
def executedHandles : List Ev → List (String × Nat)
  | [] => []
  | .td k i :: t => (k, i) :: executedHandles t
  | _ :: t => executedHandles t

/-! ## Test execution (`execute_test_case` / `run_single_test`) -/

/-- Success payload of a test call (`TestCallSuccess`). -/
structure TestCallSuccess where
  stdout : Option String
  stderr : Option String
deriving DecidableEq, Repr

/-- Failure payload of a test call (`TestCallFailure`). -/
structure TestCallFailure where
  message : String
  stdout : Option String
  stderr : Option String
deriving DecidableEq, Repr

/-- Run configuration fields the engine reads. -/
structure RunConfiguration where
  fail_fast : Bool := false
  capture_output : Bool := true

/-- `call_with_capture`'s treatment of a captured stream: empty becomes
`None`. -/
def captureStream (capture : Bool) (s : String) : Option String :=
  if capture then (if s = "" then none else some s) else none

/-- Drain the resolver's function-scope teardowns and close the
function-scope event loop (end of `execute_test_case`,
`src/execution.rs:1388`-`1410`). -/
def drainFunctionScope (env : TdEnv) (st : RSt) : RSt :=
  let evs := finalize_generators env st.function_teardowns
  let g := { st.g with trace := st.g.trace ++ [Ev.drainMark .function] ++ evs }
  let st := { st with g := g, function_teardowns := [] }
  match st.function_loop with
  | some _ =>
    let g := { st.g with trace := st.g.trace ++ [Ev.closeLoop .function] }
    { st with function_loop := none, g := g }
  | none => st

/-- `execute_test_case` from `src/execution.rs:1275`: loop-scope validation,
resolver construction, autouse / usefixtures / parameter resolution, the
captured call (awaiting a coroutine on the scoped loop), then function-scope
teardown. -/
def execute_test_case (env : TdEnv) (module : TestModule) (tc : TestCase)
    (config : RunConfiguration) (s : S) :
    S × Except TestCallFailure TestCallSuccess :=
  -- validate loop-scope compatibility before anything else
  match validate_loop_scope_compatibility tc module.fixtures with
  | some msg => (s, .error { message := msg, stdout := none, stderr := none })
  | none =>
    let loopScope := determine_test_loop_scope tc module.fixtures
    let cfg := mkRCfg module.fixtures tc loopScope
    let fuel := resolverFuel cfg
    let st : RSt := { g := s }
    -- autouse fixtures (errors return without draining function teardowns)
    match resolveAutouse cfg fuel st with
    | (st, .error e) =>
      (st.g, .error { message := e, stdout := none, stderr := none })
    | (st, .ok _) =>
      match resolveUsefixtures cfg fuel tc.marks st with
      | (st, .error e) =>
        (st.g, .error { message := e, stdout := none, stderr := none })
      | (st, .ok _) =>
        match resolveGo cfg fuel (.many tc.parameters) st with
        | (st, .error e) =>
          (st.g, .error { message := e, stdout := none, stderr := none })
        | (st, .ok r) =>
          let args := match r with | .vals vs => vs | .val v => [v]
          -- the captured call; async tests run on the scoped event loop
          let st := if tc.is_async_fn then (getOrCreateLoop cfg.test_loop_scope st).1 else st
          let run := tc.body args
          let stdout := captureStream config.capture_output run.out
          let stderr := captureStream config.capture_output run.errOut
          -- drain function-scope teardowns, close the function loop
          let st := drainFunctionScope env st
          match run.raises with
          | none => (st.g, .ok { stdout := stdout, stderr := stderr })
          | some msg =>
            (st.g, .error { message := msg, stdout := stdout, stderr := stderr })

/-- A test result record (`PyTestResult`).
Modelled from the spec: `model.rs` is not under `src/`; §6 of the spec gives
`{ unique_id, status ∈ {passed,failed,skipped}, duration_seconds, stdout?,
stderr?, message?, marks[] }`. -/
structure PyTestResult where
  name : String
  path : String
  status : String
  duration : Rat
  message : Option String := none
  stdout : Option String := none
  stderr : Option String := none
  marks : List String := []
deriving DecidableEq, Repr

/-- Modelled from the spec: the collector hands the engine relative paths;
`to_relative_path` (in the absent `model.rs`) is the identity on them. -/
def to_relative_path (p : String) : String := p

/-- Modelled from the spec: `unique_id` = `"<relative-path>::<display_name>"`. -/
def uniqueId (r : PyTestResult) : String :=
  r.path ++ "::" ++ r.name

/-- `PyTestResult::passed`.  Modelled from the spec (`model.rs` absent). -/
def PyTestResult.passed (name path : String) (duration : Rat)
    (stdout stderr : Option String) (marks : List String) : PyTestResult :=
  { name := name, path := path, status := "passed", duration := duration,
    stdout := stdout, stderr := stderr, marks := marks }

/-- `PyTestResult::failed`.  Modelled from the spec (`model.rs` absent). -/
def PyTestResult.failed (name path : String) (duration : Rat) (message : String)
    (stdout stderr : Option String) (marks : List String) : PyTestResult :=
  { name := name, path := path, status := "failed", duration := duration,
    message := some message, stdout := stdout, stderr := stderr, marks := marks }

/-- `PyTestResult::skipped`.  Modelled from the spec (`model.rs` absent):
carries the reason, no captured output. -/
def PyTestResult.skipped (name path : String) (duration : Rat) (reason : String)
    (marks : List String) : PyTestResult :=
  { name := name, path := path, status := "skipped", duration := duration,
    message := some reason, marks := marks }

/-- `run_single_test` from `src/execution.rs:586`: honour `skip_reason`,
execute, then classify the outcome (skip-signal exceptions become skipped
results). -/
def run_single_test (env : TdEnv) (dur : String → Rat) (module : TestModule)
    (tc : TestCase) (config : RunConfiguration) (s : S) : S × PyTestResult :=
  match tc.skip_reason with
  | some reason =>
    (s, PyTestResult.skipped tc.display_name (to_relative_path tc.path) 0 reason
      (mark_names tc))
  | none =>
    let d := dur tc.display_name
    match execute_test_case env module tc config s with
    | (s, .ok success) =>
      (s, PyTestResult.passed tc.display_name (to_relative_path tc.path) d
        success.stdout success.stderr (mark_names tc))
    | (s, .error failure) =>
      if is_skip_exception failure.message then
        (s, PyTestResult.skipped tc.display_name (to_relative_path tc.path) d
          (extract_skip_reason failure.message) (mark_names tc))
      else
        (s, PyTestResult.failed tc.display_name (to_relative_path tc.path) d
          failure.message failure.stdout failure.stderr (mark_names tc))

/-! ## Gathered async execution (`run_async_tests_gathered`,
`src/execution.rs:654`) -/

/-- A prepared gathered test: its coroutine (arguments + callable) and the
function-scope teardowns its fixture resolution enqueued. -/
structure Prepared where
  tc : TestCase
  args : List Val
  ftds : List Handle

/-- Outcome of preparing one gathered test. -/
inductive PrepOut where
  /-- Skipped via `skip_reason` before preparation. -/
  | skip (r : PyTestResult)
  /-- Failed during validation or fixture resolution. -/
  | errR (r : PyTestResult)
  /-- Prepared: coroutine obtained, function teardowns collected. -/
  | prep (p : Prepared)

/-- Prepare one gathered test: the skip-reason short-circuit, loop-scope
validation, fixture resolution against the shared context with a test-loop
scope of module, and obtaining the coroutine. -/
def prepOne (module : TestModule) (tc : TestCase) (s : S) : S × PrepOut :=
  match tc.skip_reason with
  | some reason =>
    (s, .skip (PyTestResult.skipped tc.display_name (to_relative_path tc.path) 0
      reason (mark_names tc)))
  | none =>
    match validate_loop_scope_compatibility tc module.fixtures with
    | some msg =>
      (s, .errR (PyTestResult.failed tc.display_name (to_relative_path tc.path) 0
        msg none none (mark_names tc)))
    | none =>
      -- all gathered tests share the module-scope loop
      let cfg := mkRCfg module.fixtures tc .module
      let fuel := resolverFuel cfg
      let st : RSt := { g := s }
      match resolveAutouse cfg fuel st with
      | (st, .error e) =>
        (st.g, .errR (PyTestResult.failed tc.display_name (to_relative_path tc.path)
          0 e none none (mark_names tc)))
      | (st, .ok _) =>
        match resolveUsefixtures cfg fuel tc.marks st with
        | (st, .error e) =>
          (st.g, .errR (PyTestResult.failed tc.display_name (to_relative_path tc.path)
            0 e none none (mark_names tc)))
        | (st, .ok _) =>
          match resolveGo cfg fuel (.many tc.parameters) st with
          | (st, .error e) =>
            (st.g, .errR (PyTestResult.failed tc.display_name
              (to_relative_path tc.path) 0 e none none (mark_names tc)))
          | (st, .ok res) =>
            let args := match res with | .vals vs => vs | .val v => [v]
            (st.g, .prep { tc := tc, args := args, ftds := st.function_teardowns })

/-- The preparation loop of `run_async_tests_gathered`: returns the updated
state and, in order, skip results, error results and prepared tests. -/
def prepGathered (module : TestModule) (config : RunConfiguration) :
    List TestCase → S →
    S × List (TestCase × PyTestResult) × List (TestCase × PyTestResult)
      × List Prepared
  | [], s => (s, [], [], [])
  | tc :: rest, s =>
    match prepOne module tc s with
    | (s, .skip r) =>
      match prepGathered module config rest s with
      | (s, sk, er, pr) => (s, (tc, r) :: sk, er, pr)
    | (s, .errR r) =>
      match prepGathered module config rest s with
      | (s, sk, er, pr) => (s, sk, (tc, r) :: er, pr)
    | (s, .prep p) =>
      match prepGathered module config rest s with
      | (s, sk, er, pr) => (s, sk, er, p :: pr)

/-- Concatenate strings (the aggregate capture buffer of a batch). -/
def strJoin : List String → String
  | [] => ""
  | x :: rest => x ++ strJoin rest

/-- Map the gathered outcomes back to results (`src/execution.rs:891`):
every prepared test gets the shared per-test duration; passed and failed
results carry the shared aggregate capture buffers; each test's
function-scope teardowns are finalised on the gather loop. -/
def gatherResults (env : TdEnv) (stdout stderr : Option String) (per : Rat) :
    List (Prepared × BodyRun) → S → S × List (TestCase × PyTestResult)
  | [], s => (s, [])
  | (p, run) :: rest, s =>
    let r :=
      match run.raises with
      | some msg =>
        if is_skip_exception msg then
          PyTestResult.skipped p.tc.display_name (to_relative_path p.tc.path) per
            (extract_skip_reason msg) (mark_names p.tc)
        else
          PyTestResult.failed p.tc.display_name (to_relative_path p.tc.path) per
            msg stdout stderr (mark_names p.tc)
      | none =>
        PyTestResult.passed p.tc.display_name (to_relative_path p.tc.path) per
          stdout stderr (mark_names p.tc)
    let evs := finalize_generators env p.ftds
    let s := { s with trace := s.trace ++ [Ev.drainMark .function] ++ evs }
    let (s, rs) := gatherResults env stdout stderr per rest s
    (s, (p.tc, r) :: rs)

/-- The fresh event loop created for a whole gather operation, stored as the
module loop (`src/execution.rs:675`-`681`). -/
def freshGatherLoop (s : S) : S :=
  let l := s.nextLoop
  let s := { s with nextLoop := l + 1, trace := s.trace ++ [Ev.loopNew .module l] }
  { s with ctx := { s.ctx with module_loop := some l } }

/-- `run_async_tests_gathered` from `src/execution.rs:654`: create one fresh
event loop for the whole batch (stored as the module loop), prepare every
test, run all coroutines under one capture, and map outcomes back.
`elapsed` is the wall time of the whole operation (external). -/
def run_async_tests_gathered (env : TdEnv) (elapsed : Rat)
    (module : TestModule) (tests : List TestCase) (config : RunConfiguration)
    (s : S) : S × List (TestCase × PyTestResult) :=
  match tests with
  | [] => (s, [])
  | _ :: _ =>
    match prepGathered module config tests (freshGatherLoop s) with
    | (s, skips, errors, prepared) =>
      let runs := prepared.map (fun p => p.tc.body p.args)
      let stdout := captureStream config.capture_output
        (strJoin (runs.map (·.out)))
      let stderr := captureStream config.capture_output
        (strJoin (runs.map (·.errOut)))
      let per : Rat := elapsed / (prepared.length : Rat)
      match gatherResults env stdout stderr per (prepared.zip runs) s with
      | (s, executed) => (s, skips ++ errors ++ executed)

/-! ## Run orchestration (`run_collected_tests`, `src/execution.rs:145`) -/

/-- Join character-list segments with a separator character. -/
def joinWithChar (sep : Char) : List (List Char) → List Char
  | [] => []
  | [l] => l
  | l :: rest => l ++ sep :: joinWithChar sep rest

/-- `extract_package_name` from `src/execution.rs:2070`: the parent
directory of the path (empty for a root-level file). -/
def extract_package_name (path : String) : String :=
  let parts := splitOnChar '/' path.toList []
  if parts.length ≤ 1 then "" else String.mk (joinWithChar '/' parts.dropLast)

/-- Running aggregate of the orchestrator: emitted results and counters. -/
structure Agg where
  results : List PyTestResult := []
  passed : Nat := 0
  failed : Nat := 0
  skipped : Nat := 0

/-- The run report (`PyRunReport`): totals, wall time, ordered results and
collection errors. -/
structure PyRunReport where
  total : Nat
  passed : Nat
  failed : Nat
  skipped : Nat
  duration : Rat
  results : List PyTestResult
  collection_errors : List (String × String)
deriving DecidableEq, Repr

/-- The failed unique ids of a result list, first occurrence only
(`write_failed_tests_cache` collects them into a `HashSet`,
`src/execution.rs:2135`). -/
def failedIds (rs : List PyTestResult) : List String :=
  rs.foldl
    (fun acc r =>
      if r.status = "failed" then
        if acc.contains (uniqueId r) then acc else acc ++ [uniqueId r]
      else acc) []

/-- The `process_result` closure (`src/execution.rs:244`): update counters
(unknown statuses count as failures), emit the result event, append the
result. -/
def processResult (r : PyTestResult) (s : S) (agg : Agg) : S × Agg :=
  let agg :=
    if r.status = "passed" then { agg with passed := agg.passed + 1 }
    else if r.status = "failed" then { agg with failed := agg.failed + 1 }
    else if r.status = "skipped" then { agg with skipped := agg.skipped + 1 }
    else { agg with failed := agg.failed + 1 }
  let s := { s with trace := s.trace ++ [Ev.testDone (uniqueId r) r.status] }
  (s, { agg with results := agg.results ++ [r] })

/-- Drain a shared teardown layer: run `finalize_generators` on it and empty
it. -/
def drainScopeS (env : TdEnv) (sc : Scope) (s : S) : S :=
  let gens :=
    match sc with
    | .session => s.ctx.td_session
    | .pkg => s.ctx.td_package
    | .module => s.ctx.td_module
    | .cls => s.ctx.td_class
    | .function => []
  let evs := finalize_generators env gens
  let s := { s with trace := s.trace ++ [Ev.drainMark sc] ++ evs }
  match sc with
  | .session => { s with ctx := { s.ctx with td_session := [] } }
  | .pkg => { s with ctx := { s.ctx with td_package := [] } }
  | .module => { s with ctx := { s.ctx with td_module := [] } }
  | .cls => { s with ctx := { s.ctx with td_class := [] } }
  | .function => s

/-- `close_event_loop` on a shared scope slot: a present loop is closed and
the slot emptied; an empty slot does nothing. -/
def closeLoopS (sc : Scope) (s : S) : S :=
  let slot :=
    match sc with
    | .session => s.ctx.session_loop
    | .pkg => s.ctx.package_loop
    | .module => s.ctx.module_loop
    | .cls => s.ctx.class_loop
    | .function => none
  match slot with
  | none => s
  | some _ =>
    let s := { s with trace := s.trace ++ [Ev.closeLoop sc] }
    match sc with
    | .session => { s with ctx := { s.ctx with session_loop := none } }
    | .pkg => { s with ctx := { s.ctx with package_loop := none } }
    | .module => { s with ctx := { s.ctx with module_loop := none } }
    | .cls => { s with ctx := { s.ctx with class_loop := none } }
    | .function => s

/-- The fail-fast exit block (identical in the three branches of
`run_collected_tests`, e.g. `src/execution.rs:444`-`499`): drain class,
module, package and session teardown layers (closing each loop), render the
partial summary, build the report from the results so far, and persist the
failed ids. -/
def failFastCleanup (env : TdEnv) (collErrs : List (String × String))
    (runElapsed : Rat) (s : S) (agg : Agg) : S × PyRunReport :=
  let s := closeLoopS .cls (drainScopeS env .cls s)
  let s := closeLoopS .module (drainScopeS env .module s)
  let s := closeLoopS .pkg (drainScopeS env .pkg s)
  let s := closeLoopS .session (drainScopeS env .session s)
  let s := { s with trace := s.trace ++ [Ev.suiteDone] }
  let report : PyRunReport :=
    { total := agg.passed + agg.failed + agg.skipped, passed := agg.passed,
      failed := agg.failed, skipped := agg.skipped, duration := runElapsed,
      results := agg.results, collection_errors := collErrs }
  let s := { s with trace := s.trace ++ [Ev.wroteCache (failedIds report.results)] }
  (s, report)

/-- Run a list of tests sequentially through `run_single_test`, with the
fail-fast check after each; for the sync loop (`clearUnclassed = true`), a
plain function test additionally clears the class cache and drains class
teardowns afterwards (`src/execution.rs:501`-`510`).  `Sum.inr` is the early
fail-fast return. -/
def runTestList (clearUnclassed : Bool) (env : TdEnv) (dur : String → Rat)
    (module : TestModule) (config : RunConfiguration)
    (collErrs : List (String × String)) (runElapsed : Rat) :
    List TestCase → S → Agg → (S × Agg) ⊕ (S × PyRunReport)
  | [], s, agg => .inl (s, agg)
  | tc :: rest, s, agg =>
    let (s, r) := run_single_test env dur module tc config s
    let isFailed := r.status = "failed"
    let (s, agg) := processResult r s agg
    if config.fail_fast ∧ isFailed then
      .inr (failFastCleanup env collErrs runElapsed s agg)
    else
      let s :=
        if clearUnclassed ∧ tc.class_name = none then
          drainScopeS env .cls { s with ctx := { s.ctx with class_cache := [] } }
        else s
      runTestList clearUnclassed env dur module config collErrs runElapsed rest s agg

/-- Process the results of a gathered batch in order, with the fail-fast
check after each (`src/execution.rs:286`-`353`). -/
def processGathered (env : TdEnv) (collErrs : List (String × String))
    (runElapsed : Rat) (config : RunConfiguration) :
    List (TestCase × PyTestResult) → S → Agg → (S × Agg) ⊕ (S × PyRunReport)
  | [], s, agg => .inl (s, agg)
  | (_, r) :: rest, s, agg =>
    let isFailed := r.status = "failed"
    let (s, agg) := processResult r s agg
    if config.fail_fast ∧ isFailed then
      .inr (failFastCleanup env collErrs runElapsed s agg)
    else processGathered env collErrs runElapsed config rest s agg

/-- The partition of a class group (`src/execution.rs:226`-`241`):
gatherable async, sequential async, sync, preserving order. -/
def partitionTests (fixtures : List (String × Fixture))
    (tests : List TestCase) : List TestCase × List TestCase × List TestCase :=
  tests.foldl
    (fun acc t =>
      if t.is_async_fn then
        if can_async_test_be_gathered fixtures t then
          (acc.1 ++ [t], acc.2.1, acc.2.2)
        else (acc.1, acc.2.1 ++ [t], acc.2.2)
      else (acc.1, acc.2.1, acc.2.2 ++ [t]))
    ([], [], [])

/-- Group tests by `class_name`, preserving discovery order of classes and
of tests within a class (the `IndexMap` grouping of
`src/execution.rs:213`-`219`). -/
def groupByClass (tests : List TestCase) : List (Option String × List TestCase) :=
  tests.foldl (fun acc t => addTo acc t) []
where
  addTo : List (Option String × List TestCase) → TestCase →
      List (Option String × List TestCase)
    | [], t => [(t.class_name, [t])]
    | (k, ts) :: rest, t =>
      if k = t.class_name then (k, ts ++ [t]) :: rest
      else (k, ts) :: addTo rest t

/-- Stage 1 of a class group: run the gathered batch (if any) and process
its results. -/
def gatherStage (env : TdEnv) (gelapsed : Rat) (module : TestModule)
    (config : RunConfiguration) (collErrs : List (String × String))
    (runElapsed : Rat) (gatherable : List TestCase) (s : S) (agg : Agg) :
    (S × Agg) ⊕ (S × PyRunReport) :=
  match gatherable with
  | [] => .inl (s, agg)
  | _ :: _ =>
    match run_async_tests_gathered env gelapsed module gatherable config s with
    | (s, gres) => processGathered env collErrs runElapsed config gres s agg

/-- Stages 2-4 of a class group: sequential async tests, sync tests, then
the class teardown drain and class-loop close. -/
def afterGatherStage (env : TdEnv) (dur : String → Rat) (module : TestModule)
    (config : RunConfiguration) (collErrs : List (String × String))
    (runElapsed : Rat) (seqAsync syncTests : List TestCase)
    (step1 : (S × Agg) ⊕ (S × PyRunReport)) : (S × Agg) ⊕ (S × PyRunReport) :=
  match step1 with
  | .inr done => .inr done
  | .inl (s, agg) =>
    match runTestList false env dur module config collErrs runElapsed seqAsync s agg with
    | .inr done => .inr done
    | .inl (s, agg) =>
      match runTestList true env dur module config collErrs runElapsed syncTests s agg with
      | .inr done => .inr done
      | .inl (s, agg) => .inl (closeLoopS .cls (drainScopeS env .cls s), agg)

/-- Run one class group (`src/execution.rs:221`-`520`): reset the class
cache, partition, run the gathered batch then sequential async then sync
tests, and finally drain class teardowns and close the class loop. -/
def runClassGroup (env : TdEnv) (dur : String → Rat) (gelapsed : Rat)
    (module : TestModule) (config : RunConfiguration)
    (collErrs : List (String × String)) (runElapsed : Rat)
    (tests : List TestCase) (s : S) (agg : Agg) :
    (S × Agg) ⊕ (S × PyRunReport) :=
  let s := { s with ctx := { s.ctx with class_cache := [] } }
  match partitionTests module.fixtures tests with
  | (gatherable, seqAsync, syncTests) =>
    afterGatherStage env dur module config collErrs runElapsed seqAsync syncTests
      (gatherStage env gelapsed module config collErrs runElapsed gatherable s agg)

/-- Run one module (`src/execution.rs:184`-`537`): package-boundary
handling, module cache reset and module-loop close, per-class-group
execution, then the module teardown drain. -/
def runModule (env : TdEnv) (dur : String → Rat) (gelapsed : Rat)
    (config : RunConfiguration) (collErrs : List (String × String))
    (runElapsed : Rat) (module : TestModule) (s : S) (agg : Agg) :
    (S × Agg) ⊕ (S × PyRunReport) :=
  let pkg := extract_package_name module.path
  let s :=
    if s.ctx.current_package = some pkg then s
    else
      let s := drainScopeS env .pkg s
      let s := { s with ctx := { s.ctx with package_cache := [] } }
      let s := closeLoopS .pkg s
      { s with ctx := { s.ctx with current_package := some pkg } }
  let s := { s with ctx := { s.ctx with module_cache := [] } }
  let s := closeLoopS .module s
  match goGroups (groupByClass module.tests) s agg with
  | .inr done => .inr done
  | .inl (s, agg) => .inl (drainScopeS env .module s, agg)
where
  goGroups : List (Option String × List TestCase) → S → Agg →
      (S × Agg) ⊕ (S × PyRunReport)
    | [], s, agg => .inl (s, agg)
    | (_, tests) :: rest, s, agg =>
      match runClassGroup env dur gelapsed module config collErrs runElapsed
          tests s agg with
      | .inr done => .inr done
      | .inl (s, agg) => goGroups rest s agg

/-- `run_collected_tests` from `src/execution.rs:145`: iterate the modules,
then drain the package and session layers, render the summary, build the
report and persist the failed ids.  A fail-fast exit returns the partial
report built by `failFastCleanup`. -/
def run_collected_tests (env : TdEnv) (dur : String → Rat) (gelapsed : Rat)
    (modules : List TestModule) (collErrs : List (String × String))
    (config : RunConfiguration) (runElapsed : Rat) : S × PyRunReport :=
  match goModules modules {} {} with
  | .inr done => done
  | .inl (s, agg) =>
    let s := closeLoopS .pkg (drainScopeS env .pkg s)
    let s := closeLoopS .session (drainScopeS env .session s)
    let s := { s with trace := s.trace ++ [Ev.suiteDone] }
    let report : PyRunReport :=
      { total := agg.passed + agg.failed + agg.skipped, passed := agg.passed,
        failed := agg.failed, skipped := agg.skipped, duration := runElapsed,
        results := agg.results, collection_errors := collErrs }
    let s := { s with trace := s.trace ++ [Ev.wroteCache (failedIds report.results)] }
    (s, report)
where
  goModules : List TestModule → S → Agg → (S × Agg) ⊕ (S × PyRunReport)
    | [], s, agg => .inl (s, agg)
    | m :: rest, s, agg =>
      match runModule env dur gelapsed config collErrs runElapsed m s agg with
      | .inr done => .inr done
      | .inl (s, agg) => goModules rest s agg

/-! ## The last-failed cache (`src/cache.rs:198`-`266`)

The serde layer is modelled at the level of the JSON document it produces and
parses: `LastFailedCache { failed: HashSet<String> }` serialises to an object
with a `"failed"` array; deserialising a `HashSet` collects the array
elements, collapsing duplicates. -/

/-- A JSON document (the fragment these caches use). -/
inductive Json where
  | str (s : String)
  | arr (l : List Json)
  | obj (fields : List (String × Json))
deriving Repr

/-- `write_last_failed`: the document serialised for a failed set (the set is
modelled as a duplicate-free list in iteration order). -/
def write_last_failed (failed : List String) : Json :=
  .obj [("failed", .arr (failed.map .str))]

/-- Insert into a `HashSet`-modelling list: no duplicates. -/
def hsInsert (acc : List String) (x : String) : List String :=
  if acc.contains x then acc else acc ++ [x]

/-- `read_last_failed`: parse the document back into the failed set;
`none` models a parse error. -/
def read_last_failed (j : Json) : Option (List String) :=
  match j with
  | .obj fields =>
    match alGet fields "failed" with
    | some (.arr items) => collect items []
    | _ => none
  | _ => none
where
  collect : List Json → List String → Option (List String)
    | [], acc => some acc
    | .str s :: rest, acc => collect rest (hsInsert acc s)
    | _ :: _, _ => none

/-! ## Helper lemmas -/

theorem hasInfix_of_isPrefixOf {n h : List Char} (hp : n.isPrefixOf h = true) :
    hasInfix n h = true := by
  cases h with
  | nil =>
    cases n with
    | nil => rfl
    | cons c t => simp [List.isPrefixOf] at hp
  | cons c t => simp [hasInfix, hp]

theorem hasInfix_cons (n : List Char) (c : Char) (t : List Char)
    (h : hasInfix n t = true) : hasInfix n (c :: t) = true := by
  simp [hasInfix, h]

theorem hasInfix_append (a n b : List Char) : hasInfix n (a ++ (n ++ b)) = true := by
  induction a with
  | nil =>
    simp only [List.nil_append]
    exact hasInfix_of_isPrefixOf (List.isPrefixOf_iff_prefix.mpr (List.prefix_append n b))
  | cons c t ih => exact hasInfix_cons _ _ _ ih

/-- Key containment fact: a string built as `pre ++ needle ++ post` contains
`needle`. -/
theorem strContains_intro (pre needle post : String) :
    strContains (pre ++ needle ++ post) needle = true := by
  have hd : (pre ++ needle ++ post).toList
      = pre.toList ++ (needle.toList ++ post.toList) := by
    show (pre.toList ++ needle.toList) ++ post.toList = _
    exact List.append_assoc _ _ _
  unfold strContains
  rw [hd]
  exact hasInfix_append _ _ _

/-! ## C7: round trip of the last-failed cache -/

theorem read_collect_eq (F : List String) :
    ∀ acc, read_last_failed.collect (F.map .str) acc = some (F.foldl hsInsert acc) := by
  induction F with
  | nil => intro acc; rfl
  | cons x F ih => intro acc; simpa [read_last_failed.collect] using ih (hsInsert acc x)

theorem foldl_hsInsert_eq_append :
    ∀ (F acc : List String), F.Nodup → (∀ x ∈ F, x ∉ acc) →
      F.foldl hsInsert acc = acc ++ F := by
  intro F
  induction F with
  | nil => intro acc _ _; simp
  | cons x F ih =>
    intro acc hnd hdisj
    have hx : x ∉ acc := hdisj x (by simp)
    have h1 : hsInsert acc x = acc ++ [x] := by
      unfold hsInsert
      rw [if_neg]
      intro hc
      exact hx (List.elem_iff.mp hc)
    have hnd' : F.Nodup := hnd.of_cons
    have hdisj' : ∀ y ∈ F, y ∉ acc ++ [x] := by
      intro y hy
      simp only [List.mem_append, List.mem_singleton]
      rintro (h | rfl)
      · exact hdisj y (by simp [hy]) h
      · exact (List.nodup_cons.mp hnd).1 hy
    calc (x :: F).foldl hsInsert acc = F.foldl hsInsert (acc ++ [x]) := by
          simp [h1]
      _ = (acc ++ [x]) ++ F := ih (acc ++ [x]) hnd' hdisj'
      _ = acc ++ (x :: F) := by simp

theorem failedIds_step_nodup :
    ∀ (rs : List PyTestResult) (acc : List String), acc.Nodup →
      (rs.foldl (fun acc r =>
        if r.status = "failed" then
          if acc.contains (uniqueId r) then acc else acc ++ [uniqueId r]
        else acc) acc).Nodup := by
  intro rs
  induction rs with
  | nil => intro acc h; exact h
  | cons r rs ih =>
    intro acc h
    simp only [List.foldl_cons]
    apply ih
    by_cases hf : r.status = "failed"
    · simp only [hf, if_true]
      by_cases hc : acc.contains (uniqueId r)
      · have hm := List.elem_iff.mp hc
        simp [hm, h]
      · have hm : uniqueId r ∉ acc := fun hmem => hc (List.elem_iff.mpr hmem)
        simp [hm, List.nodup_append, h]
    · simpa [hf] using h

theorem failedIds_nodup (rs : List PyTestResult) : (failedIds rs).Nodup :=
  failedIds_step_nodup rs [] List.nodup_nil

theorem failedIds_mem_aux :
    ∀ (rs : List PyTestResult) (acc : List String) (x : String),
      (x ∈ rs.foldl (fun acc r =>
        if r.status = "failed" then
          if acc.contains (uniqueId r) then acc else acc ++ [uniqueId r]
        else acc) acc) ↔ x ∈ acc ∨ ∃ r, r ∈ rs ∧ r.status = "failed" ∧ uniqueId r = x := by
  intro rs
  induction rs with
  | nil => intro acc x; simp
  | cons r rs ih =>
    intro acc x
    simp only [List.foldl_cons]
    rw [ih]
    have hstep : (if r.status = "failed" then
        if acc.contains (uniqueId r) then acc else acc ++ [uniqueId r]
      else acc) = if r.status = "failed" ∧ uniqueId r ∉ acc
        then acc ++ [uniqueId r] else acc := by
      by_cases hf : r.status = "failed"
      · by_cases hc : uniqueId r ∈ acc
        · simp [hf, hc, List.elem_iff.mpr hc]
        · have : ¬ acc.contains (uniqueId r) = true := fun h => hc (List.elem_iff.mp h)
          simp [hf, hc, this]
      · simp [hf]
    rw [hstep]
    constructor
    · rintro (hacc | hrest)
      · by_cases hcond : r.status = "failed" ∧ uniqueId r ∉ acc
        · rw [if_pos hcond] at hacc
          rcases List.mem_append.mp hacc with h | h
          · exact Or.inl h
          · rcases List.mem_singleton.mp h with rfl
            exact Or.inr ⟨r, by simp, hcond.1, rfl⟩
        · rw [if_neg hcond] at hacc
          exact Or.inl hacc
      · rcases hrest with ⟨r', hr', hst, hid⟩
        exact Or.inr ⟨r', by simp [hr'], hst, hid⟩
    · rintro (hacc | ⟨r', hr', hst, hid⟩)
      · left
        by_cases hcond : r.status = "failed" ∧ uniqueId r ∉ acc
        · rw [if_pos hcond]; exact List.mem_append.mpr (Or.inl hacc)
        · rwa [if_neg hcond]
      · rcases List.mem_cons.mp hr' with rfl | hmem
        · left
          by_cases hc : uniqueId r' ∈ acc
          · by_cases hcond : r'.status = "failed" ∧ uniqueId r' ∉ acc
            · exact absurd hc hcond.2
            · rw [if_neg hcond]; exact hid ▸ hc
          · rw [if_pos ⟨hst, hc⟩]
            exact List.mem_append.mpr (Or.inr (List.mem_singleton.mpr hid.symm))
        · exact Or.inr ⟨r', hmem, hst, hid⟩

theorem failedIds_mem (rs : List PyTestResult) (x : String) :
    x ∈ failedIds rs ↔ ∃ r, r ∈ rs ∧ r.status = "failed" ∧ uniqueId r = x := by
  unfold failedIds
  rw [failedIds_mem_aux]
  simp

theorem read_write_of_nodup (F : List String) (h : F.Nodup) :
    read_last_failed (write_last_failed F) = some F := by
  unfold read_last_failed write_last_failed
  simp only [alGet, if_pos rfl, if_true]
  rw [read_collect_eq]
  rw [foldl_hsInsert_eq_append F [] h (by simp)]
  simp

/-- After a fail-fast cleanup, the last event is the last-failed write for
exactly the failed ids of the partial report. -/
theorem failFastCleanup_writes (env : TdEnv) (ce : List (String × String))
    (re : Rat) (s : S) (agg : Agg) :
    (failFastCleanup env ce re s agg).1.trace.getLast?
      = some (.wroteCache (failedIds (failFastCleanup env ce re s agg).2.results)) := by
  show (_ ++ [Ev.wroteCache (failedIds agg.results)]).getLast? = _
  rw [List.getLast?_concat]
  rfl

theorem runTestList_inr_writes (clearU : Bool) (env : TdEnv) (dur : String → Rat)
    (module : TestModule) (config : RunConfiguration)
    (ce : List (String × String)) (re : Rat) :
    ∀ (l : List TestCase) (s : S) (agg : Agg) (d : S × PyRunReport),
      runTestList clearU env dur module config ce re l s agg = .inr d →
      d.1.trace.getLast? = some (.wroteCache (failedIds d.2.results)) := by
  intro l
  induction l with
  | nil => intro s agg d h; simp [runTestList] at h
  | cons tc rest ih =>
    intro s agg d h
    rw [runTestList] at h
    split at h
    dsimp only at h
    split at h
    · cases h
      exact failFastCleanup_writes _ _ _ _ _
    · exact ih _ _ _ h

theorem processGathered_inr_writes (env : TdEnv) (ce : List (String × String))
    (re : Rat) (config : RunConfiguration) :
    ∀ (l : List (TestCase × PyTestResult)) (s : S) (agg : Agg) (d : S × PyRunReport),
      processGathered env ce re config l s agg = .inr d →
      d.1.trace.getLast? = some (.wroteCache (failedIds d.2.results)) := by
  intro l
  induction l with
  | nil => intro s agg d h; simp [processGathered] at h
  | cons p rest ih =>
    intro s agg d h
    rw [processGathered] at h
    dsimp only at h
    split at h
    · cases h
      exact failFastCleanup_writes _ _ _ _ _
    · exact ih _ _ _ h

theorem gatherStage_inr_writes (env : TdEnv) (gelapsed : Rat)
    (module : TestModule) (config : RunConfiguration)
    (ce : List (String × String)) (re : Rat) (gatherable : List TestCase)
    (s : S) (agg : Agg) (d : S × PyRunReport)
    (h : gatherStage env gelapsed module config ce re gatherable s agg = .inr d) :
    d.1.trace.getLast? = some (.wroteCache (failedIds d.2.results)) := by
  unfold gatherStage at h
  split at h
  · exact absurd h (by simp)
  · split at h
    exact processGathered_inr_writes _ _ _ _ _ _ _ _ h

theorem afterGatherStage_inr_writes (env : TdEnv) (dur : String → Rat)
    (module : TestModule) (config : RunConfiguration)
    (ce : List (String × String)) (re : Rat) (seqAsync syncTests : List TestCase)
    (step1 : (S × Agg) ⊕ (S × PyRunReport)) (d : S × PyRunReport)
    (hstep : ∀ d', step1 = .inr d' →
      d'.1.trace.getLast? = some (.wroteCache (failedIds d'.2.results)))
    (h : afterGatherStage env dur module config ce re seqAsync syncTests step1 = .inr d) :
    d.1.trace.getLast? = some (.wroteCache (failedIds d.2.results)) := by
  unfold afterGatherStage at h
  split at h
  · cases h
    exact hstep _ rfl
  · split at h
    next heq =>
      cases h
      exact runTestList_inr_writes _ _ _ _ _ _ _ _ _ _ _ heq
    next heq =>
      split at h
      next heq2 =>
        cases h
        exact runTestList_inr_writes _ _ _ _ _ _ _ _ _ _ _ heq2
      next => simp at h

theorem runClassGroup_inr_writes (env : TdEnv) (dur : String → Rat)
    (gelapsed : Rat) (module : TestModule) (config : RunConfiguration)
    (ce : List (String × String)) (re : Rat) (tests : List TestCase)
    (s : S) (agg : Agg) (d : S × PyRunReport)
    (h : runClassGroup env dur gelapsed module config ce re tests s agg = .inr d) :
    d.1.trace.getLast? = some (.wroteCache (failedIds d.2.results)) := by
  unfold runClassGroup at h
  split at h
  exact afterGatherStage_inr_writes _ _ _ _ _ _ _ _ _ _
    (fun d' h' => gatherStage_inr_writes _ _ _ _ _ _ _ _ _ _ h') h

theorem goGroups_inr_writes (env : TdEnv) (dur : String → Rat) (gelapsed : Rat)
    (config : RunConfiguration) (ce : List (String × String)) (re : Rat)
    (module : TestModule) :
    ∀ (groups : List (Option String × List TestCase)) (s : S) (agg : Agg)
      (d : S × PyRunReport),
      runModule.goGroups env dur gelapsed config ce re module groups s agg = .inr d →
      d.1.trace.getLast? = some (.wroteCache (failedIds d.2.results)) := by
  intro groups
  induction groups with
  | nil => intro s agg d h; simp [runModule.goGroups] at h
  | cons g rest ih =>
    intro s agg d h
    rw [runModule.goGroups] at h
    split at h
    next heq =>
      cases h
      exact runClassGroup_inr_writes _ _ _ _ _ _ _ _ _ _ _ heq
    next => exact ih _ _ _ h

theorem runModule_inr_writes (env : TdEnv) (dur : String → Rat) (gelapsed : Rat)
    (config : RunConfiguration) (ce : List (String × String)) (re : Rat)
    (module : TestModule) (s : S) (agg : Agg) (d : S × PyRunReport)
    (h : runModule env dur gelapsed config ce re module s agg = .inr d) :
    d.1.trace.getLast? = some (.wroteCache (failedIds d.2.results)) := by
  unfold runModule at h
  dsimp only at h
  split at h
  next heq =>
    cases h
    exact goGroups_inr_writes _ _ _ _ _ _ _ _ _ _ _ heq
  next => simp at h

theorem goModules_inr_writes (env : TdEnv) (dur : String → Rat) (gelapsed : Rat)
    (ce : List (String × String)) (config : RunConfiguration) (re : Rat) :
    ∀ (modules : List TestModule) (s : S) (agg : Agg) (d : S × PyRunReport),
      run_collected_tests.goModules env dur gelapsed ce config re modules s agg = .inr d →
      d.1.trace.getLast? = some (.wroteCache (failedIds d.2.results)) := by
  intro modules
  induction modules with
  | nil => intro s agg d h; simp [run_collected_tests.goModules] at h
  | cons m rest ih =>
    intro s agg d h
    rw [run_collected_tests.goModules] at h
    split at h
    next heq =>
      cases h
      exact runModule_inr_writes _ _ _ _ _ _ _ _ _ _ heq
    next => exact ih _ _ _ h

/-- C7: every completed run — fail-fast exits included — ends by writing the
last-failed document for exactly the failed unique ids of the emitted
results, and parsing the written document back yields exactly that set: no
id is lost, duplicated, or added. -/
theorem C7_last_failed_round_trip :
    (∀ (env : TdEnv) (dur : String → Rat) (gelapsed : Rat)
        (modules : List TestModule) (collErrs : List (String × String))
        (config : RunConfiguration) (runElapsed : Rat),
      (run_collected_tests env dur gelapsed modules collErrs config runElapsed).1.trace.getLast?
        = some (.wroteCache (failedIds
            (run_collected_tests env dur gelapsed modules collErrs config runElapsed).2.results)))
    ∧ (∀ rs : List PyTestResult,
        read_last_failed (write_last_failed (failedIds rs)) = some (failedIds rs))
    ∧ (∀ (rs : List PyTestResult) (x : String),
        x ∈ failedIds rs ↔ ∃ r, r ∈ rs ∧ r.status = "failed" ∧ uniqueId r = x) := by
  refine ⟨?_, ?_, ?_⟩
  · intro env dur gelapsed modules collErrs config runElapsed
    unfold run_collected_tests
    cases hm : run_collected_tests.goModules env dur gelapsed collErrs config
        runElapsed modules {} {} with
    | inr d =>
      simpa using goModules_inr_writes env dur gelapsed collErrs config
        runElapsed modules {} {} d hm
    | inl p =>
      rcases p with ⟨s, agg⟩
      simp only
      rw [List.getLast?_concat]
  · intro rs
    exact read_write_of_nodup (failedIds rs) (failedIds_nodup rs)
  · exact failedIds_mem

/-! ## C9: skip-signal classification -/

/-- Teardown oracle where every teardown terminates normally. -/
def tdStop : TdEnv := fun _ _ => .stopIter

/-- A constant duration oracle. -/
def durOne : String → Rat := fun _ => 1

/-- A message that mentions `pytest.skip.Exception` without any line
beginning `Skipped:` and without any line ending in `.Skipped`. -/
def c9msg : String := "RuntimeError: custom pytest.skip.Exception marker present"

def c9tc : TestCase :=
  { name := "t9", display_name := "t9", path := "m.py",
    body := fun _ => { raises := some c9msg } }

def c9mod : TestModule := { path := "m.py", tests := [c9tc] }

/-- C9 counterexample: a test raising an exception that is neither of a type
ending in `.Skipped` nor carrying a `Skipped:` line is nevertheless reported
skipped, because `is_skip_exception` also accepts the mere substring
`pytest.skip.Exception` (and `rustest.decorators.Skipped`) anywhere in the
message.  The claim's characterisation of the skip signal would demand a
failed result here. -/
theorem C9_counterexample :
    (run_single_test tdStop durOne c9mod c9tc {} {}).2.status = "skipped"
    ∧ ((rustLines c9msg).any (fun l => rustStartsWith (rustTrim l) "Skipped:") = false)
    ∧ ((rustLines c9msg).any (fun l => rustEndsWith (rustTrim l) ".Skipped") = false) := by
  refine ⟨by decide, by decide, by decide⟩

/-- C9 amended: a failing test execution is classified as skipped exactly
when `is_skip_exception` accepts the message — that is, when the message
contains `rustest.decorators.Skipped` or `pytest.skip.Exception` anywhere,
or has a line whose trimmed form begins `Skipped:` or ends `.Skipped`; the
skip reason is parsed from the message; every other exception yields a
failed result carrying the message and captured output. -/
theorem C9_skip_signal_classification :
    (∀ msg, is_skip_exception msg =
      (strContains msg "rustest.decorators.Skipped"
        || strContains msg "pytest.skip.Exception"
        || (rustLines msg).any (fun line =>
              rustStartsWith (rustTrim line) "Skipped:"
                || rustEndsWith (rustTrim line) ".Skipped")))
    ∧ (∀ (env : TdEnv) (dur : String → Rat) (module : TestModule) (tc : TestCase)
        (config : RunConfiguration) (s s' : S) (f : TestCallFailure),
        tc.skip_reason = none →
        execute_test_case env module tc config s = (s', .error f) →
        run_single_test env dur module tc config s =
          (s', if is_skip_exception f.message then
            PyTestResult.skipped tc.display_name (to_relative_path tc.path)
              (dur tc.display_name) (extract_skip_reason f.message) (mark_names tc)
          else
            PyTestResult.failed tc.display_name (to_relative_path tc.path)
              (dur tc.display_name) f.message f.stdout f.stderr (mark_names tc))) := by
  constructor
  · intro msg; rfl
  · intro env dur module tc config s s' f hskip hexec
    unfold run_single_test
    rw [hskip, hexec]
    dsimp only
    by_cases hc : is_skip_exception f.message = true
    · rw [if_pos hc, if_pos hc]
    · rw [if_neg hc, if_neg hc]

def c9wtc : TestCase :=
  { name := "w9", display_name := "w9", path := "m.py",
    body := fun _ => { raises := some "ValueError: nope" } }

def c9wmod : TestModule := { path := "m.py", tests := [c9wtc] }

/-- Witness for the amended C9 theorem at a concrete failing test. -/
theorem C9_skip_signal_classification_witness :
    run_single_test tdStop durOne c9wmod c9wtc {} {} =
      ({ trace := [Ev.drainMark .function] },
        PyTestResult.failed "w9" "m.py" 1 "ValueError: nope" none none []) := by
  have h := C9_skip_signal_classification.2 tdStop durOne c9wmod c9wtc {}
    ({} : S) ({ trace := [Ev.drainMark .function] } : S)
    { message := "ValueError: nope", stdout := none, stderr := none } rfl rfl
  refine h.trans ?_
  split
  next hc => exact absurd hc (by decide)
  next => rfl

/-! ## C10: gathered batch durations and captured output -/

theorem prepOne_skip_facts (module : TestModule) (tc : TestCase) (s : S)
    (r : PyTestResult) (h : (prepOne module tc s).2 = .skip r) :
    r.status = "skipped" ∧ r.duration = 0 := by
  unfold prepOne at h
  dsimp only at h
  split at h
  · cases h
    exact ⟨rfl, rfl⟩
  · split at h
    · simp at h
    · split at h
      · simp at h
      · split at h
        · simp at h
        · split at h
          · simp at h
          · simp at h

theorem prepOne_err_facts (module : TestModule) (tc : TestCase) (s : S)
    (r : PyTestResult) (h : (prepOne module tc s).2 = .errR r) :
    r.status = "failed" ∧ r.duration = 0 := by
  unfold prepOne at h
  dsimp only at h
  split at h
  · simp at h
  · split at h
    · cases h
      exact ⟨rfl, rfl⟩
    · split at h
      · cases h
        exact ⟨rfl, rfl⟩
      · split at h
        · cases h
          exact ⟨rfl, rfl⟩
        · split at h
          · cases h
            exact ⟨rfl, rfl⟩
          · simp at h

theorem prepGathered_facts (module : TestModule) (config : RunConfiguration) :
    ∀ (l : List TestCase) (s : S),
      (∀ x ∈ (prepGathered module config l s).2.1,
        x.2.status = "skipped" ∧ x.2.duration = 0)
      ∧ (∀ x ∈ (prepGathered module config l s).2.2.1,
        x.2.status = "failed" ∧ x.2.duration = 0) := by
  intro l
  induction l with
  | nil =>
    intro s
    constructor <;> (intro x hx; simp [prepGathered] at hx)
  | cons tc rest ih =>
    intro s
    rw [prepGathered]
    rcases hp : prepOne module tc s with ⟨s1, out⟩
    rcases hr : prepGathered module config rest s1 with ⟨s2, sk, er, pr⟩
    have ihs := (ih s1).1
    have ihe := (ih s1).2
    rw [hr] at ihs ihe
    cases out with
    | skip r =>
      dsimp only
      rw [hr]
      dsimp only
      constructor
      · intro x hx
        rcases List.mem_cons.mp hx with rfl | hm
        · exact prepOne_skip_facts module tc s r (by rw [hp])
        · exact ihs x hm
      · intro x hx
        exact ihe x hx
    | errR r =>
      dsimp only
      rw [hr]
      dsimp only
      constructor
      · intro x hx
        exact ihs x hx
      · intro x hx
        rcases List.mem_cons.mp hx with rfl | hm
        · exact prepOne_err_facts module tc s r (by rw [hp])
        · exact ihe x hm
    | prep p =>
      dsimp only
      rw [hr]
      dsimp only
      exact ⟨fun x hx => ihs x hx, fun x hx => ihe x hx⟩

theorem gatherResults_facts (env : TdEnv) (out errOut : Option String) (per : Rat) :
    ∀ (l : List (Prepared × BodyRun)) (s : S),
      ∀ pr ∈ (gatherResults env out errOut per l s).2,
        pr.2.duration = per
          ∧ (pr.2.status ≠ "skipped" → pr.2.stdout = out ∧ pr.2.stderr = errOut) := by
  intro l
  induction l with
  | nil => intro s pr h; simp [gatherResults] at h
  | cons x rest ih =>
    intro s pr h
    rcases x with ⟨p, run⟩
    rw [gatherResults] at h
    dsimp only at h
    rcases hrec : gatherResults env out errOut per rest
        { s with trace := s.trace ++ [Ev.drainMark .function]
            ++ finalize_generators env p.ftds } with ⟨s2, rs⟩
    rw [hrec] at h
    simp only at h
    rcases List.mem_cons.mp h with rfl | hm
    · cases hraise : run.raises with
      | none => simp [hraise, PyTestResult.passed]
      | some msg =>
        by_cases hsk : is_skip_exception msg = true
        · simp [hraise, hsk, PyTestResult.skipped]
        · simp [hraise, hsk, PyTestResult.failed]
    · have := ih _ pr (by rw [hrec]; exact hm)
      exact this

theorem gatherResults_length (env : TdEnv) (out errOut : Option String)
    (per : Rat) :
    ∀ (l : List (Prepared × BodyRun)) (s : S),
      (gatherResults env out errOut per l s).2.length = l.length := by
  intro l
  induction l with
  | nil => intro s; rfl
  | cons x rest ih =>
    intro s
    rcases x with ⟨p, run⟩
    rw [gatherResults]
    dsimp only
    rcases hrec : gatherResults env out errOut per rest
        { s with trace := s.trace ++ [Ev.drainMark .function]
            ++ finalize_generators env p.ftds } with ⟨s2, rs⟩
    have := ih ({ s with trace := s.trace ++ [Ev.drainMark .function]
            ++ finalize_generators env p.ftds })
    rw [hrec] at this
    simpa using this

/-- C10 amended: in a gathered batch, the results split into the
skip-reason skips, the validation/fixture errors (all with duration 0), and
one result per prepared test; every prepared test's result — including ones
skipped by an in-test skip exception — reports the same
`duration = elapsed / n` where `n` is the number of prepared tests, and the
passed and failed ones all carry the same aggregate captured
stdout/stderr buffers (exception-skipped results carry none). -/
theorem C10_gathered_durations :
    ∀ (env : TdEnv) (elapsed : Rat) (module : TestModule) (tests : List TestCase)
      (config : RunConfiguration) (s : S),
      ∃ skips errors executed n out errOut,
        (run_async_tests_gathered env elapsed module tests config s).2
          = skips ++ errors ++ executed
        ∧ executed.length = n
        ∧ (∀ pr ∈ executed, pr.2.duration = elapsed / (n : Rat))
        ∧ (∀ pr ∈ executed, pr.2.status ≠ "skipped" →
            pr.2.stdout = out ∧ pr.2.stderr = errOut)
        ∧ (∀ pr ∈ skips, pr.2.status = "skipped" ∧ pr.2.duration = 0)
        ∧ (∀ pr ∈ errors, pr.2.status = "failed" ∧ pr.2.duration = 0) := by
  intro env elapsed module tests config s
  cases tests with
  | nil =>
    refine ⟨[], [], [], 0, none, none, by simp [run_async_tests_gathered],
      rfl, ?_, ?_, ?_, ?_⟩ <;> (intro pr h; simp at h)
  | cons t rest =>
    unfold run_async_tests_gathered
    rcases hp : prepGathered module config (t :: rest) (freshGatherLoop s)
      with ⟨s1, sk, er, pr⟩
    dsimp only
    rcases hgr : gatherResults env
        (captureStream config.capture_output
          (strJoin ((pr.map (fun p => p.tc.body p.args)).map (·.out))))
        (captureStream config.capture_output
          (strJoin ((pr.map (fun p => p.tc.body p.args)).map (·.errOut))))
        (elapsed / (pr.length : Rat)) (pr.zip (pr.map (fun p => p.tc.body p.args))) s1
      with ⟨s2, executed⟩
    refine ⟨sk, er, executed, pr.length,
      captureStream config.capture_output
        (strJoin ((pr.map (fun p => p.tc.body p.args)).map (·.out))),
      captureStream config.capture_output
        (strJoin ((pr.map (fun p => p.tc.body p.args)).map (·.errOut))),
      by rw [hgr], ?_, ?_, ?_, ?_, ?_⟩
    · have := gatherResults_length env
        (captureStream config.capture_output
          (strJoin ((pr.map (fun p => p.tc.body p.args)).map (·.out))))
        (captureStream config.capture_output
          (strJoin ((pr.map (fun p => p.tc.body p.args)).map (·.errOut))))
        (elapsed / (pr.length : Rat))
        (pr.zip (pr.map (fun p => p.tc.body p.args))) s1
      rw [hgr] at this
      simpa using this
    · intro x hx
      have := gatherResults_facts env
        (captureStream config.capture_output
          (strJoin ((pr.map (fun p => p.tc.body p.args)).map (·.out))))
        (captureStream config.capture_output
          (strJoin ((pr.map (fun p => p.tc.body p.args)).map (·.errOut))))
        (elapsed / (pr.length : Rat))
        (pr.zip (pr.map (fun p => p.tc.body p.args))) s1 x (by rw [hgr]; exact hx)
      exact this.1
    · intro x hx hst
      have := gatherResults_facts env
        (captureStream config.capture_output
          (strJoin ((pr.map (fun p => p.tc.body p.args)).map (·.out))))
        (captureStream config.capture_output
          (strJoin ((pr.map (fun p => p.tc.body p.args)).map (·.errOut))))
        (elapsed / (pr.length : Rat))
        (pr.zip (pr.map (fun p => p.tc.body p.args))) s1 x (by rw [hgr]; exact hx)
      exact this.2 hst
    · intro x hx
      have := (prepGathered_facts module config (t :: rest) (freshGatherLoop s)).1
      rw [hp] at this
      exact this x hx
    · intro x hx
      have := (prepGathered_facts module config (t :: rest) (freshGatherLoop s)).2
      rw [hp] at this
      exact this x hx

def c10t1 : TestCase :=
  { name := "g1", display_name := "g1", path := "m.py", is_async_fn := true,
    body := fun _ => { out := "hi" } }

def c10t2 : TestCase :=
  { name := "g2", display_name := "g2", path := "m.py", is_async_fn := true,
    body := fun _ => { raises := some "rustest.decorators.Skipped: nah" } }

def c10mod : TestModule := { path := "m.py", tests := [c10t1, c10t2] }

/-- C10 counterexample: in a gathered batch of two tests that both actually
run, the second raises a skip exception during the gather; its result record
carries the shared duration but *no* captured output, while the first
test's record carries the aggregate buffer — refuting "every such result
carries the same aggregate captured stdout/stderr buffers". -/
theorem C10_counterexample :
    ((run_async_tests_gathered tdStop 10 c10mod [c10t1, c10t2] {} {}).2.map
        (fun p => (p.2.status, p.2.stdout, p.2.stderr)))
      = [("passed", some "hi", none), ("skipped", none, none)]
    ∧ ((run_async_tests_gathered tdStop 10 c10mod [c10t1, c10t2] {} {}).2.map
        (fun p => p.2.duration))
      = [10 / ((2 : Nat) : Rat), 10 / ((2 : Nat) : Rat)] := by
  exact ⟨by decide, rfl⟩

/-- Witness for the amended C10 theorem on a concrete batch. -/
theorem C10_gathered_durations_witness :
    ∃ skips errors executed n out errOut,
      (run_async_tests_gathered tdStop 10 c10mod [c10t1, c10t2] {} {}).2
        = skips ++ errors ++ executed
      ∧ executed.length = n
      ∧ (∀ pr ∈ executed, pr.2.duration = 10 / (n : Rat))
      ∧ (∀ pr ∈ executed, pr.2.status ≠ "skipped" →
          pr.2.stdout = out ∧ pr.2.stderr = errOut)
      ∧ (∀ pr ∈ skips, pr.2.status = "skipped" ∧ pr.2.duration = 0)
      ∧ (∀ pr ∈ errors, pr.2.status = "failed" ∧ pr.2.duration = 0) :=
  C10_gathered_durations tdStop 10 c10mod [c10t1, c10t2] {} {}

/-! ## C5: which async tests are gathered -/

theorem partition_foldl_eq (fixtures : List (String × Fixture)) :
    ∀ (tests : List TestCase) (acc : List TestCase × List TestCase × List TestCase),
      tests.foldl (fun acc t =>
        if t.is_async_fn then
          if can_async_test_be_gathered fixtures t then
            (acc.1 ++ [t], acc.2.1, acc.2.2)
          else (acc.1, acc.2.1 ++ [t], acc.2.2)
        else (acc.1, acc.2.1, acc.2.2 ++ [t])) acc
      = (acc.1 ++ tests.filter
            (fun t => t.is_async_fn && can_async_test_be_gathered fixtures t),
         acc.2.1 ++ tests.filter
            (fun t => t.is_async_fn && !can_async_test_be_gathered fixtures t),
         acc.2.2 ++ tests.filter (fun t => !t.is_async_fn)) := by
  intro tests
  induction tests with
  | nil => intro acc; simp
  | cons t rest ih =>
    intro acc
    simp only [List.foldl_cons, List.filter_cons]
    by_cases ha : t.is_async_fn = true
    · by_cases hg : can_async_test_be_gathered fixtures t = true
      · simp [ha, hg, ih]
      · simp only [Bool.not_eq_true] at hg
        simp [ha, hg, ih]
    · simp only [Bool.not_eq_true] at ha
      simp [ha, ih]

/-- C5 amended: an async test is gathered iff its explicit loop-scope mark
(when present) is class or module *and* the widest async-fixture scope its
closure requires is not session or package.  In particular an inferred
required scope of `function` — an async test with no explicit mark and no
async fixtures — does NOT exclude it from the batch; only an *explicit*
`loop_scope="function"` mark does.  The gathered partition of a class group
is exactly the async tests satisfying this predicate. -/
theorem C5_gatherable_characterisation :
    (∀ (fixtures : List (String × Fixture)) (tc : TestCase),
      can_async_test_be_gathered fixtures tc = true ↔
        ((∀ e, get_explicit_loop_scope_from_marks tc = some e →
            e = Scope.module ∨ e = Scope.cls)
          ∧ detect_required_loop_scope fixtures tc.parameters tc ≠ Scope.session
          ∧ detect_required_loop_scope fixtures tc.parameters tc ≠ Scope.pkg))
    ∧ (∀ (fixtures : List (String × Fixture)) (tests : List TestCase),
      (partitionTests fixtures tests).1
        = tests.filter (fun t => t.is_async_fn && can_async_test_be_gathered fixtures t)) := by
  constructor
  · intro fixtures tc
    unfold can_async_test_be_gathered
    cases he : get_explicit_loop_scope_from_marks tc with
    | none =>
      cases hr : detect_required_loop_scope fixtures tc.parameters tc <;>
        simp [he, hr]
    | some e =>
      cases e <;> cases hr : detect_required_loop_scope fixtures tc.parameters tc <;>
        simp [he, hr]
  · intro fixtures tests
    unfold partitionTests
    rw [partition_foldl_eq]
    simp

def c5tc : TestCase :=
  { name := "t5", display_name := "t5", path := "m.py", is_async_fn := true }

/-- C5 counterexample: an async test with no marks and no fixtures has
effective loop scope `function` (inference defaults to function), yet it IS
placed in the gatherable batch — refuting "gathered iff the effective loop
scope is class or module". -/
theorem C5_counterexample :
    can_async_test_be_gathered [] c5tc = true
    ∧ determine_test_loop_scope c5tc [] = Scope.function
    ∧ (partitionTests [] [c5tc]).1 = [c5tc] := by
  exact ⟨by decide, by decide, rfl⟩

/-- Witness for the amended C5 characterisation at concrete inputs. -/
theorem C5_gatherable_characterisation_witness :
    (can_async_test_be_gathered [] c5tc = true ↔
      ((∀ e, get_explicit_loop_scope_from_marks c5tc = some e →
          e = Scope.module ∨ e = Scope.cls)
        ∧ detect_required_loop_scope [] c5tc.parameters c5tc ≠ Scope.session
        ∧ detect_required_loop_scope [] c5tc.parameters c5tc ≠ Scope.pkg))
    ∧ (partitionTests [] [c5tc]).1
        = [c5tc].filter (fun t => t.is_async_fn && can_async_test_be_gathered [] t) :=
  ⟨C5_gatherable_characterisation.1 [] c5tc,
    C5_gatherable_characterisation.2 [] [c5tc]⟩

/-! ## C8: class cache between consecutive unclassed tests -/

def c8fx : Fixture := { name := "cfx", parameters := [], scope := .cls }

def c8mark : Mark := { name := "asyncio", kwargs := [("loop_scope", .str "session")] }

def c8t1 : TestCase :=
  { name := "t1", display_name := "t1", path := "m.py", parameters := ["cfx"],
    marks := [c8mark], is_async_fn := true }

def c8t2 : TestCase :=
  { name := "t2", display_name := "t2", path := "m.py", parameters := ["cfx"],
    marks := [c8mark], is_async_fn := true }

def c8mod : TestModule :=
  { path := "m.py", fixtures := [("cfx", c8fx)], tests := [c8t1, c8t2] }

/-- C8 counterexample: two consecutive *unclassed asynchronous* tests (run
on the sequential-async path because of their explicit session loop scope)
both use a class-scoped fixture, yet the fixture callable is invoked only
once in the whole run — the value constructed during the first unclassed
test is served from the class cache to the second.  The class cache is only
cleared between unclassed tests in the synchronous loop
(`src/execution.rs:501`-`510`), so the claim fails for asynchronous tests. -/
theorem C8_counterexample :
    ((run_collected_tests tdStop durOne 1 [c8mod] [] {} 5).1.trace.filter
        (fun e => match e with | .invoke _ _ => true | _ => false)).length = 1
    ∧ ((run_collected_tests tdStop durOne 1 [c8mod] [] {} 5).2.results.map
        (fun r => (r.name, r.status)))
      = [("t1", "passed"), ("t2", "passed")]
    ∧ c8t1.class_name = none ∧ c8t2.class_name = none := by
  exact ⟨by decide, by decide, rfl, rfl⟩

/-- C8 amended: after each unclassed test in the *synchronous* loop the
class cache is cleared and the class teardowns drained, so no class-scoped
fixture value leaks to the next unclassed sync test; the sequential-async
loop performs no such clearing and passes the class cache through
untouched. -/
theorem C8_unclassed_class_cache :
    (∀ (env : TdEnv) (dur : String → Rat) (module : TestModule)
        (config : RunConfiguration) (ce : List (String × String)) (re : Rat)
        (tc : TestCase) (rest : List TestCase) (s s1 : S) (agg : Agg)
        (r : PyTestResult),
      tc.class_name = none →
      run_single_test env dur module tc config s = (s1, r) →
      ¬(config.fail_fast = true ∧ r.status = "failed") →
      runTestList true env dur module config ce re (tc :: rest) s agg
        = runTestList true env dur module config ce re rest
            (drainScopeS env .cls
              { (processResult r s1 agg).1 with
                ctx := { (processResult r s1 agg).1.ctx with class_cache := [] } })
            (processResult r s1 agg).2
      ∧ (drainScopeS env .cls
          { (processResult r s1 agg).1 with
            ctx := { (processResult r s1 agg).1.ctx with class_cache := [] } }).ctx.class_cache = []
      ∧ (drainScopeS env .cls
          { (processResult r s1 agg).1 with
            ctx := { (processResult r s1 agg).1.ctx with class_cache := [] } }).ctx.td_class = [])
    ∧ (∀ (env : TdEnv) (dur : String → Rat) (module : TestModule)
        (config : RunConfiguration) (ce : List (String × String)) (re : Rat)
        (tc : TestCase) (rest : List TestCase) (s s1 : S) (agg : Agg)
        (r : PyTestResult),
      run_single_test env dur module tc config s = (s1, r) →
      ¬(config.fail_fast = true ∧ r.status = "failed") →
      runTestList false env dur module config ce re (tc :: rest) s agg
        = runTestList false env dur module config ce re rest
            (processResult r s1 agg).1 (processResult r s1 agg).2
      ∧ (processResult r s1 agg).1.ctx.class_cache = s1.ctx.class_cache) := by
  constructor
  · intro env dur module config ce re tc rest s s1 agg r hcls hrun hnf
    rw [runTestList, hrun]
    dsimp only
    rw [if_neg hnf, if_pos ⟨rfl, hcls⟩]
    exact ⟨rfl, rfl, rfl⟩
  · intro env dur module config ce re tc rest s s1 agg r hrun hnf
    rw [runTestList, hrun]
    dsimp only
    rw [if_neg hnf, if_neg (by simp)]
    exact ⟨rfl, rfl⟩

def c8wtc : TestCase := { name := "ws", display_name := "ws", path := "m.py" }

def c8wmod : TestModule := { path := "m.py", tests := [c8wtc] }

/-- Witness for the amended C8 theorem at a concrete unclassed sync test. -/
theorem C8_unclassed_class_cache_witness :
    runTestList true tdStop durOne c8wmod {} [] 5 [c8wtc] {} {}
      = runTestList true tdStop durOne c8wmod {} [] 5 []
          (drainScopeS tdStop .cls
            { (processResult (PyTestResult.passed "ws" "m.py" 1 none none [])
                ({ trace := [Ev.drainMark .function] } : S) {}).1 with
              ctx := { (processResult (PyTestResult.passed "ws" "m.py" 1 none none [])
                ({ trace := [Ev.drainMark .function] } : S) {}).1.ctx with class_cache := [] } })
          (processResult (PyTestResult.passed "ws" "m.py" 1 none none [])
            ({ trace := [Ev.drainMark .function] } : S) {}).2 := by
  have h := C8_unclassed_class_cache.1 tdStop durOne c8wmod {} [] 5 c8wtc []
    ({} : S) ({ trace := [Ev.drainMark .function] } : S) {}
    (PyTestResult.passed "ws" "m.py" 1 none none []) rfl rfl (by simp)
  exact h.1

/-! ## C6: fail-fast behaviour -/

/-- Is this a drain-start marker? -/
def isDrainMark : Ev → Bool
  | .drainMark _ => true
  | _ => false

/-- Is this a test-activity event (a test completion or a fixture-callable
invocation)? -/
def isTestEv : Ev → Bool
  | .testDone _ _ => true
  | .invoke _ _ => true
  | _ => false

/-- The close events a slot contributes. -/
def closeEvs (slot : Option Nat) (sc : Scope) : List Ev :=
  match slot with
  | some _ => [.closeLoop sc]
  | none => []

/-- The exact event tail a fail-fast cleanup appends: drain class, module,
package and session (in that order, closing each loop), the summary, and
the last-failed write. -/
def ffTail (env : TdEnv) (s : S) (ids : List String) : List Ev :=
  [Ev.drainMark .cls] ++ finalize_generators env s.ctx.td_class
    ++ closeEvs s.ctx.class_loop .cls
    ++ [Ev.drainMark .module] ++ finalize_generators env s.ctx.td_module
    ++ closeEvs s.ctx.module_loop .module
    ++ [Ev.drainMark .pkg] ++ finalize_generators env s.ctx.td_package
    ++ closeEvs s.ctx.package_loop .pkg
    ++ [Ev.drainMark .session] ++ finalize_generators env s.ctx.td_session
    ++ closeEvs s.ctx.session_loop .session
    ++ [Ev.suiteDone, Ev.wroteCache ids]

theorem failFastCleanup_trace (env : TdEnv) (ce : List (String × String))
    (re : Rat) (s : S) (agg : Agg) :
    (failFastCleanup env ce re s agg).1.trace
      = s.trace ++ ffTail env s (failedIds agg.results)
    ∧ (failFastCleanup env ce re s agg).2.results = agg.results
    ∧ (failFastCleanup env ce re s agg).2.passed = agg.passed
    ∧ (failFastCleanup env ce re s agg).2.failed = agg.failed
    ∧ (failFastCleanup env ce re s agg).2.skipped = agg.skipped := by
  refine ⟨?_, rfl, rfl, rfl, rfl⟩
  unfold failFastCleanup drainScopeS closeLoopS
  cases hc : s.ctx.class_loop <;> cases hm : s.ctx.module_loop <;>
    cases hp : s.ctx.package_loop <;> cases hs : s.ctx.session_loop <;>
    simp [ffTail, closeEvs, hc, hm, hp, hs]

theorem finalize_ev_kinds (env : TdEnv) (l : List Handle) :
    ∀ e ∈ finalize_generators env l, isDrainMark e = false ∧ isTestEv e = false := by
  unfold finalize_generators
  generalize l.reverse = m
  induction m with
  | nil => intro e he; simp [finalize_generators.go] at he
  | cons h t ih =>
    intro e he
    rw [finalize_generators.go] at he
    rcases List.mem_append.mp he with hm | hm
    · unfold runTeardown at hm
      cases henv : env h.key h.id <;> rw [henv] at hm <;> simp at hm
      · rcases hm with rfl; exact ⟨rfl, rfl⟩
      · rcases hm with rfl; exact ⟨rfl, rfl⟩
      · rcases hm with rfl | rfl <;> exact ⟨rfl, rfl⟩
    · exact ih e hm

theorem filter_drain_finalize (env : TdEnv) (l : List Handle) :
    (finalize_generators env l).filter isDrainMark = [] := by
  rw [List.filter_eq_nil_iff]
  intro e he
  simp [(finalize_ev_kinds env l e he).1]

theorem ffTail_drain_order (env : TdEnv) (s : S) (ids : List String) :
    (ffTail env s ids).filter isDrainMark
      = [Ev.drainMark .cls, Ev.drainMark .module, Ev.drainMark .pkg,
          Ev.drainMark .session] := by
  unfold ffTail
  cases s.ctx.class_loop <;> cases s.ctx.module_loop <;>
    cases s.ctx.package_loop <;> cases s.ctx.session_loop <;>
    simp [closeEvs, List.filter_append, filter_drain_finalize, isDrainMark]

theorem filter_test_finalize (env : TdEnv) (l : List Handle) :
    (finalize_generators env l).filter isTestEv = [] := by
  rw [List.filter_eq_nil_iff]
  intro e he
  simp [(finalize_ev_kinds env l e he).2]

theorem ffTail_no_tests (env : TdEnv) (s : S) (ids : List String) :
    (ffTail env s ids).filter isTestEv = [] := by
  unfold ffTail
  cases s.ctx.class_loop <;> cases s.ctx.module_loop <;>
    cases s.ctx.package_loop <;> cases s.ctx.session_loop <;>
    simp [closeEvs, List.filter_append, filter_test_finalize, isTestEv]

theorem ffTail_last (env : TdEnv) (s : S) (ids : List String) :
    (ffTail env s ids).getLast? = some (Ev.wroteCache ids) := by
  unfold ffTail
  repeat rw [List.getLast?_append_of_ne_nil _ (by simp)]
  rfl

/-- No result in the list is failed. -/
def resultsOkay (rs : List PyTestResult) : Prop := ∀ x ∈ rs, x.status ≠ "failed"

theorem processResult_results (r : PyTestResult) (s : S) (agg : Agg) :
    (processResult r s agg).2.results = agg.results ++ [r] := by
  unfold processResult
  split
  · rfl
  · split
    · rfl
    · split <;> rfl

theorem processResult_okay (r : PyTestResult) (s : S) (agg : Agg)
    (hok : resultsOkay agg.results) (hr : r.status ≠ "failed") :
    resultsOkay (processResult r s agg).2.results := by
  rw [processResult_results]
  intro x hx
  rcases List.mem_append.mp hx with h | h
  · exact hok x h
  · rcases List.mem_singleton.mp h with rfl
    exact hr

theorem runTestList_inl_okay (clearU : Bool) (env : TdEnv) (dur : String → Rat)
    (module : TestModule) (config : RunConfiguration)
    (ce : List (String × String)) (re : Rat) (hff : config.fail_fast = true) :
    ∀ (l : List TestCase) (s : S) (agg : Agg) (s' : S) (agg' : Agg),
      runTestList clearU env dur module config ce re l s agg = .inl (s', agg') →
      resultsOkay agg.results → resultsOkay agg'.results := by
  intro l
  induction l with
  | nil =>
    intro s agg s' agg' h hok
    rw [runTestList] at h
    cases h
    exact hok
  | cons tc rest ih =>
    intro s agg s' agg' h hok
    rw [runTestList] at h
    split at h
    next s1 r heq =>
      dsimp only at h
      split at h
      next hcond => exact absurd h (by simp)
      next hcond =>
        have hr : r.status ≠ "failed" := by
          intro hbad
          exact hcond ⟨hff, hbad⟩
        split at h
        · exact ih _ _ _ _ h (processResult_okay r s1 agg hok hr)
        · exact ih _ _ _ _ h (processResult_okay r s1 agg hok hr)

theorem runTestList_inr_shape (clearU : Bool) (env : TdEnv) (dur : String → Rat)
    (module : TestModule) (config : RunConfiguration)
    (ce : List (String × String)) (re : Rat) (hff : config.fail_fast = true) :
    ∀ (l : List TestCase) (s : S) (agg : Agg) (d : S × PyRunReport),
      runTestList clearU env dur module config ce re l s agg = .inr d →
      resultsOkay agg.results →
      ∃ pre r, d.2.results = pre ++ [r] ∧ resultsOkay pre ∧ r.status = "failed" := by
  intro l
  induction l with
  | nil => intro s agg d h hok; simp [runTestList] at h
  | cons tc rest ih =>
    intro s agg d h hok
    rw [runTestList] at h
    split at h
    next s1 r heq =>
      dsimp only at h
      split at h
      next hcond =>
        cases h
        refine ⟨agg.results, r, ?_, hok, hcond.2⟩
        rw [(failFastCleanup_trace env ce re _ _).2.1, processResult_results]
      next hcond =>
        have hr : r.status ≠ "failed" := fun hbad => hcond ⟨hff, hbad⟩
        split at h
        · exact ih _ _ _ h (processResult_okay r s1 agg hok hr)
        · exact ih _ _ _ h (processResult_okay r s1 agg hok hr)

theorem processGathered_inl_okay (env : TdEnv) (ce : List (String × String))
    (re : Rat) (config : RunConfiguration) (hff : config.fail_fast = true) :
    ∀ (l : List (TestCase × PyTestResult)) (s : S) (agg : Agg) (s' : S) (agg' : Agg),
      processGathered env ce re config l s agg = .inl (s', agg') →
      resultsOkay agg.results → resultsOkay agg'.results := by
  intro l
  induction l with
  | nil =>
    intro s agg s' agg' h hok
    rw [processGathered] at h
    cases h
    exact hok
  | cons p rest ih =>
    intro s agg s' agg' h hok
    rw [processGathered] at h
    dsimp only at h
    split at h
    next hcond => exact absurd h (by simp)
    next hcond =>
      have hr : p.2.status ≠ "failed" := fun hbad => hcond ⟨hff, hbad⟩
      exact ih _ _ _ _ h (processResult_okay p.2 s agg hok hr)

theorem processGathered_inr_shape (env : TdEnv) (ce : List (String × String))
    (re : Rat) (config : RunConfiguration) (hff : config.fail_fast = true) :
    ∀ (l : List (TestCase × PyTestResult)) (s : S) (agg : Agg) (d : S × PyRunReport),
      processGathered env ce re config l s agg = .inr d →
      resultsOkay agg.results →
      ∃ pre r, d.2.results = pre ++ [r] ∧ resultsOkay pre ∧ r.status = "failed" := by
  intro l
  induction l with
  | nil => intro s agg d h hok; simp [processGathered] at h
  | cons p rest ih =>
    intro s agg d h hok
    rw [processGathered] at h
    dsimp only at h
    split at h
    next hcond =>
      cases h
      refine ⟨agg.results, p.2, ?_, hok, hcond.2⟩
      rw [(failFastCleanup_trace env ce re _ _).2.1, processResult_results]
    next hcond =>
      have hr : p.2.status ≠ "failed" := fun hbad => hcond ⟨hff, hbad⟩
      exact ih _ _ _ h (processResult_okay p.2 s agg hok hr)

theorem gatherStage_inl_okay (env : TdEnv) (gelapsed : Rat) (module : TestModule)
    (config : RunConfiguration) (ce : List (String × String)) (re : Rat)
    (hff : config.fail_fast = true) (gatherable : List TestCase) (s : S)
    (agg : Agg) (s' : S) (agg' : Agg)
    (h : gatherStage env gelapsed module config ce re gatherable s agg = .inl (s', agg'))
    (hok : resultsOkay agg.results) : resultsOkay agg'.results := by
  unfold gatherStage at h
  split at h
  · cases h; exact hok
  · split at h
    exact processGathered_inl_okay env ce re config hff _ _ _ _ _ h hok

theorem gatherStage_inr_shape (env : TdEnv) (gelapsed : Rat) (module : TestModule)
    (config : RunConfiguration) (ce : List (String × String)) (re : Rat)
    (hff : config.fail_fast = true) (gatherable : List TestCase) (s : S)
    (agg : Agg) (d : S × PyRunReport)
    (h : gatherStage env gelapsed module config ce re gatherable s agg = .inr d)
    (hok : resultsOkay agg.results) :
    ∃ pre r, d.2.results = pre ++ [r] ∧ resultsOkay pre ∧ r.status = "failed" := by
  unfold gatherStage at h
  split at h
  · exact absurd h (by simp)
  · split at h
    exact processGathered_inr_shape env ce re config hff _ _ _ _ h hok

theorem afterGatherStage_invariants (env : TdEnv) (dur : String → Rat)
    (module : TestModule) (config : RunConfiguration)
    (ce : List (String × String)) (re : Rat) (hff : config.fail_fast = true)
    (seqAsync syncTests : List TestCase) (step1 : (S × Agg) ⊕ (S × PyRunReport))
    (hstep_inl : ∀ s' agg', step1 = .inl (s', agg') → resultsOkay agg'.results)
    (hstep_inr : ∀ d', step1 = .inr d' →
      ∃ pre r, d'.2.results = pre ++ [r] ∧ resultsOkay pre ∧ r.status = "failed") :
    (∀ s' agg', afterGatherStage env dur module config ce re seqAsync syncTests step1
        = .inl (s', agg') → resultsOkay agg'.results)
    ∧ (∀ d, afterGatherStage env dur module config ce re seqAsync syncTests step1
        = .inr d →
      ∃ pre r, d.2.results = pre ++ [r] ∧ resultsOkay pre ∧ r.status = "failed") := by
  constructor
  · intro s' agg' h
    unfold afterGatherStage at h
    split at h
    · exact absurd h (by simp)
    next =>
      split at h
      next => exact absurd h (by simp)
      next =>
        rename_i heq2
        split at h
        next => exact absurd h (by simp)
        next =>
          rename_i heq3
          cases h
          exact runTestList_inl_okay true env dur module config ce re hff _ _ _ _ _
            heq3 (runTestList_inl_okay false env dur module config ce re hff _ _ _ _ _
              heq2 (hstep_inl _ _ rfl))
  · intro d h
    unfold afterGatherStage at h
    split at h
    next =>
      cases h
      exact hstep_inr _ rfl
    next =>
      split at h
      next =>
        rename_i heq2
        cases h
        exact runTestList_inr_shape false env dur module config ce re hff _ _ _ _
          heq2 (hstep_inl _ _ rfl)
      next =>
        rename_i heq2
        split at h
        next =>
          rename_i heq3
          cases h
          exact runTestList_inr_shape true env dur module config ce re hff _ _ _ _
            heq3 (runTestList_inl_okay false env dur module config ce re hff _ _ _ _ _
              heq2 (hstep_inl _ _ rfl))
        next => simp at h

theorem runClassGroup_invariants (env : TdEnv) (dur : String → Rat)
    (gelapsed : Rat) (module : TestModule) (config : RunConfiguration)
    (ce : List (String × String)) (re : Rat) (hff : config.fail_fast = true)
    (tests : List TestCase) (s : S) (agg : Agg) (hok : resultsOkay agg.results) :
    (∀ s' agg', runClassGroup env dur gelapsed module config ce re tests s agg
        = .inl (s', agg') → resultsOkay agg'.results)
    ∧ (∀ d, runClassGroup env dur gelapsed module config ce re tests s agg = .inr d →
      ∃ pre r, d.2.results = pre ++ [r] ∧ resultsOkay pre ∧ r.status = "failed") := by
  unfold runClassGroup
  split
  next g sa sy heq =>
    exact afterGatherStage_invariants env dur module config ce re hff sa sy _
      (fun s' agg' h => gatherStage_inl_okay env gelapsed module config ce re hff
        g _ agg _ _ h hok)
      (fun d' h => gatherStage_inr_shape env gelapsed module config ce re hff
        g _ agg _ h hok)

theorem goGroups_invariants (env : TdEnv) (dur : String → Rat) (gelapsed : Rat)
    (config : RunConfiguration) (ce : List (String × String)) (re : Rat)
    (module : TestModule) (hff : config.fail_fast = true) :
    ∀ (groups : List (Option String × List TestCase)) (s : S) (agg : Agg),
      resultsOkay agg.results →
      (∀ s' agg', runModule.goGroups env dur gelapsed config ce re module groups s agg
          = .inl (s', agg') → resultsOkay agg'.results)
      ∧ (∀ d, runModule.goGroups env dur gelapsed config ce re module groups s agg
          = .inr d →
        ∃ pre r, d.2.results = pre ++ [r] ∧ resultsOkay pre ∧ r.status = "failed") := by
  intro groups
  induction groups with
  | nil =>
    intro s agg hok
    constructor
    · intro s' agg' h
      rw [runModule.goGroups] at h
      cases h
      exact hok
    · intro d h
      simp [runModule.goGroups] at h
  | cons g rest ih =>
    intro s agg hok
    constructor
    · intro s' agg' h
      rw [runModule.goGroups] at h
      split at h
      next => exact absurd h (by simp)
      next heq =>
        exact ((ih _ _ ((runClassGroup_invariants env dur gelapsed module config
          ce re hff g.2 s agg hok).1 _ _ heq)).1) _ _ h
    · intro d h
      rw [runModule.goGroups] at h
      split at h
      next heq =>
        cases h
        exact (runClassGroup_invariants env dur gelapsed module config ce re hff
          g.2 s agg hok).2 _ heq
      next heq =>
        exact ((ih _ _ ((runClassGroup_invariants env dur gelapsed module config
          ce re hff g.2 s agg hok).1 _ _ heq)).2) _ h

theorem runModule_invariants (env : TdEnv) (dur : String → Rat) (gelapsed : Rat)
    (config : RunConfiguration) (ce : List (String × String)) (re : Rat)
    (module : TestModule) (hff : config.fail_fast = true) (s : S) (agg : Agg)
    (hok : resultsOkay agg.results) :
    (∀ s' agg', runModule env dur gelapsed config ce re module s agg
        = .inl (s', agg') → resultsOkay agg'.results)
    ∧ (∀ d, runModule env dur gelapsed config ce re module s agg = .inr d →
      ∃ pre r, d.2.results = pre ++ [r] ∧ resultsOkay pre ∧ r.status = "failed") := by
  constructor
  · intro s' agg' h
    unfold runModule at h
    dsimp only at h
    split at h
    next => exact absurd h (by simp)
    next heq =>
      cases h
      exact (goGroups_invariants env dur gelapsed config ce re module hff _ _ _ hok).1
        _ _ heq
  · intro d h
    unfold runModule at h
    dsimp only at h
    split at h
    next heq =>
      cases h
      exact (goGroups_invariants env dur gelapsed config ce re module hff _ _ _ hok).2
        _ heq
    next => simp at h

theorem goModules_invariants (env : TdEnv) (dur : String → Rat) (gelapsed : Rat)
    (ce : List (String × String)) (config : RunConfiguration) (re : Rat)
    (hff : config.fail_fast = true) :
    ∀ (modules : List TestModule) (s : S) (agg : Agg),
      resultsOkay agg.results →
      (∀ s' agg', run_collected_tests.goModules env dur gelapsed ce config re modules s agg
          = .inl (s', agg') → resultsOkay agg'.results)
      ∧ (∀ d, run_collected_tests.goModules env dur gelapsed ce config re modules s agg
          = .inr d →
        ∃ pre r, d.2.results = pre ++ [r] ∧ resultsOkay pre ∧ r.status = "failed") := by
  intro modules
  induction modules with
  | nil =>
    intro s agg hok
    constructor
    · intro s' agg' h
      rw [run_collected_tests.goModules] at h
      cases h
      exact hok
    · intro d h
      simp [run_collected_tests.goModules] at h
  | cons m rest ih =>
    intro s agg hok
    constructor
    · intro s' agg' h
      rw [run_collected_tests.goModules] at h
      split at h
      next => exact absurd h (by simp)
      next heq =>
        exact (ih _ _ ((runModule_invariants env dur gelapsed config ce re m hff
          s agg hok).1 _ _ heq)).1 _ _ h
    · intro d h
      rw [run_collected_tests.goModules] at h
      split at h
      next heq =>
        cases h
        exact (runModule_invariants env dur gelapsed config ce re m hff s agg hok).2
          _ heq
      next heq =>
        exact (ih _ _ ((runModule_invariants env dur gelapsed config ce re m hff
          s agg hok).1 _ _ heq)).2 _ h

theorem failed_is_last (l a pre post : List PyTestResult) (x r : PyTestResult)
    (h1 : l = a ++ [x]) (h2 : l = pre ++ r :: post)
    (ha : resultsOkay a) (hr : r.status = "failed") : post = [] := by
  rcases List.eq_nil_or_concat post with hnil | ⟨post', y, rfl⟩
  · exact hnil
  · exfalso
    have he : a ++ [x] = (pre ++ r :: post') ++ [y] := by
      rw [← h1, h2]
      simp
    have hpre := (List.append_inj' he (by simp)).1
    have hmem : r ∈ a := by
      rw [hpre]
      simp
    exact ha r hmem hr

/-- C6: with fail-fast enabled, the first failed result makes the
orchestrator return at once: the step produces the fail-fast cleanup, whose
appended event tail drains the class, module, package and session teardown
layers in exactly that order, contains no further test activity, and ends
with the last-failed write of the failed ids; the partial report carries
exactly the results produced so far (ending in the failed one), and no test
executes after the first failure — in the final report, a failed result is
always the last result. -/
theorem C6_fail_fast :
    (∀ (env : TdEnv) (ce : List (String × String)) (re : Rat) (s : S) (agg : Agg),
      (failFastCleanup env ce re s agg).1.trace
          = s.trace ++ ffTail env s (failedIds agg.results)
        ∧ (failFastCleanup env ce re s agg).2.results = agg.results)
    ∧ (∀ (env : TdEnv) (s : S) (ids : List String),
        (ffTail env s ids).filter isDrainMark
          = [Ev.drainMark .cls, Ev.drainMark .module, Ev.drainMark .pkg,
              Ev.drainMark .session]
        ∧ (ffTail env s ids).filter isTestEv = []
        ∧ (ffTail env s ids).getLast? = some (Ev.wroteCache ids))
    ∧ (∀ (clearU : Bool) (env : TdEnv) (dur : String → Rat) (module : TestModule)
        (config : RunConfiguration) (ce : List (String × String)) (re : Rat)
        (tc : TestCase) (rest : List TestCase) (s : S) (agg : Agg) (s1 : S)
        (r : PyTestResult),
        config.fail_fast = true →
        run_single_test env dur module tc config s = (s1, r) →
        r.status = "failed" →
        runTestList clearU env dur module config ce re (tc :: rest) s agg
          = .inr (failFastCleanup env ce re (processResult r s1 agg).1
              (processResult r s1 agg).2)
        ∧ (processResult r s1 agg).2.results = agg.results ++ [r])
    ∧ (∀ (env : TdEnv) (dur : String → Rat) (gelapsed : Rat)
        (modules : List TestModule) (ce : List (String × String))
        (config : RunConfiguration) (re : Rat) (s : S) (rep : PyRunReport),
        config.fail_fast = true →
        run_collected_tests env dur gelapsed modules ce config re = (s, rep) →
        ∀ pre r post, rep.results = pre ++ r :: post → r.status = "failed" →
          post = []) := by
  refine ⟨?_, ?_, ?_, ?_⟩
  · intro env ce re s agg
    exact ⟨(failFastCleanup_trace env ce re s agg).1,
      (failFastCleanup_trace env ce re s agg).2.1⟩
  · intro env s ids
    exact ⟨ffTail_drain_order env s ids, ffTail_no_tests env s ids,
      ffTail_last env s ids⟩
  · intro clearU env dur module config ce re tc rest s agg s1 r hff hrun hst
    constructor
    · rw [runTestList, hrun]
      dsimp only
      rw [if_pos ⟨hff, hst⟩]
    · exact processResult_results r s1 agg
  · intro env dur gelapsed modules ce config re s rep hff hrun pre r post hdec hst
    have hok0 : resultsOkay (({} : Agg).results) := by
      intro x hx
      simp at hx
    unfold run_collected_tests at hrun
    split at hrun
    next heq =>
      cases hrun
      rcases (goModules_invariants env dur gelapsed ce config re hff modules {} {}
        hok0).2 _ heq with ⟨a, x, hax, haok, hxf⟩
      exact failed_is_last rep.results a pre post x r hax hdec haok hst
    next heq =>
      cases hrun
      have hok := (goModules_invariants env dur gelapsed ce config re hff modules
        {} {} hok0).1 _ _ heq
      exfalso
      dsimp only at hdec
      have hmem : r ∈ pre ++ r :: post := by simp
      exact hok r (hdec ▸ hmem) hst

def c6tc : TestCase :=
  { name := "f6", display_name := "f6", path := "m.py",
    body := fun _ => { raises := some "AssertionError: boom" } }

def c6mod : TestModule := { path := "m.py", tests := [c6tc] }

/-- Witness for C6 at a concrete failing test under fail-fast. -/
theorem C6_fail_fast_witness :
    runTestList true tdStop durOne c6mod { fail_fast := true } [] 5 [c6tc] {} {}
      = .inr (failFastCleanup tdStop [] 5
          (processResult
            (PyTestResult.failed "f6" "m.py" 1 "AssertionError: boom" none none [])
            ({ trace := [Ev.drainMark .function] } : S) {}).1
          (processResult
            (PyTestResult.failed "f6" "m.py" 1 "AssertionError: boom" none none [])
            ({ trace := [Ev.drainMark .function] } : S) {}).2)
    ∧ (processResult
        (PyTestResult.failed "f6" "m.py" 1 "AssertionError: boom" none none [])
        ({ trace := [Ev.drainMark .function] } : S) {}).2.results
      = ({} : Agg).results
          ++ [PyTestResult.failed "f6" "m.py" 1 "AssertionError: boom" none none []] :=
  C6_fail_fast.2.2.1 true tdStop durOne c6mod { fail_fast := true } [] 5 c6tc []
    {} {} ({ trace := [Ev.drainMark .function] } : S)
    (PyTestResult.failed "f6" "m.py" 1 "AssertionError: boom" none none [])
    rfl rfl rfl

/-! ## Resolver primitives: effect lemmas -/

theorem alGet_alInsert {α : Type} (l : List (String × α)) (k k' : String) (v : α) :
    alGet (alInsert l k v) k' = if k = k' then some v else alGet l k' := by
  induction l with
  | nil =>
    by_cases h : k = k' <;> simp [alInsert, alGet, h]
  | cons p t ih =>
    rcases p with ⟨pk, pv⟩
    by_cases hpk : pk = k
    · subst hpk
      by_cases h : pk = k' <;> simp [alInsert, alGet, h]
    · by_cases h : pk = k'
      · subst h
        have hkk : ¬ k = pk := fun hc => hpk hc.symm
        simp [alInsert, alGet, hpk, hkk]
      · simp [alInsert, alGet, hpk, h, ih]

/-- The caches a probe reads. -/
def cachesOf (st : RSt) :
    List (String × Val) × List (String × Val) × List (String × Val)
      × List (String × Val) × List (String × Val) :=
  (st.function_cache, st.g.ctx.class_cache, st.g.ctx.module_cache,
    st.g.ctx.package_cache, st.g.ctx.session_cache)

theorem probeCaches_congr (st st' : RSt) (h : cachesOf st = cachesOf st')
    (k : String) : probeCaches st k = probeCaches st' k := by
  unfold cachesOf at h
  simp only [Prod.mk.injEq] at h
  obtain ⟨h1, h2, h3, h4, h5⟩ := h
  unfold probeCaches
  rw [h1, h2, h3, h4, h5]

theorem getOrCreateLoop_spec (sc : Scope) (st : RSt) :
    cachesOf (getOrCreateLoop sc st).1 = cachesOf st
    ∧ (getOrCreateLoop sc st).1.stack = st.stack
    ∧ (getOrCreateLoop sc st).1.current_param = st.current_param
    ∧ ∃ extra, (getOrCreateLoop sc st).1.g.trace = st.g.trace ++ extra
        ∧ ∀ e ∈ extra, ∀ n k', e ≠ Ev.invoke n k' := by
  unfold getOrCreateLoop
  cases sc <;> dsimp only
  case session =>
    cases st.g.ctx.session_loop
    · exact ⟨rfl, rfl, rfl, [Ev.loopNew .session st.g.nextLoop], rfl, by simp⟩
    · exact ⟨rfl, rfl, rfl, [], by simp, by simp⟩
  case pkg =>
    cases st.g.ctx.package_loop
    · exact ⟨rfl, rfl, rfl, [Ev.loopNew .pkg st.g.nextLoop], rfl, by simp⟩
    · exact ⟨rfl, rfl, rfl, [], by simp, by simp⟩
  case module =>
    cases st.g.ctx.module_loop
    · exact ⟨rfl, rfl, rfl, [Ev.loopNew .module st.g.nextLoop], rfl, by simp⟩
    · exact ⟨rfl, rfl, rfl, [], by simp, by simp⟩
  case cls =>
    cases st.g.ctx.class_loop
    · exact ⟨rfl, rfl, rfl, [Ev.loopNew .cls st.g.nextLoop], rfl, by simp⟩
    · exact ⟨rfl, rfl, rfl, [], by simp, by simp⟩
  case function =>
    cases st.function_loop
    · exact ⟨rfl, rfl, rfl, [Ev.loopNew .function st.g.nextLoop], rfl, by simp⟩
    · exact ⟨rfl, rfl, rfl, [], by simp, by simp⟩

theorem pushTeardown_spec (sc : Scope) (h : Handle) (st : RSt) :
    cachesOf (pushTeardown sc h st) = cachesOf st
    ∧ (pushTeardown sc h st).stack = st.stack
    ∧ (pushTeardown sc h st).current_param = st.current_param
    ∧ (pushTeardown sc h st).g.trace = st.g.trace := by
  cases sc <;> exact ⟨rfl, rfl, rfl, rfl⟩

theorem probeCaches_eq_none (st : RSt) (k : String) :
    probeCaches st k = none ↔
      alGet st.function_cache k = none
      ∧ alGet st.g.ctx.class_cache k = none
      ∧ alGet st.g.ctx.module_cache k = none
      ∧ alGet st.g.ctx.package_cache k = none
      ∧ alGet st.g.ctx.session_cache k = none := by
  unfold probeCaches
  cases alGet st.function_cache k <;>
    cases alGet st.g.ctx.class_cache k <;>
    cases alGet st.g.ctx.module_cache k <;>
    cases alGet st.g.ctx.package_cache k <;>
    simp

theorem storeCache_trace (sc : Scope) (k : String) (v : Val) (st : RSt) :
    (storeCache sc k v st).g.trace = st.g.trace := by
  cases sc <;> rfl

theorem storeCache_stack (sc : Scope) (k : String) (v : Val) (st : RSt) :
    (storeCache sc k v st).stack = st.stack := by
  cases sc <;> rfl

theorem storeCache_current_param (sc : Scope) (k : String) (v : Val) (st : RSt) :
    (storeCache sc k v st).current_param = st.current_param := by
  cases sc <;> rfl

theorem storeCache_probe_self (sc : Scope) (k : String) (v : Val) (st : RSt)
    (h : probeCaches st k = none) :
    probeCaches (storeCache sc k v st) k = some v := by
  rw [probeCaches_eq_none] at h
  obtain ⟨h1, h2, h3, h4, h5⟩ := h
  cases sc <;>
    · unfold probeCaches storeCache
      dsimp only
      simp [alGet_alInsert, h1, h2, h3, h4, h5]

theorem storeCache_probe_isSome (sc : Scope) (k : String) (v : Val) (st : RSt) :
    (probeCaches (storeCache sc k v st) k).isSome = true := by
  cases sc
  all_goals unfold probeCaches storeCache
  all_goals dsimp only
  case function => simp [alGet_alInsert]
  case cls =>
    cases hf : alGet st.function_cache k <;> simp [alGet_alInsert, hf]
  case module =>
    cases hf : alGet st.function_cache k <;>
      cases hc : alGet st.g.ctx.class_cache k <;>
      simp [alGet_alInsert, hf, hc]
  case pkg =>
    cases hf : alGet st.function_cache k <;>
      cases hc : alGet st.g.ctx.class_cache k <;>
      cases hm : alGet st.g.ctx.module_cache k <;>
      simp [alGet_alInsert, hf, hc, hm]
  case session =>
    cases hf : alGet st.function_cache k <;>
      cases hc : alGet st.g.ctx.class_cache k <;>
      cases hm : alGet st.g.ctx.module_cache k <;>
      cases hp : alGet st.g.ctx.package_cache k <;>
      simp [alGet_alInsert, hf, hc, hm, hp]

theorem storeCache_probe_other (sc : Scope) (k : String) (v : Val) (st : RSt)
    (k' : String) (h : k' ≠ k) :
    probeCaches (storeCache sc k v st) k' = probeCaches st k' := by
  cases sc <;>
    · unfold probeCaches storeCache
      dsimp only
      rw [alGet_alInsert, if_neg (fun hh => h hh.symm)]

theorem invokeFixture_fields (n k : String) (st : RSt) :
    cachesOf (invokeFixture n k st).1 = cachesOf st
    ∧ (invokeFixture n k st).1.stack = st.stack
    ∧ (invokeFixture n k st).1.current_param = st.current_param
    ∧ (invokeFixture n k st).1.g.trace = st.g.trace ++ [Ev.invoke n k] :=
  ⟨rfl, rfl, rfl, rfl⟩

theorem executeFixture_spec (cfg : RCfg) (fx : Fixture) (key : String)
    (st : RSt) :
    (∀ v, (executeFixture cfg fx key st).2 = .ok v → v = Val.fx key st.g.nextId)
    ∧ cachesOf (executeFixture cfg fx key st).1 = cachesOf st
    ∧ (executeFixture cfg fx key st).1.stack = st.stack
    ∧ (executeFixture cfg fx key st).1.current_param = st.current_param
    ∧ ∃ extra, (executeFixture cfg fx key st).1.g.trace
        = st.g.trace ++ [Ev.invoke fx.name key] ++ extra
        ∧ ∀ e ∈ extra, ∀ n k', e ≠ Ev.invoke n k' := by
  have hif := invokeFixture_fields fx.name key st
  unfold executeFixture
  dsimp only
  by_cases h1 : fx.is_async_generator = true
  · rw [if_pos h1]
    obtain ⟨hca, hstk, hcp, extra, htr, hninv⟩ :=
      getOrCreateLoop_spec cfg.test_loop_scope (invokeFixture fx.name key st).1
    cases hro : fx.raisesOn st.g.nextId with
    | some e =>
      refine ⟨fun v hv => Except.noConfusion hv, hca.trans hif.1,
        hstk.trans hif.2.1, hcp.trans hif.2.2.1, extra, ?_, hninv⟩
      rw [htr, hif.2.2.2]
    | none =>
      have hpt := pushTeardown_spec fx.scope
        { key := key, id := st.g.nextId, isAsyncGen := true }
        (getOrCreateLoop cfg.test_loop_scope (invokeFixture fx.name key st).1).1
      refine ⟨fun v hv => by injection hv with h'; exact h'.symm,
        hpt.1.trans (hca.trans hif.1), hpt.2.1.trans (hstk.trans hif.2.1),
        hpt.2.2.1.trans (hcp.trans hif.2.2.1), extra, ?_, hninv⟩
      rw [hpt.2.2.2, htr, hif.2.2.2]
  · rw [if_neg h1]
    by_cases h2 : fx.is_generator = true
    · rw [if_pos h2]
      cases hro : fx.raisesOn st.g.nextId with
      | some e =>
        refine ⟨fun v hv => Except.noConfusion hv, hif.1, hif.2.1,
          hif.2.2.1, [], ?_, by simp⟩
        rw [hif.2.2.2]
        simp
      | none =>
        have hpt := pushTeardown_spec fx.scope
          { key := key, id := st.g.nextId, isAsyncGen := false }
          (invokeFixture fx.name key st).1
        refine ⟨fun v hv => by injection hv with h'; exact h'.symm,
          hpt.1.trans hif.1, hpt.2.1.trans hif.2.1,
          hpt.2.2.1.trans hif.2.2.1, [], ?_, by simp⟩
        rw [hpt.2.2.2, hif.2.2.2]
        simp
    · rw [if_neg h2]
      by_cases h3 : fx.is_async = true
      · rw [if_pos h3]
        obtain ⟨hca, hstk, hcp, extra, htr, hninv⟩ :=
          getOrCreateLoop_spec cfg.test_loop_scope (invokeFixture fx.name key st).1
        cases hro : fx.raisesOn st.g.nextId with
        | some e =>
          refine ⟨fun v hv => Except.noConfusion hv, hca.trans hif.1,
            hstk.trans hif.2.1, hcp.trans hif.2.2.1, extra, ?_, hninv⟩
          rw [htr, hif.2.2.2]
        | none =>
          refine ⟨fun v hv => by injection hv with h'; exact h'.symm,
            hca.trans hif.1, hstk.trans hif.2.1, hcp.trans hif.2.2.1,
            extra, ?_, hninv⟩
          rw [htr, hif.2.2.2]
      · rw [if_neg h3]
        cases hro : fx.raisesOn st.g.nextId with
        | some e =>
          refine ⟨fun v hv => Except.noConfusion hv, hif.1, hif.2.1,
            hif.2.2.1, [], ?_, by simp⟩
          rw [hif.2.2.2]
          simp
        | none =>
          refine ⟨fun v hv => by injection hv with h'; exact h'.symm,
            hif.1, hif.2.1, hif.2.2.1, [], ?_, by simp⟩
          rw [hif.2.2.2]
          simp

/-! ## Substring monotonicity -/

theorem hasInfix_nil (l : List Char) : hasInfix [] l = true := by
  induction l with
  | nil => rfl
  | cons c t ih => simp [hasInfix, List.isPrefixOf]

theorem hasInfix_append_left (a b n : List Char) (h : hasInfix n a = true) :
    hasInfix n (a ++ b) = true := by
  induction a with
  | nil =>
    simp only [hasInfix] at h
    have : n = [] := by simp [List.isEmpty_iff] at h; exact h
    subst this
    exact hasInfix_nil b
  | cons c t ih =>
    simp only [hasInfix, Bool.or_eq_true] at h
    rcases h with h | h
    · rw [List.isPrefixOf_iff_prefix] at h
      show hasInfix n (c :: (t ++ b)) = true
      simp only [hasInfix, Bool.or_eq_true]
      left
      rw [List.isPrefixOf_iff_prefix]
      exact h.trans (List.prefix_append (c :: t) b)
    · exact hasInfix_cons _ _ _ (ih h)

theorem hasInfix_append_right (a b n : List Char) (h : hasInfix n b = true) :
    hasInfix n (a ++ b) = true := by
  induction a with
  | nil => exact h
  | cons c t ih => exact hasInfix_cons _ _ _ ih

theorem strContains_append_left (a b needle : String)
    (h : strContains a needle = true) : strContains (a ++ b) needle = true :=
  hasInfix_append_left a.toList b.toList needle.toList h

theorem strContains_append_right (a b needle : String)
    (h : strContains b needle = true) : strContains (a ++ b) needle = true :=
  hasInfix_append_right a.toList b.toList needle.toList h

theorem strContains_self (s : String) : strContains s s = true :=
  hasInfix_of_isPrefixOf
    (List.isPrefixOf_iff_prefix.mpr (List.prefix_refl s.toList))

/-! ## Resolver trace keys and invariants -/

/-- The cache keys of the `invoke` events of a trace, in order. -/
def tracedKeys (t : List Ev) : List String :=
  t.foldr (fun e acc => match e with | .invoke _ k => k :: acc | _ => acc) []

theorem tracedKeys_append (a b : List Ev) :
    tracedKeys (a ++ b) = tracedKeys a ++ tracedKeys b := by
  induction a with
  | nil => rfl
  | cons e t ih =>
    cases e
    case invoke n k => exact congrArg (fun l => k :: l) ih
    all_goals exact ih

theorem tracedKeys_no_invoke (l : List Ev)
    (h : ∀ e ∈ l, ∀ n k, e ≠ Ev.invoke n k) : tracedKeys l = [] := by
  induction l with
  | nil => rfl
  | cons e t ih =>
    cases e with
    | invoke n k => exact absurd rfl (h _ (by simp) n k)
    | _ => exact ih (fun e he => h e (by simp [he]))

/-- The registry is keyed by fixture name (always true of the
`IndexMap<String, Fixture>` built by collection). -/
def regNamesOK (R : List (String × Fixture)) : Prop :=
  ∀ k f, alGet R k = some f → f.name = k

/-- Every dependency edge of the fixture registered under `n` satisfies the
scope ordering (`dep.scope ≥ f.scope`, i.e. not `scopeGt`). -/
def fixtureEdgesOK (R : List (String × Fixture)) (n : String) : Prop :=
  ∀ f, alGet R n = some f → ∀ d ∈ f.parameters, d ≠ "request" →
    ∀ df, alGet R d = some df → scopeGt f.scope df.scope = false

/-- Every fixture whose callable was invoked in the trace has only
scope-valid dependency edges. -/
def edgesOKTrace (R : List (String × Fixture)) (t : List Ev) : Prop :=
  ∀ n k, Ev.invoke n k ∈ t → fixtureEdgesOK R n

/-- Distinct registered fixture names produce distinct cache keys (true of
sane registries; a fixture literally named `a[0]` could collide with
parametrised fixture `a`). -/
def keyInjective (cfg : RCfg) : Prop :=
  ∀ n1 n2 f1 f2 k p1 p2,
    alGet cfg.fixtures n1 = some f1 → alGet cfg.fixtures n2 = some f2 →
    computeCacheKey cfg n1 = .ok (k, p1) → computeCacheKey cfg n2 = .ok (k, p2) →
    n1 = n2

/-- At-most-once invariant: no cache key was invoked twice, and every
invoked key is still cached in some layer. -/
def ResolveInv (st : RSt) : Prop :=
  (tracedKeys st.g.trace).Nodup
  ∧ ∀ k, k ∈ tracedKeys st.g.trace → (probeCaches st k).isSome = true

/-! ## Step lemmas for `resolveGo` on one argument name -/

theorem resolveGo_one_lit (cfg : RCfg) (fuel : Nat) (name : String) (st : RSt)
    (v : PVal) (h1 : alGet cfg.parameters name = some v)
    (h2 : cfg.indirect_params.contains name = false) :
    resolveGo cfg (fuel + 1) (.one name) st = (st, .ok (.val (.lit v))) := by
  unfold resolveGo
  rw [h1]
  dsimp only
  rw [if_neg (by simpa using h2)]

theorem resolveGo_one_indirect_str (cfg : RCfg) (fuel : Nat) (name : String)
    (st : RSt) (m : String) (h1 : alGet cfg.parameters name = some (.str m))
    (h2 : cfg.indirect_params.contains name = true) :
    resolveGo cfg (fuel + 1) (.one name) st = resolveGo cfg fuel (.one m) st := by
  cases hr : resolveGo cfg fuel (.one m) st with
  | mk st' r =>
    unfold resolveGo
    rw [h1]
    dsimp only
    rw [if_pos h2]
    rw [hr]
    cases r <;> rfl

theorem resolveGo_one_indirect_obj (cfg : RCfg) (fuel : Nat) (name : String)
    (st : RSt) (tag : Nat) (h1 : alGet cfg.parameters name = some (.obj tag))
    (h2 : cfg.indirect_params.contains name = true) :
    resolveGo cfg (fuel + 1) (.one name) st
      = (st, .error "TypeError: indirect parameter value is not a string") := by
  unfold resolveGo
  rw [h1]
  dsimp only
  rw [if_pos h2]

theorem resolveGo_one_request (cfg : RCfg) (fuel : Nat) (st : RSt)
    (h1 : alGet cfg.parameters "request" = none) :
    resolveGo cfg (fuel + 1) (.one "request") st
      = (st, .ok (.val (.request st.current_param))) := by
  unfold resolveGo
  rw [h1]
  dsimp only
  rw [if_pos rfl]

theorem resolveGo_one_keyerr (cfg : RCfg) (fuel : Nat) (name : String)
    (st : RSt) (e : String) (h1 : alGet cfg.parameters name = none)
    (h2 : ¬ name = "request") (h3 : computeCacheKey cfg name = .error e) :
    resolveGo cfg (fuel + 1) (.one name) st = (st, .error e) := by
  unfold resolveGo
  rw [h1]
  dsimp only
  rw [if_neg h2, h3]

theorem resolveGo_one_hit (cfg : RCfg) (fuel : Nat) (name : String)
    (st : RSt) (key : String) (pv : Option PVal) (v : Val)
    (h1 : alGet cfg.parameters name = none) (h2 : ¬ name = "request")
    (h3 : computeCacheKey cfg name = .ok (key, pv))
    (h4 : probeCaches st key = some v) :
    resolveGo cfg (fuel + 1) (.one name) st = (st, .ok (.val v)) := by
  unfold resolveGo
  rw [h1]
  dsimp only
  rw [if_neg h2, h3]
  dsimp only
  rw [h4]

theorem resolveGo_one_unknown (cfg : RCfg) (fuel : Nat) (name : String)
    (st : RSt) (key : String) (pv : Option PVal)
    (h1 : alGet cfg.parameters name = none) (h2 : ¬ name = "request")
    (h3 : computeCacheKey cfg name = .ok (key, pv))
    (h4 : probeCaches st key = none) (h5 : alGet cfg.fixtures name = none) :
    resolveGo cfg (fuel + 1) (.one name) st
      = (st, .error ("Unknown fixture '" ++ name ++ "'.")) := by
  unfold resolveGo
  rw [h1]
  dsimp only
  rw [if_neg h2, h3]
  dsimp only
  rw [h4, h5]

theorem resolveGo_one_cycle (cfg : RCfg) (fuel : Nat) (name : String)
    (st : RSt) (key : String) (pv : Option PVal) (fx : Fixture)
    (h1 : alGet cfg.parameters name = none) (h2 : ¬ name = "request")
    (h3 : computeCacheKey cfg name = .ok (key, pv))
    (h4 : probeCaches st key = none) (h5 : alGet cfg.fixtures name = some fx)
    (h6 : st.stack.contains fx.name = true) :
    resolveGo cfg (fuel + 1) (.one name) st
      = ({ st with current_param := pv },
         .error ("Detected recursive fixture dependency involving '"
           ++ fx.name ++ "'.")) := by
  unfold resolveGo
  rw [h1]
  dsimp only
  rw [if_neg h2, h3]
  dsimp only
  rw [h4, h5]
  dsimp only
  rw [if_pos h6]

theorem resolveGo_one_scopeerr (cfg : RCfg) (fuel : Nat) (name : String)
    (st : RSt) (key : String) (pv : Option PVal) (fx : Fixture) (e : String)
    (h1 : alGet cfg.parameters name = none) (h2 : ¬ name = "request")
    (h3 : computeCacheKey cfg name = .ok (key, pv))
    (h4 : probeCaches st key = none) (h5 : alGet cfg.fixtures name = some fx)
    (h6 : st.stack.contains fx.name = false)
    (h7 : validateScopes cfg fx = .error e) :
    resolveGo cfg (fuel + 1) (.one name) st
      = ({ st with current_param := pv, stack := fx.name :: st.stack },
         .error e) := by
  unfold resolveGo
  rw [h1]
  dsimp only
  rw [if_neg h2, h3]
  dsimp only
  rw [h4, h5]
  dsimp only
  rw [if_neg (by simpa using h6), h7]

theorem resolveGo_one_depserr (cfg : RCfg) (fuel : Nat) (name : String)
    (st : RSt) (key : String) (pv : Option PVal) (fx : Fixture)
    (st3 : RSt) (e : String)
    (h1 : alGet cfg.parameters name = none) (h2 : ¬ name = "request")
    (h3 : computeCacheKey cfg name = .ok (key, pv))
    (h4 : probeCaches st key = none) (h5 : alGet cfg.fixtures name = some fx)
    (h6 : st.stack.contains fx.name = false)
    (h7 : validateScopes cfg fx = .ok ())
    (h8 : resolveGo cfg fuel (.many fx.parameters)
        { st with current_param := pv, stack := fx.name :: st.stack }
      = (st3, .error e)) :
    resolveGo cfg (fuel + 1) (.one name) st = (st3, .error e) := by
  unfold resolveGo
  rw [h1]
  dsimp only
  rw [if_neg h2, h3]
  dsimp only
  rw [h4, h5]
  dsimp only
  rw [if_neg (by simpa using h6), h7]
  dsimp only
  rw [h8]

theorem resolveGo_one_exeerr (cfg : RCfg) (fuel : Nat) (name : String)
    (st : RSt) (key : String) (pv : Option PVal) (fx : Fixture)
    (st3 st4 : RSt) (w : RRes) (e : String)
    (h1 : alGet cfg.parameters name = none) (h2 : ¬ name = "request")
    (h3 : computeCacheKey cfg name = .ok (key, pv))
    (h4 : probeCaches st key = none) (h5 : alGet cfg.fixtures name = some fx)
    (h6 : st.stack.contains fx.name = false)
    (h7 : validateScopes cfg fx = .ok ())
    (h8 : resolveGo cfg fuel (.many fx.parameters)
        { st with current_param := pv, stack := fx.name :: st.stack }
      = (st3, .ok w))
    (h9 : executeFixture cfg fx key st3 = (st4, .error e)) :
    resolveGo cfg (fuel + 1) (.one name) st = (st4, .error e) := by
  unfold resolveGo
  rw [h1]
  dsimp only
  rw [if_neg h2, h3]
  dsimp only
  rw [h4, h5]
  dsimp only
  rw [if_neg (by simpa using h6), h7]
  dsimp only
  rw [h8]
  dsimp only
  rw [h9]

theorem resolveGo_one_main (cfg : RCfg) (fuel : Nat) (name : String)
    (st : RSt) (key : String) (pv : Option PVal) (fx : Fixture)
    (st3 st4 : RSt) (w : RRes) (v : Val)
    (h1 : alGet cfg.parameters name = none) (h2 : ¬ name = "request")
    (h3 : computeCacheKey cfg name = .ok (key, pv))
    (h4 : probeCaches st key = none) (h5 : alGet cfg.fixtures name = some fx)
    (h6 : st.stack.contains fx.name = false)
    (h7 : validateScopes cfg fx = .ok ())
    (h8 : resolveGo cfg fuel (.many fx.parameters)
        { st with current_param := pv, stack := fx.name :: st.stack }
      = (st3, .ok w))
    (h9 : executeFixture cfg fx key st3 = (st4, .ok v)) :
    resolveGo cfg (fuel + 1) (.one name) st
      = (storeCache fx.scope key v { st4 with stack := st4.stack.erase fx.name, current_param := st.current_param },
         .ok (.val v)) := by
  unfold resolveGo
  rw [h1]
  dsimp only
  rw [if_neg h2, h3]
  dsimp only
  rw [h4, h5]
  dsimp only
  rw [if_neg (by simpa using h6), h7]
  dsimp only
  rw [h8]
  dsimp only
  rw [h9]

theorem resolveGo_many_nil (cfg : RCfg) (fuel : Nat) (st : RSt) :
    resolveGo cfg (fuel + 1) (.many []) st = (st, .ok (.vals [])) := rfl

theorem resolveGo_many_headerr (cfg : RCfg) (fuel : Nat) (p : String)
    (ps : List String) (st st1 : RSt) (e : String)
    (h1 : resolveGo cfg fuel (.one p) st = (st1, .error e)) :
    resolveGo cfg (fuel + 1) (.many (p :: ps)) st = (st1, .error e) := by
  unfold resolveGo
  rw [h1]

theorem resolveGo_many_tailerr (cfg : RCfg) (fuel : Nat) (p : String)
    (ps : List String) (st st1 st2 : RSt) (r : RRes) (e : String)
    (h1 : resolveGo cfg fuel (.one p) st = (st1, .ok r))
    (h2 : resolveGo cfg fuel (.many ps) st1 = (st2, .error e)) :
    resolveGo cfg (fuel + 1) (.many (p :: ps)) st = (st2, .error e) := by
  unfold resolveGo
  rw [h1]
  dsimp only
  rw [h2]

/-- The result-shape combination of the dependency loop. -/
def combineRes (r r' : RRes) : Except String RRes :=
  match r, r' with
  | .val v, .vals vs => .ok (.vals (v :: vs))
  | _, _ => .error "internal: resolver result shape"

theorem resolveGo_many_ok (cfg : RCfg) (fuel : Nat) (p : String)
    (ps : List String) (st st1 st2 : RSt) (r r' : RRes)
    (h1 : resolveGo cfg fuel (.one p) st = (st1, .ok r))
    (h2 : resolveGo cfg fuel (.many ps) st1 = (st2, .ok r')) :
    resolveGo cfg (fuel + 1) (.many (p :: ps)) st = (st2, combineRes r r') := by
  unfold resolveGo
  rw [h1]
  dsimp only
  rw [h2]
  cases r <;> cases r' <;> rfl

/-! ## Soundness of the per-dependency scope validation -/

theorem validateScopes_go_sound (cfg : RCfg) (fx : Fixture) :
    ∀ ps, validateScopes.go cfg fx ps = .ok () →
      ∀ d ∈ ps, d ≠ "request" → ∀ df, alGet cfg.fixtures d = some df →
        scopeGt fx.scope df.scope = false := by
  intro ps
  induction ps with
  | nil => intro _ d hd; exact absurd hd (List.not_mem_nil d)
  | cons p pt ih =>
    intro h d hd hreq df hdf
    unfold validateScopes.go at h
    by_cases hp : p = "request"
    · rw [if_pos hp] at h
      rcases List.mem_cons.mp hd with rfl | hd'
      · exact absurd hp hreq
      · exact ih h d hd' hreq df hdf
    · rw [if_neg hp] at h
      cases hal : alGet cfg.fixtures p with
      | none =>
        rw [hal] at h
        rcases List.mem_cons.mp hd with rfl | hd'
        · rw [hal] at hdf
          exact Option.noConfusion hdf
        · exact ih h d hd' hreq df hdf
      | some dep =>
        rw [hal] at h
        unfold validate_scope_dependency at h
        dsimp only at h
        by_cases hgt : scopeGt fx.scope dep.scope = true
        · rw [if_pos hgt] at h
          exact Except.noConfusion h
        · rw [if_neg hgt] at h
          dsimp only at h
          simp only [Bool.not_eq_true] at hgt
          rcases List.mem_cons.mp hd with rfl | hd'
          · rw [hal] at hdf
            injection hdf with hdep
            subst hdep
            exact hgt
          · exact ih h d hd' hreq df hdf

theorem validateScopes_ok_sound (cfg : RCfg) (fx : Fixture)
    (h : validateScopes cfg fx = .ok ()) :
    ∀ d ∈ fx.parameters, d ≠ "request" →
      ∀ df, alGet cfg.fixtures d = some df →
        scopeGt fx.scope df.scope = false :=
  validateScopes_go_sound cfg fx fx.parameters h

/-! ## The resolver run summary relation -/

/-- What any `resolveGo` call guarantees between its entry and exit
states: no cache key is ever invoked twice, and on a successful return the
at-most-once invariant is fully preserved (under key injectivity); caches
only grow, the trace only grows, every newly invoked cache key belongs to
a registered fixture that was not on the entry cycle stack, the stack only
grows, and scope-valid-edges on the trace is preserved.  A failing fixture
body leaves its key invoked but uncached. -/
def RCore (cfg : RCfg) (st st' : RSt) (r : Except String RRes) : Prop :=
  (keyInjective cfg → ResolveInv st →
      (tracedKeys st'.g.trace).Nodup
      ∧ ∀ v, r = .ok v → ResolveInv st')
  ∧ (∀ k, (probeCaches st k).isSome = true → (probeCaches st' k).isSome = true)
  ∧ st.g.trace <+: st'.g.trace
  ∧ (∀ k, k ∈ tracedKeys st'.g.trace → k ∉ tracedKeys st.g.trace →
      ∃ n fx pv, alGet cfg.fixtures n = some fx ∧ ¬ fx.name ∈ st.stack
        ∧ computeCacheKey cfg n = .ok (k, pv))
  ∧ st.stack ⊆ st'.stack
  ∧ (edgesOKTrace cfg.fixtures st.g.trace → edgesOKTrace cfg.fixtures st'.g.trace)

theorem RCore_refl (cfg : RCfg) (st : RSt) (r : Except String RRes) :
    RCore cfg st st r :=
  ⟨fun _ h => ⟨h.1, fun _ _ => h⟩, fun _ h => h, List.prefix_refl _,
    fun k hk hk' => absurd hk hk', fun _ hx => hx, fun h => h⟩

theorem RCore_trans (cfg : RCfg) (st1 st2 st3 : RSt)
    (r1 r2 r : Except String RRes)
    (a : RCore cfg st1 st2 r1) (b : RCore cfg st2 st3 r2)
    (v1 : RRes) (hok1 : r1 = .ok v1)
    (hr : ∀ v, r = .ok v → ∃ v2, r2 = .ok v2) :
    RCore cfg st1 st3 r := by
  obtain ⟨a1, a2, a3, a4, a5, a6⟩ := a
  obtain ⟨b1, b2, b3, b4, b5, b6⟩ := b
  refine ⟨?_, fun k h => b2 k (a2 k h),
    a3.trans b3, ?_, fun x hx => b5 (a5 hx), fun h => b6 (a6 h)⟩
  · intro ki h
    obtain ⟨nd1, oki1⟩ := a1 ki h
    have h2 : ResolveInv st2 := oki1 v1 hok1
    obtain ⟨nd2, oki2⟩ := b1 ki h2
    refine ⟨nd2, fun v hv => ?_⟩
    obtain ⟨v2, hv2⟩ := hr v hv
    exact oki2 v2 hv2
  · intro k hk3 hk1
    by_cases hk2 : k ∈ tracedKeys st2.g.trace
    · exact a4 k hk2 hk1
    · obtain ⟨n, fx, pv, hget, hns, hkey⟩ := b4 k hk3 hk2
      exact ⟨n, fx, pv, hget, fun hmem => hns (a5 hmem), hkey⟩

/-- Pushing onto the cycle stack and setting the current param preserves
the summary relation (no trace or cache effect). -/
theorem RCore_push (cfg : RCfg) (st : RSt) (pv : Option PVal) (n' : String)
    (r : Except String RRes) :
    RCore cfg st { st with current_param := pv, stack := n' :: st.stack } r :=
  ⟨fun _ h => ⟨h.1, fun _ _ => h⟩, fun _ h => h, List.prefix_refl _,
    fun k hk hk' => absurd hk hk',
    fun x hx => List.mem_cons_of_mem _ hx, fun h => h⟩

theorem RCore_param (cfg : RCfg) (st : RSt) (pv : Option PVal)
    (r : Except String RRes) :
    RCore cfg st { st with current_param := pv } r :=
  ⟨fun _ h => ⟨h.1, fun _ _ => h⟩, fun _ h => h, List.prefix_refl _,
    fun k hk hk' => absurd hk hk', fun _ hx => hx, fun h => h⟩

/-- Every `resolveGo` call satisfies the summary relation between entry
and exit states, and restores the cycle stack when it returns `ok`. -/
theorem resolveGo_summary (cfg : RCfg) (hreg : regNamesOK cfg.fixtures) :
    ∀ fuel call st,
      RCore cfg st (resolveGo cfg fuel call st).1 (resolveGo cfg fuel call st).2
      ∧ ∀ v, (resolveGo cfg fuel call st).2 = .ok v →
          (resolveGo cfg fuel call st).1.stack = st.stack := by
  intro fuel
  induction fuel with
  | zero =>
    intro call st
    exact ⟨RCore_refl cfg st _, fun v h => Except.noConfusion h⟩
  | succ fuel ih =>
    intro call st
    cases call with
    | many l =>
      cases l with
      | nil => exact ⟨RCore_refl cfg st _, fun v _ => rfl⟩
      | cons p ps =>
        cases h1 : resolveGo cfg fuel (.one p) st with
        | mk st1 r1 =>
          have IH1 := ih (.one p) st
          rw [h1] at IH1
          dsimp only at IH1
          cases r1 with
          | error e =>
            rw [resolveGo_many_headerr cfg fuel p ps st st1 e h1]
            exact ⟨IH1.1, fun v h => Except.noConfusion h⟩
          | ok r =>
            cases h2 : resolveGo cfg fuel (.many ps) st1 with
            | mk st2 r2 =>
              have IH2 := ih (.many ps) st1
              rw [h2] at IH2
              dsimp only at IH2
              cases r2 with
              | error e =>
                rw [resolveGo_many_tailerr cfg fuel p ps st st1 st2 r e h1 h2]
                exact ⟨RCore_trans cfg st st1 st2 _ _ _ IH1.1 IH2.1 r rfl
                    (fun v hv => Except.noConfusion hv),
                  fun v h => Except.noConfusion h⟩
              | ok r' =>
                rw [resolveGo_many_ok cfg fuel p ps st st1 st2 r r' h1 h2]
                exact ⟨RCore_trans cfg st st1 st2 _ _ _ IH1.1 IH2.1 r rfl
                    (fun v _ => ⟨r', rfl⟩),
                  fun v _ => (IH2.2 r' rfl).trans (IH1.2 r rfl)⟩
    | one name =>
      cases hp : alGet cfg.parameters name with
      | some v =>
        by_cases hind : cfg.indirect_params.contains name = true
        · cases v with
          | str m =>
            rw [resolveGo_one_indirect_str cfg fuel name st m hp hind]
            exact ih (.one m) st
          | obj tag =>
            rw [resolveGo_one_indirect_obj cfg fuel name st tag hp hind]
            exact ⟨RCore_refl cfg st _, fun v h => Except.noConfusion h⟩
        · have hind' : cfg.indirect_params.contains name = false := by
            cases hc : cfg.indirect_params.contains name
            · rfl
            · exact absurd hc hind
          rw [resolveGo_one_lit cfg fuel name st v hp hind']
          exact ⟨RCore_refl cfg st _, fun v _ => rfl⟩
      | none =>
        by_cases hreq : name = "request"
        · subst hreq
          rw [resolveGo_one_request cfg fuel st hp]
          exact ⟨RCore_refl cfg st _, fun v _ => rfl⟩
        · cases hkey : computeCacheKey cfg name with
          | error e =>
            rw [resolveGo_one_keyerr cfg fuel name st e hp hreq hkey]
            exact ⟨RCore_refl cfg st _, fun v h => Except.noConfusion h⟩
          | ok kp =>
            cases kp with
            | mk key pv =>
              cases hprobe : probeCaches st key with
              | some v =>
                rw [resolveGo_one_hit cfg fuel name st key pv v hp hreq hkey
                  hprobe]
                exact ⟨RCore_refl cfg st _, fun v _ => rfl⟩
              | none =>
                cases hfx : alGet cfg.fixtures name with
                | none =>
                  rw [resolveGo_one_unknown cfg fuel name st key pv hp hreq
                    hkey hprobe hfx]
                  exact ⟨RCore_refl cfg st _, fun v h => Except.noConfusion h⟩
                | some fx =>
                  cases hstk : st.stack.contains fx.name with
                  | true =>
                    rw [resolveGo_one_cycle cfg fuel name st key pv fx hp hreq
                      hkey hprobe hfx hstk]
                    exact ⟨RCore_param cfg st pv _,
                      fun v h => Except.noConfusion h⟩
                  | false =>
                    cases hv : validateScopes cfg fx with
                    | error e =>
                      rw [resolveGo_one_scopeerr cfg fuel name st key pv fx e
                        hp hreq hkey hprobe hfx hstk hv]
                      exact ⟨RCore_push cfg st pv fx.name _,
                        fun v h => Except.noConfusion h⟩
                    | ok u =>
                      cases u
                      cases h8 : resolveGo cfg fuel (.many fx.parameters) { st with current_param := pv, stack := fx.name :: st.stack } with
                      | mk st3 r3 =>
                        have IH3 := ih (.many fx.parameters) { st with current_param := pv, stack := fx.name :: st.stack }
                        rw [h8] at IH3
                        dsimp only at IH3
                        cases r3 with
                        | error e =>
                          rw [resolveGo_one_depserr cfg fuel name st key pv fx
                            st3 e hp hreq hkey hprobe hfx hstk hv h8]
                          exact ⟨RCore_trans cfg st _ st3 (.ok (RRes.vals []))
                              (.error e) (.error e)
                              (RCore_push cfg st pv fx.name (.ok (RRes.vals [])))
                              IH3.1 (RRes.vals []) rfl
                              (fun v hv => Except.noConfusion hv),
                            fun v h => Except.noConfusion h⟩
                        | ok w =>
                          cases h9 : executeFixture cfg fx key st3 with
                          | mk st4 res4 =>
                            have hspec := executeFixture_spec cfg fx key st3
                            rw [h9] at hspec
                            dsimp only at hspec
                            obtain ⟨_, hca, hstk4, hcp4, extra, htr4, hninv⟩ :=
                              hspec
                            have hC : RCore cfg st st3 (.ok w) :=
                              RCore_trans cfg st _ st3 (.ok w) (.ok w) (.ok w)
                                (RCore_push cfg st pv fx.name (.ok w)) IH3.1 w
                                rfl (fun v _ => ⟨w, rfl⟩)
                            have hstack3 : st3.stack = fx.name :: st.stack :=
                              IH3.2 w rfl
                            have hnmem : ¬ fx.name ∈ st.stack := by
                              simpa using hstk
                            have hkeys4 : tracedKeys st4.g.trace
                                = tracedKeys st3.g.trace ++ [key] := by
                              rw [htr4, tracedKeys_append, tracedKeys_append,
                                tracedKeys_no_invoke extra hninv]
                              simp [tracedKeys]
                            have hnotin : keyInjective cfg → ResolveInv st →
                                key ∉ tracedKeys st3.g.trace := by
                              intro hKI hInv hmem
                              by_cases hpre : key ∈ tracedKeys st.g.trace
                              · have hsome := hInv.2 key hpre
                                rw [hprobe] at hsome
                                exact Bool.noConfusion hsome
                              · obtain ⟨n', fx', pv', hget', hns', hkey'⟩ :=
                                  IH3.1.2.2.2.1 key hmem hpre
                                have hn : n' = name :=
                                  hKI n' name fx' fx key pv' pv hget' hfx
                                    hkey' hkey
                                subst hn
                                rw [hfx] at hget'
                                injection hget' with hfe
                                subst hfe
                                exact hns' (List.mem_cons_self _ _)
                            have hedge4 : edgesOKTrace cfg.fixtures st.g.trace →
                                edgesOKTrace cfg.fixtures st4.g.trace := by
                              intro hedges n k hmem
                              rw [htr4] at hmem
                              rcases List.mem_append.mp hmem with hmem' | hextra
                              · rcases List.mem_append.mp hmem' with h3 | hinv
                                · exact hC.2.2.2.2.2 hedges n k h3
                                · rw [List.mem_singleton] at hinv
                                  injection hinv with hn hk'
                                  subst hn
                                  intro f hf d hd hdreq df hdf
                                  have hname : fx.name = name := hreg name fx hfx
                                  rw [hname, hfx] at hf
                                  injection hf with hffx
                                  subst hffx
                                  exact validateScopes_ok_sound cfg fx hv d hd
                                    hdreq df hdf
                              · exact absurd rfl (hninv _ hextra n k)
                            have hnew4 : ∀ k, k ∈ tracedKeys st4.g.trace →
                                k ∉ tracedKeys st.g.trace →
                                ∃ n fx' pv', alGet cfg.fixtures n = some fx'
                                  ∧ ¬ fx'.name ∈ st.stack
                                  ∧ computeCacheKey cfg n = .ok (k, pv') := by
                              intro k hkmem hknot
                              rw [hkeys4] at hkmem
                              rcases List.mem_append.mp hkmem with hk3 | hk1
                              · exact hC.2.2.2.1 k hk3 hknot
                              · rw [List.mem_singleton] at hk1
                                subst hk1
                                exact ⟨name, fx, pv, hfx, hnmem, hkey⟩
                            cases res4 with
                            | error e =>
                              rw [resolveGo_one_exeerr cfg fuel name st key pv
                                fx st3 st4 w e hp hreq hkey hprobe hfx hstk hv
                                h8 h9]
                              dsimp only
                              refine ⟨⟨?_, ?_, ?_, hnew4, ?_, hedge4⟩,
                                fun v h => Except.noConfusion h⟩
                              · intro hKI hInv
                                obtain ⟨nd3, oki3⟩ := hC.1 hKI hInv
                                have hInv3 : ResolveInv st3 := oki3 w rfl
                                refine ⟨?_, fun v hv => Except.noConfusion hv⟩
                                rw [hkeys4, List.nodup_append]
                                refine ⟨hInv3.1, List.nodup_singleton key, ?_⟩
                                intro a ha hb
                                rw [List.mem_singleton] at hb
                                subst hb
                                exact hnotin hKI hInv ha
                              · intro k hk
                                rw [probeCaches_congr st4 st3 hca k]
                                exact hC.2.1 k hk
                              · rw [htr4, List.append_assoc]
                                exact hC.2.2.1.trans (List.prefix_append _ _)
                              · rw [hstk4, hstack3]
                                exact fun x hx => List.mem_cons_of_mem _ hx
                            | ok v =>
                              rw [resolveGo_one_main cfg fuel name st key pv
                                fx st3 st4 w v hp hreq hkey hprobe hfx hstk hv
                                h8 h9]
                              dsimp only
                              have htrace' : (storeCache fx.scope key v { st4 with stack := st4.stack.erase fx.name, current_param := st.current_param }).g.trace
                                  = st3.g.trace ++ [Ev.invoke fx.name key]
                                      ++ extra :=
                                (storeCache_trace _ _ _ _).trans htr4
                              have hkeys' : tracedKeys (storeCache fx.scope key v { st4 with stack := st4.stack.erase fx.name, current_param := st.current_param }).g.trace
                                  = tracedKeys st3.g.trace ++ [key] := by
                                rw [htrace', tracedKeys_append,
                                  tracedKeys_append,
                                  tracedKeys_no_invoke extra hninv]
                                simp [tracedKeys]
                              have hcache' : ∀ k', k' ≠ key →
                                  probeCaches (storeCache fx.scope key v { st4 with stack := st4.stack.erase fx.name, current_param := st.current_param }) k'
                                  = probeCaches st3 k' := fun k' hk' =>
                                (storeCache_probe_other _ _ _ _ _ hk').trans
                                  (probeCaches_congr _ st3 hca k')
                              have hstack' : (storeCache fx.scope key v { st4 with stack := st4.stack.erase fx.name, current_param := st.current_param }).stack
                                  = st.stack := by
                                rw [storeCache_stack]
                                show st4.stack.erase fx.name = st.stack
                                rw [hstk4, hstack3, List.erase_cons_head]
                              refine ⟨⟨?_, ?_, ?_, ?_, ?_, ?_⟩,
                                fun v' _ => hstack'⟩
                              · intro hKI hInv
                                obtain ⟨nd3, oki3⟩ := hC.1 hKI hInv
                                have hInv3 : ResolveInv st3 := oki3 w rfl
                                have hnd : (tracedKeys (storeCache fx.scope key v { st4 with stack := st4.stack.erase fx.name, current_param := st.current_param }).g.trace).Nodup := by
                                  rw [hkeys', List.nodup_append]
                                  refine ⟨hInv3.1, List.nodup_singleton key, ?_⟩
                                  intro a ha hb
                                  rw [List.mem_singleton] at hb
                                  subst hb
                                  exact hnotin hKI hInv ha
                                refine ⟨hnd, fun v' _ => ⟨hnd, ?_⟩⟩
                                intro k hkmem
                                rw [hkeys'] at hkmem
                                by_cases hkk : k = key
                                · subst hkk
                                  exact storeCache_probe_isSome _ _ _ _
                                · rcases List.mem_append.mp hkmem with hk3 | hk1
                                  · rw [hcache' k hkk]
                                    exact hInv3.2 k hk3
                                  · rw [List.mem_singleton] at hk1
                                    exact absurd hk1 hkk
                              · intro k hk
                                by_cases hkk : k = key
                                · subst hkk
                                  exact storeCache_probe_isSome _ _ _ _
                                · rw [hcache' k hkk]
                                  exact hC.2.1 k hk
                              · rw [htrace', List.append_assoc]
                                exact hC.2.2.1.trans (List.prefix_append _ _)
                              · intro k hkmem hknot
                                rw [hkeys'] at hkmem
                                rcases List.mem_append.mp hkmem with hk3 | hk1
                                · exact hC.2.2.2.1 k hk3 hknot
                                · rw [List.mem_singleton] at hk1
                                  subst hk1
                                  exact ⟨name, fx, pv, hfx, hnmem, hkey⟩
                              · rw [hstack']
                                exact fun x hx => hx
                              · intro hedges n k hmem
                                rw [htrace'] at hmem
                                rcases List.mem_append.mp hmem with hmem' | hextra
                                · rcases List.mem_append.mp hmem' with h3 | hinv
                                  · exact hC.2.2.2.2.2 hedges n k h3
                                  · rw [List.mem_singleton] at hinv
                                    injection hinv with hn hk'
                                    subst hn
                                    intro f hf d hd hdreq df hdf
                                    have hname : fx.name = name :=
                                      hreg name fx hfx
                                    rw [hname, hfx] at hf
                                    injection hf with hffx
                                    subst hffx
                                    exact validateScopes_ok_sound cfg fx hv d
                                      hd hdreq df hdf
                                · exact absurd rfl (hninv _ hextra n k)

/-! ## C1: scope ordering of fixture dependencies -/

/-- A function-scoped fixture with no dependencies. -/
def c1fxX : Fixture := { name := "x", parameters := [], scope := .function }

/-- A session-scoped fixture depending on the function-scoped `c`. -/
def c1fxB : Fixture := { name := "b", parameters := ["c"], scope := .session }

/-- A function-scoped fixture with no dependencies. -/
def c1fxC : Fixture := { name := "c", parameters := [], scope := .function }

/-- Resolver configuration over the registry `x, b, c` with no
parametrisation. -/
def c1cfg : RCfg :=
  { fixtures := [("x", c1fxX), ("b", c1fxB), ("c", c1fxC)]
    parameters := []
    fixture_param_indices := []
    indirect_params := []
    test_class_name := none
    test_loop_scope := .function }

theorem c1reg_ok : regNamesOK c1cfg.fixtures := by
  intro k f h
  simp only [c1cfg, alGet] at h
  split at h
  · next hxk =>
    injection h with h'
    subst h'
    exact hxk
  · split at h
    · next _ hbk =>
      injection h with h'
      subst h'
      exact hbk
    · split at h
      · next _ _ hck =>
        injection h with h'
        subst h'
        exact hck
      · exact Option.noConfusion h

theorem c1edges_nil : edgesOKTrace c1cfg.fixtures ([] : List Ev) :=
  fun n k h => absurd h (List.not_mem_nil _)

/-- C1 counterexample: resolving `["x", "b"]` over the registry where the
session-scoped `b` depends on the function-scoped `c` does raise the
`ScopeMismatch` planning error, but only after the fixture body of `x` has
already been invoked — the error does not surface before any fixture body
runs, and the message wording differs from the spec's quoted format. -/
theorem C1_counterexample :
    (resolveGo c1cfg 10 (.many ["x", "b"]) { g := {} }).1.g.trace
      = [Ev.invoke "x" "x"]
    ∧ (resolveGo c1cfg 10 (.many ["x", "b"]) { g := {} }).2
      = .error ("ScopeMismatch: Fixture 'b' (scope: Session) cannot depend "
          ++ "on 'c' (scope: Function). A fixture can only depend on "
          ++ "fixtures with equal or broader scope.") := by
  exact ⟨by decide, rfl⟩

/-- The resolver configuration `execute_test_case` builds for a test (its
`let cfg := mkRCfg …` binding, `src/execution.rs:1296`). -/
def testCfg (module : TestModule) (tc : TestCase) : RCfg :=
  mkRCfg module.fixtures tc (determine_test_loop_scope tc module.fixtures)

/-- The fuel `execute_test_case` hands the resolver. -/
def testFuel (module : TestModule) (tc : TestCase) : Nat :=
  resolverFuel (testCfg module tc)

/-- C1 (amended): (i) a dependency edge from a fixture to a strictly
narrower-scoped dependency fails `validate_scope_dependency` with the
`ScopeMismatch` message naming both fixtures and both scopes, and an edge
to an equal-or-broader dependency passes; (ii) in every run (successful or
not), every fixture whose body was invoked has only scope-valid dependency
edges to registered fixtures; (iii) when scope validation of a fixture
fails, `resolve_argument` returns that error without invoking the
offending fixture's body — the state keeps its trace unchanged; (iv) a
fixture-resolution error of the test's parameters makes
`execute_test_case` fail with exactly that message; (v) for a test with no
skip reason, any `execute_test_case` failure whose message is not a skip
signal is reported as a `failed` result carrying the message — so the
affected test of a `ScopeMismatch` planning error is reported failed. -/
theorem C1_scope_ordering :
    (∀ fx dep : Fixture, scopeGt fx.scope dep.scope = true →
      validate_scope_dependency fx dep = .error (scopeMismatchMsg fx dep)
      ∧ strContains (scopeMismatchMsg fx dep) "ScopeMismatch" = true
      ∧ strContains (scopeMismatchMsg fx dep) fx.name = true
      ∧ strContains (scopeMismatchMsg fx dep) dep.name = true
      ∧ strContains (scopeMismatchMsg fx dep) (scopeDebug fx.scope) = true
      ∧ strContains (scopeMismatchMsg fx dep) (scopeDebug dep.scope) = true
      ∧ strContains (scopeMismatchMsg fx dep) "cannot depend on" = true)
    ∧ (∀ fx dep : Fixture, scopeGt fx.scope dep.scope = false →
      validate_scope_dependency fx dep = .ok ())
    ∧ (∀ cfg : RCfg, regNamesOK cfg.fixtures → ∀ fuel call st,
      edgesOKTrace cfg.fixtures st.g.trace →
      edgesOKTrace cfg.fixtures (resolveGo cfg fuel call st).1.g.trace)
    ∧ (∀ (cfg : RCfg) (fuel : Nat) (name : String) (st : RSt) (key : String)
        (pv : Option PVal) (fx : Fixture) (e : String),
      alGet cfg.parameters name = none → ¬ name = "request" →
      computeCacheKey cfg name = .ok (key, pv) →
      probeCaches st key = none → alGet cfg.fixtures name = some fx →
      st.stack.contains fx.name = false →
      validateScopes cfg fx = .error e →
      resolveGo cfg (fuel + 1) (.one name) st
        = ({ st with current_param := pv, stack := fx.name :: st.stack },
           .error e))
    ∧ (∀ (env : TdEnv) (module : TestModule) (tc : TestCase)
        (config : RunConfiguration) (s : S) (st1 st2 : RSt) (e : String),
      validate_loop_scope_compatibility tc module.fixtures = none →
      resolveAutouse (testCfg module tc) (testFuel module tc) { g := s }
        = (st1, .ok ()) →
      resolveUsefixtures (testCfg module tc) (testFuel module tc) tc.marks st1
        = (st2, .ok ()) →
      (resolveGo (testCfg module tc) (testFuel module tc)
          (.many tc.parameters) st2).2 = .error e →
      (execute_test_case env module tc config s).2
        = .error { message := e, stdout := none, stderr := none }
      ∧ (execute_test_case env module tc config s).1
        = (resolveGo (testCfg module tc) (testFuel module tc)
            (.many tc.parameters) st2).1.g)
    ∧ (∀ (env : TdEnv) (dur : String → Rat) (module : TestModule)
        (tc : TestCase) (config : RunConfiguration) (s s' : S)
        (failure : TestCallFailure),
      tc.skip_reason = none →
      execute_test_case env module tc config s = (s', .error failure) →
      is_skip_exception failure.message = false →
      run_single_test env dur module tc config s
        = (s', PyTestResult.failed tc.display_name (to_relative_path tc.path)
            (dur tc.display_name) failure.message failure.stdout
            failure.stderr (mark_names tc))) := by
  refine ⟨?_, ?_, ?_, ?_, ?_, ?_⟩
  · intro fx dep hgt
    refine ⟨?_, ?_, ?_, ?_, ?_, ?_, ?_⟩
    · unfold validate_scope_dependency
      rw [if_pos hgt]
    · unfold scopeMismatchMsg
      repeat apply strContains_append_left
      decide
    · unfold scopeMismatchMsg
      apply strContains_append_left
      apply strContains_append_left
      apply strContains_append_left
      apply strContains_append_left
      apply strContains_append_left
      apply strContains_append_left
      apply strContains_append_left
      apply strContains_append_right
      exact strContains_self _
    · unfold scopeMismatchMsg
      apply strContains_append_left
      apply strContains_append_left
      apply strContains_append_left
      apply strContains_append_right
      exact strContains_self _
    · unfold scopeMismatchMsg
      apply strContains_append_left
      apply strContains_append_left
      apply strContains_append_left
      apply strContains_append_left
      apply strContains_append_left
      apply strContains_append_right
      exact strContains_self _
    · unfold scopeMismatchMsg
      apply strContains_append_left
      apply strContains_append_right
      exact strContains_self _
    · unfold scopeMismatchMsg
      apply strContains_append_left
      apply strContains_append_left
      apply strContains_append_left
      apply strContains_append_left
      apply strContains_append_right
      decide
  · intro fx dep hgt
    unfold validate_scope_dependency
    rw [if_neg (by simp [hgt])]
  · intro cfg hreg fuel call st h
    exact (resolveGo_summary cfg hreg fuel call st).1.2.2.2.2.2 h
  · intro cfg fuel name st key pv fx e h1 h2 h3 h4 h5 h6 h7
    exact resolveGo_one_scopeerr cfg fuel name st key pv fx e h1 h2 h3 h4 h5
      h6 h7
  · intro env module tc config s st1 st2 e hval hA hU hR
    unfold testFuel testCfg at hA hU hR ⊢
    cases hRR : resolveGo
        (mkRCfg module.fixtures tc (determine_test_loop_scope tc module.fixtures))
        (resolverFuel (mkRCfg module.fixtures tc
          (determine_test_loop_scope tc module.fixtures)))
        (.many tc.parameters) st2 with
    | mk st3 r3 =>
      rw [hRR] at hR
      dsimp only at hR
      subst hR
      unfold execute_test_case
      rw [hval]
      dsimp only
      rw [hA]
      dsimp only
      rw [hU]
      dsimp only
      rw [hRR]
      exact ⟨rfl, rfl⟩
  · intro env dur module tc config s s' failure hskip hexec hns
    unfold run_single_test
    rw [hskip]
    dsimp only
    rw [hexec]
    dsimp only
    rw [if_neg (by simp [hns])]

/-- The module of the C1 scenario: registry `x, b, c`. -/
def c1mod : TestModule :=
  { path := "m.py", fixtures := [("x", c1fxX), ("b", c1fxB), ("c", c1fxC)] }

/-- A test whose parameters are `x` then `b`. -/
def c1tc : TestCase :=
  { name := "t1", display_name := "t1", path := "m.py",
    parameters := ["x", "b"] }

set_option maxRecDepth 8000 in
/-- C1 witness: the amended properties evaluated on the concrete registry
of the counterexample, through to the failed test report. -/
theorem C1_scope_ordering_witness :
    validate_scope_dependency c1fxB c1fxC
      = .error (scopeMismatchMsg c1fxB c1fxC)
    ∧ validate_scope_dependency c1fxC c1fxB = .ok ()
    ∧ edgesOKTrace c1cfg.fixtures
        (resolveGo c1cfg 10 (.many ["x", "b"]) { g := {} }).1.g.trace
    ∧ resolveGo c1cfg (9 + 1) (.one "b") { g := {} }
      = ({ g := {}, current_param := none, stack := ["b"] },
         .error (scopeMismatchMsg c1fxB c1fxC))
    ∧ (execute_test_case tdStop c1mod c1tc {} {}).2
      = .error { message := scopeMismatchMsg c1fxB c1fxC, stdout := none, stderr := none }
    ∧ (run_single_test tdStop durOne c1mod c1tc {} {}).2.status = "failed"
    ∧ (run_single_test tdStop durOne c1mod c1tc {} {}).2.message
      = some (scopeMismatchMsg c1fxB c1fxC) := by
  have T := C1_scope_ordering
  have h5 := T.2.2.2.2.1 tdStop c1mod c1tc {} {} { g := {} } { g := {} }
    (scopeMismatchMsg c1fxB c1fxC) rfl rfl rfl (by rfl)
  have hexec : execute_test_case tdStop c1mod c1tc {} {}
      = ((resolveGo (testCfg c1mod c1tc) (testFuel c1mod c1tc)
            (.many c1tc.parameters) { g := {} }).1.g,
         .error { message := scopeMismatchMsg c1fxB c1fxC, stdout := none, stderr := none }) :=
    Prod.ext_iff.mpr ⟨h5.2, h5.1⟩
  have h6 := T.2.2.2.2.2 tdStop durOne c1mod c1tc {} {} _ _ rfl hexec
    (by decide)
  refine ⟨(T.1 c1fxB c1fxC (by decide)).1,
    T.2.1 c1fxC c1fxB (by decide),
    T.2.2.1 c1cfg c1reg_ok 10 (.many ["x", "b"]) { g := {} } c1edges_nil,
    T.2.2.2.1 c1cfg 9 "b" { g := {} } "b" none c1fxB
      (scopeMismatchMsg c1fxB c1fxC) rfl (by decide) rfl rfl rfl rfl rfl,
    h5.1, ?_, ?_⟩
  · rw [h6]
    rfl
  · rw [h6]
    rfl

/-! ## C2: at-most-one construction per cache key -/

theorem c1keyinj : keyInjective c1cfg := by
  intro n1 n2 f1 f2 k p1 p2 h1 h2 hk1 hk2
  have e1 : computeCacheKey c1cfg n1 = .ok (n1, none) := rfl
  have e2 : computeCacheKey c1cfg n2 = .ok (n2, none) := rfl
  rw [e1] at hk1
  rw [e2] at hk2
  injection hk1 with hq1
  injection hk2 with hq2
  have hn1 : n1 = k := congrArg Prod.fst hq1
  have hn2 : n2 = k := congrArg Prod.fst hq2
  exact hn1.trans hn2.symm

/-- A session-scoped fixture whose body raises on every invocation. -/
def c2fxS : Fixture :=
  { name := "sf", parameters := [], scope := .session,
    raisesOn := fun _ => some "boom" }

/-- Resolver configuration over the registry holding only `sf`. -/
def c2cfg : RCfg :=
  { fixtures := [("sf", c2fxS)]
    parameters := []
    fixture_param_indices := []
    indirect_params := []
    test_class_name := none
    test_loop_scope := .function }

/-- C2 counterexample: a session-scoped fixture whose body raises caches
nothing, so the next test's resolver (fresh per-test state over the same
shared context, as `execute_test_case` builds it — no teardown ran, so the
session lifetime is still the same) invokes the very same cache key a
second time: the callable runs twice within one contiguous session
lifetime, refuting "invoked exactly once". -/
theorem C2_counterexample :
    tracedKeys (resolveGo c2cfg 10 (.one "sf")
        { g := (resolveGo c2cfg 10 (.one "sf") { g := {} }).1.g }).1.g.trace
      = ["sf", "sf"]
    ∧ (resolveGo c2cfg 10 (.one "sf") { g := {} }).2 = .error "boom"
    ∧ (resolveGo c2cfg 10 (.one "sf")
        { g := (resolveGo c2cfg 10 (.one "sf") { g := {} }).1.g }).2
      = .error "boom"
    ∧ ((resolveGo c2cfg 10 (.one "sf")
        { g := (resolveGo c2cfg 10 (.one "sf") { g := {} }).1.g }).1.g.trace.filter
          (fun e => match e with | .drainMark _ => true | _ => false)) = [] := by
  exact ⟨by decide, rfl, rfl, by decide⟩

/-- C2 (amended): within one resolution call no cache key is ever invoked
twice (starting from a state where no traced key is duplicated and every
traced key is still cached); a resolution that returns `ok` leaves every
invoked key stored in the cache layer of its fixture's scope, and a later
resolution of a cached key returns the cached value with the state
untouched — no re-invocation.  A fixture whose body raises, however,
caches nothing and is re-invoked by the next test's resolver inside the
same scope lifetime (see the counterexample), so "exactly once per
lifetime" holds only for fixtures whose construction succeeds.
Assumes the registry maps names to fixtures bearing those names and that
distinct fixture names yield distinct cache keys. -/
theorem C2_at_most_once (cfg : RCfg) (hreg : regNamesOK cfg.fixtures)
    (hKI : keyInjective cfg) (fuel : Nat) (call : RCall) (st : RSt)
    (hinv : ResolveInv st) :
    (tracedKeys (resolveGo cfg fuel call st).1.g.trace).Nodup
    ∧ (∀ k, ((tracedKeys (resolveGo cfg fuel call st).1.g.trace).count k) ≤ 1)
    ∧ (∀ v, (resolveGo cfg fuel call st).2 = .ok v →
        ResolveInv (resolveGo cfg fuel call st).1)
    ∧ (∀ (fuel' : Nat) (name key : String) (pv : Option PVal) (v : Val),
        alGet cfg.parameters name = none → ¬ name = "request" →
        computeCacheKey cfg name = .ok (key, pv) →
        probeCaches st key = some v →
        resolveGo cfg (fuel' + 1) (.one name) st = (st, .ok (.val v))) := by
  have h := (resolveGo_summary cfg hreg fuel call st).1.1 hKI hinv
  exact ⟨h.1, fun k => List.nodup_iff_count_le_one.mp h.1 k, h.2,
    fun fuel' name key pv v h1 h2 h3 h4 =>
      resolveGo_one_hit cfg fuel' name st key pv v h1 h2 h3 h4⟩

/-- Entry state of the C2 witness: the key `x` already cached in the
function layer, nothing traced yet. -/
def c2st : RSt := { g := {}, function_cache := [("x", Val.fx "x" 0)] }

/-- C2 witness: the amended properties over a full resolution of
`["x", "b", "c"]` on the concrete registry, from a state caching `x`. -/
theorem C2_at_most_once_witness :
    (tracedKeys (resolveGo c1cfg 10 (.many ["x", "b", "c"]) c2st).1.g.trace).Nodup
    ∧ resolveGo c1cfg (9 + 1) (.one "x") c2st = (c2st, .ok (.val (Val.fx "x" 0))) := by
  have T := C2_at_most_once c1cfg c1reg_ok c1keyinj 10 (.many ["x", "b", "c"])
    c2st ⟨List.nodup_nil, fun k hk => absurd hk (List.not_mem_nil _)⟩
  exact ⟨T.1, T.2.2.2 9 "x" "x" none (Val.fx "x" 0) rfl (by decide) rfl rfl⟩

/-! ## C4: soundness of the loop-scope DFS (`analyze_fixture_scope`) -/

/-- Summary of one `analyzeGo` walk: the visited set grows, the widest
scope only widens, and every newly visited registered fixture both
contributed its scope (if async) and had its dependencies visited. -/
def AGood (R : List (String × Fixture)) (w : Scope) (vis : List String)
    (w' : Scope) (vis' : List String) : Prop :=
  vis ⊆ vis'
  ∧ scopeOrder w ≤ scopeOrder w'
  ∧ ∀ n, n ∈ vis' → n ∉ vis → ∀ f, alGet R n = some f →
      ((f.is_async || f.is_async_generator) = true →
        scopeOrder f.scope ≤ scopeOrder w')
      ∧ ∀ d ∈ f.parameters, d ∈ vis'

theorem AGood_refl (R : List (String × Fixture)) (w : Scope)
    (vis : List String) : AGood R w vis w vis :=
  ⟨fun _ hx => hx, Nat.le_refl _, fun n _ hn2 => absurd (by assumption) hn2⟩

theorem AGood_trans (R : List (String × Fixture)) (w1 : Scope)
    (v1 : List String) (w2 : Scope) (v2 : List String) (w3 : Scope)
    (v3 : List String) (a : AGood R w1 v1 w2 v2) (b : AGood R w2 v2 w3 v3) :
    AGood R w1 v1 w3 v3 := by
  obtain ⟨a1, a2, a3⟩ := a
  obtain ⟨b1, b2, b3⟩ := b
  refine ⟨fun x hx => b1 (a1 hx), a2.trans b2, ?_⟩
  intro n hn3 hn1 f hf
  by_cases hn2 : n ∈ v2
  · obtain ⟨ha, hd⟩ := a3 n hn2 hn1 f hf
    exact ⟨fun hx => (ha hx).trans b2, fun d hdm => b1 (hd d hdm)⟩
  · exact b3 n hn3 hn2 f hf

theorem analyzeGo_sound (R : List (String × Fixture)) :
    ∀ (fuel : Nat) (call : ACall) (w : Scope) (vis : List String)
      (w' : Scope) (vis' : List String),
    analyzeGo R fuel call (w, vis) = some (w', vis') →
    AGood R w vis w' vis'
    ∧ (match call with
       | .one m => m ∈ vis'
       | .many l => ∀ m ∈ l, m ∈ vis') := by
  intro fuel
  induction fuel with
  | zero => intro call w vis w' vis' h; exact Option.noConfusion h
  | succ fuel ih =>
    intro call w vis w' vis' h
    cases call with
    | one n =>
      unfold analyzeGo at h
      by_cases hc : vis.contains n = true
      · rw [if_pos hc] at h
        injection h with h2
        injection h2 with hw hv
        subst hw
        subst hv
        exact ⟨AGood_refl R w vis, by simpa using hc⟩
      · rw [if_neg hc] at h
        dsimp only at h
        have hnotmem : n ∉ vis := by
          intro hx
          exact hc (by simpa using hx)
        cases hget : alGet R n with
        | none =>
          rw [hget] at h
          injection h with h2
          injection h2 with hw hv
          subst hw
          subst hv
          refine ⟨⟨fun x hx => List.mem_cons_of_mem _ hx, Nat.le_refl _, ?_⟩,
            List.mem_cons_self _ _⟩
          intro n' hmem hnot f hf
          have hn' : n' = n := by
            rcases List.mem_cons.mp hmem with h' | h'
            · exact h'
            · exact absurd h' hnot
          subst hn'
          rw [hget] at hf
          exact Option.noConfusion hf
        | some f =>
          rw [hget] at h
          dsimp only at h
          obtain ⟨hA, hM⟩ := ih (.many f.parameters)
            (if ((f.is_async || f.is_async_generator)
                && is_scope_wider f.scope w) = true then f.scope else w)
            (n :: vis) w' vis' h
          have hwle : scopeOrder w ≤ scopeOrder
              (if ((f.is_async || f.is_async_generator)
                && is_scope_wider f.scope w) = true then f.scope else w) := by
            by_cases hcond : ((f.is_async || f.is_async_generator)
                && is_scope_wider f.scope w) = true
            · rw [if_pos hcond]
              rw [Bool.and_eq_true] at hcond
              have : scopeOrder w < scopeOrder f.scope := by
                have := hcond.2
                unfold is_scope_wider at this
                simpa using this
              exact Nat.le_of_lt this
            · rw [if_neg hcond]
          refine ⟨⟨fun x hx => hA.1 (List.mem_cons_of_mem _ hx),
            hwle.trans hA.2.1, ?_⟩, hA.1 (List.mem_cons_self _ _)⟩
          intro n' hmem' hnot' f' hf'
          by_cases hn : n' = n
          · subst hn
            rw [hget] at hf'
            injection hf' with hff
            subst hff
            constructor
            · intro hasync
              by_cases hw : is_scope_wider f.scope w = true
              · have hcond : ((f.is_async || f.is_async_generator)
                    && is_scope_wider f.scope w) = true := by
                  rw [Bool.and_eq_true]
                  exact ⟨hasync, hw⟩
                have := hA.2.1
                rw [if_pos hcond] at this
                exact this
              · have hle : scopeOrder f.scope ≤ scopeOrder w := by
                  unfold is_scope_wider at hw
                  simp at hw
                  exact hw
                exact (hle.trans hwle).trans hA.2.1
            · intro d hd
              exact hM d hd
          · have hnv : n' ∉ n :: vis := by
              intro hx
              rcases List.mem_cons.mp hx with h' | h'
              · exact hn h'
              · exact hnot' h'
            exact hA.2.2 n' hmem' hnv f' hf'
    | many l =>
      cases l with
      | nil =>
        unfold analyzeGo at h
        injection h with h2
        injection h2 with hw hv
        subst hw
        subst hv
        exact ⟨AGood_refl R w vis, fun m hm => absurd hm (List.not_mem_nil m)⟩
      | cons p ps =>
        unfold analyzeGo at h
        cases h1 : analyzeGo R fuel (.one p) (w, vis) with
        | none => rw [h1] at h; exact Option.noConfusion h
        | some acc1 =>
          rw [h1] at h
          dsimp only at h
          cases acc1 with
          | mk w1 vis1 =>
            obtain ⟨hA1, hm1⟩ := ih (.one p) w vis w1 vis1 h1
            obtain ⟨hA2, hm2⟩ := ih (.many ps) w1 vis1 w' vis' h
            refine ⟨AGood_trans R w vis w1 vis1 w' vis' hA1 hA2, ?_⟩
            intro m hm
            rcases List.mem_cons.mp hm with h' | h'
            · subst h'
              exact hA2.1 hm1
            · exact hm2 m h'

/-- Transitive reachability through fixture dependency edges from a root
set (the closure walked by `detect_required_loop_scope_from_fixtures`). -/
inductive ReachFrom (R : List (String × Fixture)) (roots : List String) :
    String → Prop where
  | root (n : String) (h : n ∈ roots) : ReachFrom R roots n
  | step (n : String) (f : Fixture) (d : String) (hr : ReachFrom R roots n)
      (hf : alGet R n = some f) (hd : d ∈ f.parameters) : ReachFrom R roots d

theorem reach_in_vis (R : List (String × Fixture)) (roots : List String)
    (w₀ : Scope) (fuel : Nat) (w' : Scope) (vis' : List String)
    (hrun : analyzeGo R fuel (.many roots) (w₀, []) = some (w', vis')) :
    ∀ n, ReachFrom R roots n → n ∈ vis' := by
  obtain ⟨hA, hM⟩ := analyzeGo_sound R fuel (.many roots) w₀ [] w' vis' hrun
  intro n hn
  induction hn with
  | root m hm => exact hM m hm
  | step m g d _ hg hd ih => exact (hA.2.2 m ih (List.not_mem_nil m) g hg).2 d hd

/-- Number of names of `allNames` not yet visited. -/
def unvis (allNames vis : List String) : Nat :=
  (allNames.toFinset \ vis.toFinset).card

theorem unvis_mono (allNames : List String) {v v' : List String}
    (h : v ⊆ v') : unvis allNames v' ≤ unvis allNames v := by
  apply Finset.card_le_card
  apply Finset.sdiff_subset_sdiff (Finset.Subset.refl _)
  intro x hx
  rw [List.mem_toFinset] at hx ⊢
  exact h hx

theorem unvis_push (allNames vis : List String) (n : String)
    (hmem : n ∈ allNames) (hnot : n ∉ vis) :
    unvis allNames (n :: vis) < unvis allNames vis := by
  unfold unvis
  rw [List.toFinset_cons, Finset.sdiff_insert]
  apply Finset.card_erase_lt_of_mem
  rw [Finset.mem_sdiff, List.mem_toFinset, List.mem_toFinset]
  exact ⟨hmem, hnot⟩

theorem unvis_zero (allNames vis : List String)
    (h : unvis allNames vis = 0) : ∀ n ∈ allNames, n ∈ vis := by
  intro n hn
  by_contra hnot
  have hmem : n ∈ allNames.toFinset \ vis.toFinset := by
    rw [Finset.mem_sdiff, List.mem_toFinset, List.mem_toFinset]
    exact ⟨hn, hnot⟩
  unfold unvis at h
  rw [Finset.card_eq_zero] at h
  rw [h] at hmem
  exact absurd hmem (Finset.not_mem_empty n)

theorem params_flatten (R : List (String × Fixture)) (n : String)
    (f : Fixture) (h : alGet R n = some f) :
    f.parameters ⊆ (R.map (fun p => p.2.parameters)).flatten
    ∧ f.parameters.length
        ≤ ((R.map (fun p => p.2.parameters)).flatten).length := by
  induction R with
  | nil => exact Option.noConfusion h
  | cons hd tl ih =>
    unfold alGet at h
    by_cases he : hd.1 = n
    · rw [if_pos he] at h
      injection h with hf
      subst hf
      constructor
      · intro x hx
        simp only [List.map_cons, List.flatten_cons]
        exact List.mem_append_left _ hx
      · simp only [List.map_cons, List.flatten_cons, List.length_append]
        omega
    · rw [if_neg he] at h
      obtain ⟨hs, hl⟩ := ih h
      constructor
      · intro x hx
        simp only [List.map_cons, List.flatten_cons]
        exact List.mem_append_right _ (hs hx)
      · simp only [List.map_cons, List.flatten_cons, List.length_append]
        omega

theorem analyzeGo_terminates (R : List (String × Fixture))
    (allNames : List String)
    (hP : ∀ n f, alGet R n = some f → f.parameters ⊆ allNames
        ∧ f.parameters.length ≤ allNames.length) :
    ∀ u,
      (∀ (n : String) (vis : List String) (w : Scope) (fuel : Nat),
        n ∈ allNames → unvis allNames vis ≤ u →
        (allNames.length + 2) * u + 1 ≤ fuel →
        ∃ w' vis', analyzeGo R fuel (.one n) (w, vis) = some (w', vis')
          ∧ vis ⊆ vis')
      ∧ (∀ (l : List String) (vis : List String) (w : Scope) (fuel : Nat),
        l ⊆ allNames → unvis allNames vis ≤ u →
        l.length + (allNames.length + 2) * u + 2 ≤ fuel →
        ∃ w' vis', analyzeGo R fuel (.many l) (w, vis) = some (w', vis')
          ∧ vis ⊆ vis') := by
  intro u
  induction u with
  | zero =>
    have hOne : ∀ (n : String) (vis : List String) (w : Scope) (fuel : Nat),
        n ∈ allNames → unvis allNames vis ≤ 0 →
        (allNames.length + 2) * 0 + 1 ≤ fuel →
        ∃ w' vis', analyzeGo R fuel (.one n) (w, vis) = some (w', vis')
          ∧ vis ⊆ vis' := by
      intro n vis w fuel hn hu hf
      have hin : n ∈ vis := unvis_zero allNames vis (Nat.le_zero.mp hu) n hn
      obtain ⟨f1, rfl⟩ : ∃ f1, fuel = f1 + 1 := ⟨fuel - 1, by omega⟩
      refine ⟨w, vis, ?_, fun x hx => hx⟩
      unfold analyzeGo
      rw [if_pos (by simpa using hin)]
    refine ⟨hOne, ?_⟩
    intro l
    induction l with
    | nil =>
      intro vis w fuel _ _ hf
      obtain ⟨f1, rfl⟩ : ∃ f1, fuel = f1 + 1 := ⟨fuel - 1, by omega⟩
      exact ⟨w, vis, rfl, fun x hx => hx⟩
    | cons p ps ihl =>
      intro vis w fuel hsub hu hf
      obtain ⟨f1, rfl⟩ : ∃ f1, fuel = f1 + 1 := ⟨fuel - 1, by omega⟩
      obtain ⟨w1, vis1, h1, hs1⟩ := hOne p vis w f1
        (hsub (List.mem_cons_self _ _)) hu (by simp at hf ⊢; omega)
      obtain ⟨w2, vis2, h2, hs2⟩ := ihl vis1 w1 f1
        (fun x hx => hsub (List.mem_cons_of_mem _ hx))
        ((unvis_mono allNames hs1).trans hu) (by simp at hf ⊢; omega)
      refine ⟨w2, vis2, ?_, hs1.trans hs2⟩
      unfold analyzeGo
      rw [h1]
      exact h2
  | succ u ihu =>
    have hOne : ∀ (n : String) (vis : List String) (w : Scope) (fuel : Nat),
        n ∈ allNames → unvis allNames vis ≤ u + 1 →
        (allNames.length + 2) * (u + 1) + 1 ≤ fuel →
        ∃ w' vis', analyzeGo R fuel (.one n) (w, vis) = some (w', vis')
          ∧ vis ⊆ vis' := by
      intro n vis w fuel hn hu hf
      obtain ⟨f1, rfl⟩ : ∃ f1, fuel = f1 + 1 := ⟨fuel - 1, by omega⟩
      by_cases hc : vis.contains n = true
      · refine ⟨w, vis, ?_, fun x hx => hx⟩
        unfold analyzeGo
        rw [if_pos hc]
      · have hnotmem : n ∉ vis := by
          intro hx
          exact hc (by simpa using hx)
        have hless : unvis allNames (n :: vis) ≤ u := by
          have := unvis_push allNames vis n hn hnotmem
          omega
        cases hget : alGet R n with
        | none =>
          refine ⟨w, n :: vis, ?_, fun x hx => List.mem_cons_of_mem _ hx⟩
          unfold analyzeGo
          rw [if_neg hc]
          dsimp only
          rw [hget]
        | some f =>
          obtain ⟨hsub, hlen⟩ := hP n f hget
          obtain ⟨w', vis', hrun, hvs⟩ := ihu.2 f.parameters (n :: vis)
            (if ((f.is_async || f.is_async_generator)
                && is_scope_wider f.scope w) = true then f.scope else w)
            f1 hsub hless (by
              have h2 : (allNames.length + 2) * (u + 1)
                  = (allNames.length + 2) * u + allNames.length + 2 := by ring
              omega)
          refine ⟨w', vis', ?_, fun x hx => hvs (List.mem_cons_of_mem _ hx)⟩
          unfold analyzeGo
          rw [if_neg hc]
          dsimp only
          rw [hget]
          dsimp only
          exact hrun
    refine ⟨hOne, ?_⟩
    intro l
    induction l with
    | nil =>
      intro vis w fuel _ _ hf
      obtain ⟨f1, rfl⟩ : ∃ f1, fuel = f1 + 1 := ⟨fuel - 1, by omega⟩
      exact ⟨w, vis, rfl, fun x hx => hx⟩
    | cons p ps ihl =>
      intro vis w fuel hsub hu hf
      obtain ⟨f1, rfl⟩ : ∃ f1, fuel = f1 + 1 := ⟨fuel - 1, by omega⟩
      obtain ⟨w1, vis1, h1, hs1⟩ := hOne p vis w f1
        (hsub (List.mem_cons_self _ _)) hu (by simp at hf ⊢; omega)
      obtain ⟨w2, vis2, h2, hs2⟩ := ihl vis1 w1 f1
        (fun x hx => hsub (List.mem_cons_of_mem _ hx))
        ((unvis_mono allNames hs1).trans hu) (by simp at hf ⊢; omega)
      refine ⟨w2, vis2, ?_, hs1.trans hs2⟩
      unfold analyzeGo
      rw [h1]
      exact h2

theorem analyzeGo_fuel_sufficient (R : List (String × Fixture))
    (roots : List String) (w₀ : Scope) :
    ∃ w' vis', analyzeGo R (walkFuel R roots) (.many roots) (w₀, [])
      = some (w', vis') := by
  have hP : ∀ n f, alGet R n = some f →
      f.parameters ⊆ roots ++ walkCandidates R
      ∧ f.parameters.length ≤ (roots ++ walkCandidates R).length := by
    intro n f h
    obtain ⟨hs, hl⟩ := params_flatten R n f h
    constructor
    · intro x hx
      apply List.mem_append_right
      unfold walkCandidates
      exact List.mem_append_right _ (hs hx)
    · rw [List.length_append]
      unfold walkCandidates
      rw [List.length_append]
      omega
  obtain ⟨w', vis', hrun, _⟩ :=
    (analyzeGo_terminates R (roots ++ walkCandidates R) hP
      ((roots ++ walkCandidates R).length)).2 roots [] w₀ (walkFuel R roots)
      (List.subset_append_left _ _)
      (by
        have h1 : unvis (roots ++ walkCandidates R) [] ≤
            (roots ++ walkCandidates R).length := by
          unfold unvis
          simp only [List.toFinset_nil, Finset.sdiff_empty]
          exact List.toFinset_card_le _
        exact h1)
      (by
        unfold walkFuel
        rw [List.length_append]
        have h2 : (roots.length + (walkCandidates R).length + 2)
              * (roots.length + (walkCandidates R).length + 2)
            = (roots.length + (walkCandidates R).length + 2)
                * (roots.length + (walkCandidates R).length)
              + 2 * (roots.length + (walkCandidates R).length) + 4 := by ring
        have h3 : ((walkCandidates R).length + roots.length + 2)
              * ((walkCandidates R).length + roots.length + 2)
            = (roots.length + (walkCandidates R).length + 2)
                * (roots.length + (walkCandidates R).length + 2) := by ring
        rw [h3, h2]
        have h4 : (roots.length + (walkCandidates R).length + 2)
              * (roots.length + (walkCandidates R).length)
            = ((roots ++ walkCandidates R).length + 2)
                * (roots ++ walkCandidates R).length := by
          rw [List.length_append]
        rw [h4]
        omega)
  exact ⟨w', vis', hrun⟩

/-- The widest reachable async-fixture scope never exceeds the detected
required loop scope. -/
theorem detect_required_sound (fixtures : List (String × Fixture))
    (params : List String) (tc : TestCase) (n : String) (f : Fixture)
    (hr : ReachFrom fixtures (detectRoots fixtures params tc) n)
    (hf : alGet fixtures n = some f)
    (ha : (f.is_async || f.is_async_generator) = true) :
    scopeOrder f.scope
      ≤ scopeOrder (detect_required_loop_scope fixtures params tc) := by
  obtain ⟨w', vis', hrun⟩ := analyzeGo_fuel_sufficient fixtures
    (detectRoots fixtures params tc) .function
  obtain ⟨hA, _⟩ := analyzeGo_sound fixtures _
    (.many (detectRoots fixtures params tc)) .function [] w' vis' hrun
  have hdet : detect_required_loop_scope fixtures params tc = w' := by
    unfold detect_required_loop_scope
    dsimp only
    rw [hrun]
  have hvis : n ∈ vis' := reach_in_vis fixtures _ .function _ w' vis' hrun n hr
  rw [hdet]
  exact (hA.2.2 n hvis (List.not_mem_nil n) f hf).1 ha

theorem loopMsg_contains (a b c d' : String) :
    strContains (loopScopeMismatchMsg a b c d') "Loop scope mismatch" = true
    ∧ strContains (loopScopeMismatchMsg a b c d') a = true
    ∧ strContains (loopScopeMismatchMsg a b c d') b = true
    ∧ strContains (loopScopeMismatchMsg a b c d') c = true := by
  refine ⟨?_, ?_, ?_, ?_⟩ <;> unfold loopScopeMismatchMsg
  · repeat apply strContains_append_left
    decide
  all_goals
    repeat
      first
      | (apply strContains_append_right
         exact strContains_self _)
      | apply strContains_append_left

/-- A claimed explicit loop scope narrower than the detected requirement
makes `validate_loop_scope_compatibility` return the mismatch message. -/
theorem validate_mismatch (tc : TestCase)
    (fixtures : List (String × Fixture)) (explicit : Scope)
    (hex : get_explicit_loop_scope_from_marks tc = some explicit)
    (hw : is_scope_wider (detect_required_loop_scope fixtures tc.parameters tc)
        explicit = true) :
    ∃ msg, validate_loop_scope_compatibility tc fixtures = some msg
      ∧ strContains msg "Loop scope mismatch" = true
      ∧ strContains msg tc.name = true
      ∧ strContains msg (scope_to_string explicit) = true
      ∧ strContains msg (scope_to_string
          (detect_required_loop_scope fixtures tc.parameters tc)) = true := by
  unfold validate_loop_scope_compatibility
  rw [hex]
  dsimp only
  rw [if_pos hw]
  refine ⟨_, rfl, ?_, ?_, ?_, ?_⟩
  · exact (loopMsg_contains _ _ _ _).1
  · exact (loopMsg_contains _ _ _ _).2.1
  · exact (loopMsg_contains _ _ _ _).2.2.1
  · exact (loopMsg_contains _ _ _ _).2.2.2

/-- The session-scoped async fixture of the C4 scenario. -/
def c4af : Fixture :=
  { name := "af", parameters := [], scope := .session, is_async := true }

/-- Module whose registry holds only the async fixture `af`. -/
def c4mod : TestModule := { path := "m.py", fixtures := [("af", c4af)] }

/-- A test depending on `af`, explicitly marked
`asyncio(loop_scope="function")`, and carrying a skip reason. -/
def c4tc : TestCase :=
  { name := "t", display_name := "t", path := "m.py", parameters := ["af"],
    marks := [{ name := "asyncio", kwargs := [("loop_scope", PVal.str "function")] }],
    skip_reason := some "r" }

/-- The same test without the skip reason. -/
def c4tcv : TestCase := { c4tc with skip_reason := none }

/-- An unannotated test depending on `af`. -/
def c4tcp : TestCase :=
  { name := "t2", display_name := "t2", path := "m.py", parameters := ["af"] }

/-- The mismatch message of the C4 scenario. -/
def c4msg : String := loopScopeMismatchMsg "t" "function" "session" "'af'"

/-- C4 counterexample: the explicit `function` loop scope contradicts the
session-scoped async fixture dependency — validation does report a
mismatch — yet the test does not fail: its `skip_reason` wins and the
result is `skipped`. -/
theorem C4_counterexample :
    (validate_loop_scope_compatibility c4tc c4mod.fixtures).isSome = true
    ∧ (run_single_test (fun _ _ => TdRes.stopIter) (fun _ => 0) c4mod c4tc
        {} {}).2.status = "skipped" := by
  exact ⟨by decide, rfl⟩

/-- C4 (amended): (i) without an explicit mark the effective loop scope is
the detected one; (ii) the detected required loop scope is at least the
scope of every async fixture reachable from the test's roots; (iii) an
explicit loop scope strictly narrower than the requirement makes
validation return a mismatch message naming the test, both scopes and the
phrase `Loop scope mismatch`; (iv) for a test without a skip reason, a
validation message fails `execute_test_case` immediately with the engine
state untouched — before any fixture resolution — and (when the message is
not a skip signal) the test is reported `failed` with that message. -/
theorem C4_loop_scope_soundness :
    (∀ (tc : TestCase) (fixtures : List (String × Fixture)),
      get_explicit_loop_scope_from_marks tc = none →
      determine_test_loop_scope tc fixtures
        = detect_required_loop_scope fixtures tc.parameters tc)
    ∧ (∀ (fixtures : List (String × Fixture)) (params : List String)
        (tc : TestCase) (n : String) (f : Fixture),
      ReachFrom fixtures (detectRoots fixtures params tc) n →
      alGet fixtures n = some f →
      (f.is_async || f.is_async_generator) = true →
      scopeOrder f.scope
        ≤ scopeOrder (detect_required_loop_scope fixtures params tc))
    ∧ (∀ (tc : TestCase) (fixtures : List (String × Fixture))
        (explicit : Scope),
      get_explicit_loop_scope_from_marks tc = some explicit →
      is_scope_wider (detect_required_loop_scope fixtures tc.parameters tc)
        explicit = true →
      ∃ msg, validate_loop_scope_compatibility tc fixtures = some msg
        ∧ strContains msg "Loop scope mismatch" = true
        ∧ strContains msg tc.name = true
        ∧ strContains msg (scope_to_string explicit) = true
        ∧ strContains msg (scope_to_string
            (detect_required_loop_scope fixtures tc.parameters tc)) = true)
    ∧ (∀ (env : TdEnv) (dur : String → Rat) (module : TestModule)
        (tc : TestCase) (config : RunConfiguration) (s : S) (msg : String),
      tc.skip_reason = none →
      validate_loop_scope_compatibility tc module.fixtures = some msg →
      execute_test_case env module tc config s
        = (s, .error { message := msg, stdout := none, stderr := none })
      ∧ (is_skip_exception msg = false →
        (run_single_test env dur module tc config s).1 = s
        ∧ (run_single_test env dur module tc config s).2.status = "failed"
        ∧ (run_single_test env dur module tc config s).2.message = some msg)) := by
  refine ⟨?_, ?_, ?_, ?_⟩
  · intro tc fixtures h
    unfold determine_test_loop_scope
    rw [h]
  · intro fixtures params tc n f hr hf ha
    exact detect_required_sound fixtures params tc n f hr hf ha
  · intro tc fixtures explicit hex hw
    exact validate_mismatch tc fixtures explicit hex hw
  · intro env dur module tc config s msg hskip hval
    have hexec : execute_test_case env module tc config s
        = (s, .error { message := msg, stdout := none, stderr := none }) := by
      unfold execute_test_case
      rw [hval]
    refine ⟨hexec, ?_⟩
    intro hnotskip
    unfold run_single_test
    rw [hskip]
    dsimp only
    rw [hexec]
    dsimp only
    rw [if_neg (by simp [hnotskip])]
    exact ⟨rfl, rfl, rfl⟩

set_option maxRecDepth 8000 in
/-- C4 witness: the amended properties on the concrete one-fixture
scenario. -/
theorem C4_loop_scope_soundness_witness :
    determine_test_loop_scope c4tcp c4mod.fixtures
      = detect_required_loop_scope c4mod.fixtures c4tcp.parameters c4tcp
    ∧ scopeOrder c4af.scope
      ≤ scopeOrder (detect_required_loop_scope c4mod.fixtures
          c4tcv.parameters c4tcv)
    ∧ (∃ msg, validate_loop_scope_compatibility c4tcv c4mod.fixtures = some msg
        ∧ strContains msg "Loop scope mismatch" = true
        ∧ strContains msg c4tcv.name = true
        ∧ strContains msg (scope_to_string .function) = true
        ∧ strContains msg (scope_to_string
            (detect_required_loop_scope c4mod.fixtures c4tcv.parameters
              c4tcv)) = true)
    ∧ (run_single_test (fun _ _ => TdRes.stopIter) (fun _ => 0) c4mod c4tcv
        {} {}).2.status = "failed" := by
  have T := C4_loop_scope_soundness
  refine ⟨T.1 c4tcp c4mod.fixtures rfl,
    T.2.1 c4mod.fixtures c4tcv.parameters c4tcv "af" c4af
      (ReachFrom.root "af" (by decide)) rfl (by decide),
    T.2.2.1 c4tcv c4mod.fixtures .function rfl (by decide),
    ?_⟩
  have h := T.2.2.2 (fun _ _ => TdRes.stopIter) (fun _ => 0) c4mod c4tcv
    {} {} c4msg rfl (by rfl)
  exact (h.2 (by decide)).2.1

end Rustest

namespace Rustest

/-! ## C3: LIFO teardown -/

theorem executedHandles_append (a b : List Ev) :
    executedHandles (a ++ b) = executedHandles a ++ executedHandles b := by
  induction a with
  | nil => rfl
  | cons e t ih => cases e <;> simp [executedHandles, ih]

theorem runTeardown_executed (env : TdEnv) (h : Handle) :
    executedHandles (runTeardown env h) = [(h.key, h.id)] := by
  unfold runTeardown
  cases env h.key h.id <;> rfl

theorem finalize_go_executed (env : TdEnv) :
    ∀ l : List Handle,
      executedHandles (finalize_generators.go env l) = l.map (fun h => (h.key, h.id)) := by
  intro l
  induction l with
  | nil => rfl
  | cons h t ih =>
    rw [finalize_generators.go, executedHandles_append, runTeardown_executed, ih]
    rfl

theorem execute_env_indep (env env' : TdEnv) (module : TestModule)
    (tc : TestCase) (config : RunConfiguration) (s : S) :
    (execute_test_case env module tc config s).2
      = (execute_test_case env' module tc config s).2 := by
  unfold execute_test_case
  cases hv : validate_loop_scope_compatibility tc module.fixtures with
  | some msg => rfl
  | none =>
    simp only
    rcases ha : resolveAutouse (mkRCfg module.fixtures tc
        (determine_test_loop_scope tc module.fixtures))
        (resolverFuel (mkRCfg module.fixtures tc
          (determine_test_loop_scope tc module.fixtures))) { g := s } with ⟨st1, e1⟩
    cases e1 with
    | error e => rfl
    | ok u =>
      simp only
      rcases hu : resolveUsefixtures _ _ tc.marks st1 with ⟨st2, e2⟩
      cases e2 with
      | error e => rfl
      | ok u2 =>
        simp only
        rcases hp : resolveGo _ _ (.many tc.parameters) st2 with ⟨st3, e3⟩
        cases e3 with
        | error e => rfl
        | ok r =>
          simp only
          cases hr : (tc.body _).raises <;> rfl

theorem run_single_env_indep (env env' : TdEnv) (dur : String → Rat)
    (module : TestModule) (tc : TestCase) (config : RunConfiguration) (s : S) :
    (run_single_test env dur module tc config s).2
      = (run_single_test env' dur module tc config s).2 := by
  have h2 := execute_env_indep env env' module tc config s
  unfold run_single_test
  cases hs : tc.skip_reason with
  | some reason => rfl
  | none =>
    simp only
    rcases he : execute_test_case env module tc config s with ⟨s1, r1⟩
    rcases he' : execute_test_case env' module tc config s with ⟨s1', r1'⟩
    rw [he, he'] at h2
    simp only at h2
    subst h2
    cases r1 with
    | ok success => rfl
    | error failure =>
      dsimp only
      by_cases hc : is_skip_exception failure.message = true
      · rw [if_pos hc, if_pos hc]
      · rw [if_neg hc, if_neg hc]

/-- The teardown layer of a scope (the shared lists; the function layer
lives in the resolver). -/
def tdLayer (s : S) : Scope → List Handle
  | .session => s.ctx.td_session
  | .pkg => s.ctx.td_package
  | .module => s.ctx.td_module
  | .cls => s.ctx.td_class
  | .function => []

/-- C3: within one scope layer, teardowns run in exact reverse (LIFO) order
of their construction order, each exactly once per drain, the drained layer
is emptied (so no teardown runs twice), a teardown error never prevents the
remaining sibling teardowns (the executed sequence is the same for every
teardown-outcome oracle), and teardown outcomes never change a test's
result. -/
theorem C3_lifo_teardown :
    (∀ (env : TdEnv) (gens : List Handle),
      executedHandles (finalize_generators env gens)
        = gens.reverse.map (fun h => (h.key, h.id)))
    ∧ (∀ (env env' : TdEnv) (gens : List Handle),
      executedHandles (finalize_generators env gens)
        = executedHandles (finalize_generators env' gens))
    ∧ (∀ (env : TdEnv) (sc : Scope) (s : S), tdLayer (drainScopeS env sc s) sc = [])
    ∧ (∀ (env : TdEnv) (st : RSt), (drainFunctionScope env st).function_teardowns = [])
    ∧ (∀ (env env' : TdEnv) (dur : String → Rat) (module : TestModule)
        (tc : TestCase) (config : RunConfiguration) (s : S),
      (run_single_test env dur module tc config s).2.status
        = (run_single_test env' dur module tc config s).2.status) := by
  refine ⟨?_, ?_, ?_, ?_, ?_⟩
  · intro env gens
    unfold finalize_generators
    exact finalize_go_executed env gens.reverse
  · intro env env' gens
    unfold finalize_generators
    rw [finalize_go_executed, finalize_go_executed]
  · intro env sc s
    cases sc <;> rfl
  · intro env st
    unfold drainFunctionScope
    cases st.function_loop <;> rfl
  · intro env env' dur module tc config s
    rw [run_single_env_indep env env' dur module tc config s]

end Rustest
